import Mathlib

/-!
# SmartBin: waste-collection core

A shallow embedding of the SmartBin backend (Express handlers over Mongoose
models) and the properties of its specification.

Conventions of the embedding

* A Mongo `ObjectId` is a natural number, a `Date` is an integer number of
  milliseconds, fill levels and counters are integers, money and weights are
  rationals.
* The database is a `Store`: one list of documents per model. `findById`
  returns the first document carrying the id, `save` of a loaded document
  replaces the document with its id, `save` of a new document appends it.
* `save` runs the `min` / `max` / `required` validators the schema declares;
  an error thrown inside a handler is caught by its `catch` block, which
  answers 500 and leaves whatever was written before the throw. Documents
  already stored are taken to pass their validators (bins and collections are
  only ever written through `save`), so that validating a whole document and
  validating the paths a handler modified come to the same.
* A handler is a function from the store, the clock, the authenticated user
  and the request to an HTTP status code and the next store.
* The handlers compute in exact rationals. JavaScript computes in IEEE 754
  doubles; the functions of `Double` follow the source operation by operation
  in doubles, for the two functions whose result turns on the rounding.
-/

namespace SmartBin

abbrev ObjectId := Nat

abbrev Date := Int

/-! ## JavaScript operators -/

/-- `x || 0` for a number that may be absent: an absent and a zero operand
are falsy. -/
def orZero {α : Type} [Zero α] [DecidableEq α] (x : Option α) : α :=
  match x with
  | some v => if v = 0 then 0 else v
  | none => 0

/-- Truthiness of an optional string: absent and `''` are falsy. -/
def truthyString (x : Option String) : Option String :=
  match x with
  | some v => if v = "" then none else some v
  | none => none

/-- `Math.round`: the nearest integer, halves towards plus infinity. -/
def mathRound (x : ℚ) : Int :=
  ⌊x + 1 / 2⌋

/-! ## models/Bin.js -/

/-- The `status` enum of `binSchema`; `partialFill` is the value `'partial'`. -/
inductive BinStatus
  | empty
  | partialFill
  | full
  | overflowing
  | maintenance
  deriving DecidableEq, Repr

/-- The `type` enum of `binSchema`. -/
inductive BinType
  | general
  | recyclable
  | organic
  | hazardous
  deriving DecidableEq, Repr

/-- The `statistics` sub-document of `binSchema`. -/
structure BinStatistics where
  totalCollections : Int := 0
  averageFillLevel : Int := 0
  lastWeekCollections : Int := 0
  deriving DecidableEq, Repr

/-- A document of `binSchema` (`binId`, `qrCode`, `location` and
`maintenanceHistory` carry no logic and are left out). -/
structure Bin where
  _id : ObjectId
  type : BinType := BinType.general
  capacity : Int := 100
  currentFillLevel : Int := 0
  status : BinStatus := BinStatus.empty
  lastUpdated : Date := 0
  lastCollected : Option Date := none
  collectionFrequency : Int := 7
  isActive : Bool := true
  assignedCollector : Option ObjectId := none
  statistics : BinStatistics := {}
  deriving DecidableEq, Repr

/-- `binSchema.methods.updateStatus`. -/
def Bin.updateStatus (b : Bin) (now : Date) : Bin :=
  { b with
    status :=
      if b.currentFillLevel ≥ 90 then BinStatus.overflowing
      else if b.currentFillLevel ≥ 75 then BinStatus.full
      else if b.currentFillLevel ≥ 25 then BinStatus.partialFill
      else BinStatus.empty
    lastUpdated := now }

/-- The specification's `deriveStatus(fillLevel)`, written after its words:
overflowing if at least 90; full if at least 75; partial if at least 25;
else empty. -/
def deriveStatus (fillLevel : Int) : BinStatus :=
  if 90 ≤ fillLevel then BinStatus.overflowing
  else if 75 ≤ fillLevel then BinStatus.full
  else if 25 ≤ fillLevel then BinStatus.partialFill
  else BinStatus.empty

/-- The validators `binSchema` declares: `currentFillLevel` has `min: 0` and
`max: 100`. -/
def Bin.validate (b : Bin) : Bool :=
  decide (0 ≤ b.currentFillLevel) && decide (b.currentFillLevel ≤ 100)

/-- `binSchema.methods.needsCollection`, with `new Date()` passed as `now`. -/
def Bin.needsCollection (b : Bin) (now : Date) : Bool :=
  let daysSinceLastCollection : Int :=
    match b.lastCollected with
    | some lastCollected => ⌊((now - lastCollected : Int) : ℚ) / (1000 * 60 * 60 * 24)⌋
    | none => b.collectionFrequency
  decide (b.currentFillLevel ≥ 80) || decide (daysSinceLastCollection ≥ b.collectionFrequency)

/-! ## models/User.js -/

/-- The `role` enum of `userSchema`. -/
inductive Role
  | resident
  | premium_resident
  | collector
  | admin
  deriving DecidableEq, Repr

/-- The `statistics` sub-document of `userSchema`: it declares
`totalDisposals`, `recyclingScore` and `lastDisposal`, and nothing else. -/
structure UserStatistics where
  totalDisposals : ℚ := 0
  recyclingScore : ℚ := 0
  lastDisposal : Option Date := none
  deriving DecidableEq, Repr

/-- A document of `userSchema` (name, email, password, phone, address,
profile and preferences carry no logic and are left out). -/
structure User where
  _id : ObjectId
  role : Role := Role.resident
  isPremium : Bool := false
  premiumExpiry : Option Date := none
  isActive : Bool := true
  statistics : UserStatistics := {}
  deriving DecidableEq, Repr

/-- `userSchema.methods.isPremiumUser`, with `new Date()` passed as `now`. -/
def User.isPremiumUser (u : User) (now : Date) : Bool :=
  decide (u.role = Role.premium_resident) && u.isPremium &&
    (match u.premiumExpiry with
     | none => true
     | some expiry => decide (expiry > now))

/-- The update operator `$inc: { [path]: n }` applied to a user document.
Mongoose casts an update against the schema in strict mode (the default,
which `userSchema` keeps): a path the schema does not declare is removed from
the update before it is sent, so only the two numeric paths of
`statistics` have an effect. -/
def User.inc (u : User) (path : String) (n : Int) : User :=
  if path = "statistics.totalDisposals" then
    { u with statistics := { u.statistics with totalDisposals := u.statistics.totalDisposals + n } }
  else if path = "statistics.recyclingScore" then
    { u with statistics := { u.statistics with recyclingScore := u.statistics.recyclingScore + n } }
  else u

/-- The update operator `$set: { [path]: d }` for a date, under the same
strict-mode cast as `User.inc`. -/
def User.setDate (u : User) (path : String) (d : Date) : User :=
  if path = "statistics.lastDisposal" then
    { u with statistics := { u.statistics with lastDisposal := some d } }
  else if path = "premiumExpiry" then { u with premiumExpiry := some d }
  else u

/-- The update `{ [path]: v }` of a number on a user (Mongoose sends it as a
`$set`), under the same strict-mode cast as `User.inc`. -/
def User.setNumber (u : User) (path : String) (v : ℚ) : User :=
  if path = "statistics.totalDisposals" then
    { u with statistics := { u.statistics with totalDisposals := v } }
  else if path = "statistics.recyclingScore" then
    { u with statistics := { u.statistics with recyclingScore := v } }
  else u

/-! ## models/Collection.js -/

/-- The `type` enum of `collectionSchema`. -/
inductive CollectionType
  | scheduled
  | requested
  | emergency
  | bulk
  deriving DecidableEq, Repr

/-- The `status` enum of `collectionSchema`. -/
inductive CollectionStatus
  | assigned
  | in_progress
  | completed
  | cancelled
  deriving DecidableEq, Repr

/-- The `payment.status` enum of `collectionSchema`. -/
inductive PaymentStatus
  | pending
  | completed
  | failed
  | refunded
  deriving DecidableEq, Repr

/-- One category of `wasteType`: `{ weight: Number, volume: Number }`. -/
structure WasteCategory where
  weight : Option ℚ := none
  volume : Option ℚ := none
  deriving DecidableEq, Repr

/-- The `wasteType` sub-document (the `wasteDetails` of a request body). -/
structure WasteDetails where
  general : Option WasteCategory := none
  recyclable : Option WasteCategory := none
  organic : Option WasteCategory := none
  hazardous : Option WasteCategory := none
  deriving DecidableEq, Repr

/-- The `payment` object of `collectionSchema`: `amount` has no default,
`status` has the default `'pending'`. -/
structure CollectionPayment where
  amount : Option ℚ := none
  status : PaymentStatus := PaymentStatus.pending
  transactionId : Option String := none
  method : Option String := none
  deriving DecidableEq, Repr

/-- A document of `collectionSchema` (`location` is left out). -/
structure Collection where
  _id : ObjectId
  bin : ObjectId
  collector : ObjectId
  resident : Option ObjectId := none
  type : CollectionType := CollectionType.scheduled
  status : CollectionStatus := CollectionStatus.assigned
  scheduledDate : Date
  completedDate : Option Date := none
  fillLevelBefore : Option Int := none
  fillLevelAfter : Int := 0
  wasteType : WasteDetails := {}
  notes : Option String := none
  images : List String := []
  rating : Option Int := none
  feedback : Option String := none
  route : Option ObjectId := none
  payment : Option CollectionPayment := none
  description : Option String := none
  deriving DecidableEq, Repr

/-- The `payment` of a document built by `new Collection({ ..., payment })`.
In `collectionSchema` the key `payment` is a nested path, not a sub-schema:
Mongoose keeps the defaults of the paths below it on every new document, and
while constructing it skips a key whose value is `undefined` when a default is
already there. So a document built with `payment: undefined` carries
`payment: { status: 'pending' }`. -/
def CollectionPayment.ofConstructor (given : Option CollectionPayment) :
    Option CollectionPayment :=
  match given with
  | some payment => some payment
  | none => some {}

/-- The virtual `totalWeight` of `collectionSchema`. -/
def Collection.totalWeight (c : Collection) : ℚ :=
  orZero (c.wasteType.general.bind (fun w => w.weight)) +
  orZero (c.wasteType.recyclable.bind (fun w => w.weight)) +
  orZero (c.wasteType.organic.bind (fun w => w.weight)) +
  orZero (c.wasteType.hazardous.bind (fun w => w.weight))

/-- The virtual `totalVolume` of `collectionSchema`. -/
def Collection.totalVolume (c : Collection) : ℚ :=
  orZero (c.wasteType.general.bind (fun w => w.volume)) +
  orZero (c.wasteType.recyclable.bind (fun w => w.volume)) +
  orZero (c.wasteType.organic.bind (fun w => w.volume)) +
  orZero (c.wasteType.hazardous.bind (fun w => w.volume))

/-- The validators `collectionSchema` declares: `fillLevelBefore` and
`fillLevelAfter` in `[0, 100]`, `rating` in `[1, 5]`. -/
def Collection.validate (c : Collection) : Bool :=
  (match c.fillLevelBefore with
   | none => true
   | some f => decide (0 ≤ f) && decide (f ≤ 100)) &&
  decide (0 ≤ c.fillLevelAfter) && decide (c.fillLevelAfter ≤ 100) &&
  (match c.rating with
   | none => true
   | some r => decide (1 ≤ r) && decide (r ≤ 5))

/-! ## models/Route.js -/

/-- The values a route's `status` takes in the code: the four of the schema's
enum, and `'in_progress'`, which `startRoute` assigns. -/
inductive RouteStatus
  | active
  | completed
  | paused
  | cancelled
  | in_progress
  deriving DecidableEq, Repr

/-- One entry of `bins`: `{ bin, order, estimatedTime }`. -/
structure RouteBin where
  bin : ObjectId
  order : Option Int := none
  estimatedTime : Option Int := none
  deriving DecidableEq, Repr

/-- A JavaScript number where a division may have produced it: a finite
value, or what a division by zero yields. -/
inductive JsNumber
  | finite (value : ℚ)
  | infinity
  | negInfinity
  | nan
  deriving DecidableEq, Repr

/-- The quotient `a / b` of two finite JavaScript numbers: a division by zero
yields `Infinity`, `-Infinity` or `NaN`, and throws nothing. -/
def JsNumber.div (a b : ℚ) : JsNumber :=
  if b ≠ 0 then JsNumber.finite (a / b)
  else if 0 < a then JsNumber.infinity
  else if a < 0 then JsNumber.negInfinity
  else JsNumber.nan

/-- `Number.isFinite`. -/
def JsNumber.isFinite (x : JsNumber) : Bool :=
  match x with
  | JsNumber.finite _ => true
  | _ => false

/-- The `statistics` sub-document of `routeSchema`. -/
structure RouteStatistics where
  totalCollections : Int := 0
  totalWeight : ℚ := 0
  totalVolume : ℚ := 0
  averageTimePerBin : JsNumber := JsNumber.finite 0
  deriving DecidableEq, Repr

/-- A document of `routeSchema` (the recurrence fields are left out). -/
structure Route where
  _id : ObjectId
  name : String
  description : Option String := none
  collector : ObjectId
  bins : List RouteBin := []
  status : RouteStatus := RouteStatus.active
  scheduledDate : Date
  startTime : Option Date := none
  endTime : Option Date := none
  estimatedDuration : Option Int := none
  actualDuration : Option Int := none
  completedBins : List ObjectId := []
  statistics : RouteStatistics := {}
  notes : Option String := none
  deriving DecidableEq, Repr

/-- The validators `routeSchema` declares: `status` is one of `'active'`,
`'completed'`, `'paused'`, `'cancelled'`. -/
def Route.validate (r : Route) : Bool :=
  decide (r.status ≠ RouteStatus.in_progress)

/-- `routeSchema.methods.getProgress`, in exact rational arithmetic
(`Double.getProgress` follows the doubles of the source). -/
def Route.getProgress (r : Route) : Int :=
  if r.bins.length = 0 then 0
  else mathRound ((r.completedBins.length : ℚ) / (r.bins.length : ℚ) * 100)

/-- `routeSchema.methods.getRemainingBins`; `completedBins.includes` compares
`ObjectId`s by value. -/
def Route.getRemainingBins (r : Route) : List RouteBin :=
  r.bins.filter (fun binRef => !r.completedBins.contains binRef.bin)

/-- `routeSchema.methods.isOverdue`, with `new Date()` passed as `now`. -/
def Route.isOverdue (r : Route) (now : Date) : Bool :=
  decide (r.status = RouteStatus.active) && decide (r.scheduledDate < now) &&
    decide (r.getProgress < 100)

/-- The update operator `$addToSet: { completedBins: b }`. -/
def Route.addToSetCompletedBins (r : Route) (b : ObjectId) : Route :=
  if b ∈ r.completedBins then r else { r with completedBins := r.completedBins ++ [b] }

/-- The update operator `$inc: { [path]: n }` on a route, under the strict-mode
cast: `routeSchema` declares `statistics.totalCollections`. -/
def Route.inc (r : Route) (path : String) (n : Int) : Route :=
  if path = "statistics.totalCollections" then
    { r with statistics := { r.statistics with totalCollections := r.statistics.totalCollections + n } }
  else r

/-! ## The database -/

/-- The four Mongo collections the handlers use. -/
structure Store where
  bins : List Bin := []
  users : List User := []
  collections : List Collection := []
  routes : List Route := []
  deriving DecidableEq, Repr

/-- `Bin.findById`. -/
def Store.findBin (s : Store) (id : ObjectId) : Option Bin :=
  s.bins.find? (fun b => b._id == id)

/-- `User.findById`. -/
def Store.findUser (s : Store) (id : ObjectId) : Option User :=
  s.users.find? (fun u => u._id == id)

/-- `Collection.findById`. -/
def Store.findCollection (s : Store) (id : ObjectId) : Option Collection :=
  s.collections.find? (fun c => c._id == id)

/-- `Route.findById`. -/
def Store.findRoute (s : Store) (id : ObjectId) : Option Route :=
  s.routes.find? (fun r => r._id == id)

/-- The write of `bin.save()` for a loaded bin. -/
def Store.putBin (s : Store) (b : Bin) : Store :=
  { s with bins := s.bins.map (fun x => if x._id == b._id then b else x) }

/-- Handler step `await bin.save()` for a loaded bin: `none` when validation
throws. -/
def Store.saveBin (s : Store) (b : Bin) : Option Store :=
  if b.validate then some (s.putBin b) else none

/-- The write of `collection.save()` for a loaded collection. -/
def Store.putCollection (s : Store) (c : Collection) : Store :=
  { s with collections := s.collections.map (fun x => if x._id == c._id then c else x) }

/-- Handler step `await collection.save()` for a loaded collection. -/
def Store.saveCollection (s : Store) (c : Collection) : Option Store :=
  if c.validate then some (s.putCollection c) else none

/-- The write of `route.save()` for a loaded route. -/
def Store.putRoute (s : Store) (r : Route) : Store :=
  { s with routes := s.routes.map (fun x => if x._id == r._id then r else x) }

/-- Handler step `await route.save()` for a loaded route. -/
def Store.saveRoute (s : Store) (r : Route) : Option Store :=
  if r.validate then some (s.putRoute r) else none

/-- `User.findByIdAndUpdate(id, update)`: the update is applied to the user
with this id, without running validators. -/
def Store.updateUser (s : Store) (id : ObjectId) (update : User → User) : Store :=
  { s with users := s.users.map (fun u => if u._id == id then update u else u) }

/-- `Route.findByIdAndUpdate(id, update)`. -/
def Store.updateRoute (s : Store) (id : ObjectId) (update : Route → Route) : Store :=
  { s with routes := s.routes.map (fun r => if r._id == id then update r else r) }

/-! ## middleware/auth.js -/

/-- `authorizeRole(...roles)`: whether the request goes on to the handler. -/
def authorizeRole (roles : List Role) (user : User) : Bool :=
  roles.contains user.role

/-- `requirePremium`: whether the request goes on to the handler. -/
def requirePremium (user : User) (now : Date) : Bool :=
  !(decide (user.role ≠ Role.premium_resident) || !user.isPremiumUser now)

/-! ## controllers/collectionController.js -/

/-- `category?.weight || 0`. -/
def weightOrZero (category : Option WasteCategory) : ℚ :=
  orZero (category.bind (fun c => c.weight))

/-- `calculateBulkCollectionFee`, in exact rational arithmetic
(`Double.calculateBulkCollectionFee` follows the doubles of the source). -/
def calculateBulkCollectionFee (wasteDetails : Option WasteDetails) : ℚ :=
  let baseFee : ℚ := 50
  let baseFee : ℚ :=
    match wasteDetails with
    | some w =>
      let baseFee := baseFee + weightOrZero w.general * (1 / 2)
      let baseFee := baseFee + weightOrZero w.recyclable * (3 / 10)
      let baseFee := baseFee + weightOrZero w.organic * (2 / 5)
      baseFee + weightOrZero w.hazardous * 2
    | none => baseFee
  (mathRound (baseFee * 100) : ℚ) / 100

/-- The body of `POST /api/collections`. Its `binId` and `type` are typed,
so `createCollectionValidation` has nothing left to reject. -/
structure CreateCollectionBody where
  binId : ObjectId
  type : CollectionType
  scheduledDate : Option Date := none
  description : Option String := none
  wasteDetails : Option WasteDetails := none
  deriving DecidableEq, Repr

/-- `createCollectionRequest`. `newId` is the `_id` Mongo gives the new
document. `collector` is `required` in the schema, so saving a request for a
bin without assigned collector throws. -/
def createCollectionRequest (s : Store) (now : Date) (newId : ObjectId) (user : User)
    (body : CreateCollectionBody) : Nat × Store :=
  match s.findBin body.binId with
  | none => (404, s)
  | some bin =>
    if body.type = CollectionType.bulk ∧ user.role ≠ Role.premium_resident then (403, s)
    else
      match bin.assignedCollector with
      | none => (500, s)
      | some collector =>
        let collection : Collection :=
          { _id := newId
            bin := body.binId
            collector := collector
            resident := some user._id
            type := body.type
            scheduledDate := body.scheduledDate.getD now
            description := body.description
            wasteType := body.wasteDetails.getD {}
            payment := CollectionPayment.ofConstructor
              (if body.type = CollectionType.bulk then
                some { amount := some (calculateBulkCollectionFee body.wasteDetails)
                       status := PaymentStatus.pending }
              else none) }
        if collection.validate then (201, { s with collections := s.collections ++ [collection] })
        else (500, s)

/-- `router.post('/', authenticateToken, createCollectionValidation,
createCollectionRequest)`. -/
def postCollections (s : Store) (now : Date) (newId : ObjectId) (user : User)
    (body : CreateCollectionBody) : Nat × Store :=
  createCollectionRequest s now newId user body

/-- `router.post('/bulk', authenticateToken, requirePremium,
createCollectionValidation, createCollectionRequest)`. -/
def postCollectionsBulk (s : Store) (now : Date) (newId : ObjectId) (user : User)
    (body : CreateCollectionBody) : Nat × Store :=
  if requirePremium user now then createCollectionRequest s now newId user body
  else (403, s)

/-- The body of `PUT /api/collections/:id/status`. -/
structure UpdateStatusBody where
  status : CollectionStatus
  wasteType : Option WasteDetails := none
  notes : Option String := none
  images : Option (List String) := none
  fillLevelAfter : Option Int := none
  deriving DecidableEq, Repr

/-- `updateStatusValidation`: whether the chain records no error. The handler
below never reads the result. -/
def updateStatusValidation (body : UpdateStatusBody) : Bool :=
  match body.fillLevelAfter with
  | none => true
  | some f => decide (0 ≤ f) && decide (f ≤ 100)

/-- Lines 158 to 162 of `updateCollectionStatus`: the fields copied from the
request onto the loaded collection. -/
def applyStatusBody (collection : Collection) (body : UpdateStatusBody) : Collection :=
  let collection := { collection with status := body.status }
  let collection :=
    match body.wasteType with
    | some w => { collection with wasteType := w }
    | none => collection
  let collection :=
    match truthyString body.notes with
    | some n => { collection with notes := some n }
    | none => collection
  let collection :=
    match body.images with
    | some i => { collection with images := i }
    | none => collection
  match body.fillLevelAfter with
  | some f => { collection with fillLevelAfter := f }
  | none => collection

/-- Lines 158 to 165 of `updateCollectionStatus` when the requested status is
`'completed'`: the collection as it is handed to `collection.save()`. -/
def completedCollection (c : Collection) (body : UpdateStatusBody) (now : Date) : Collection :=
  { applyStatusBody c body with completedDate := some now }

/-- Lines 170 to 173 of `updateCollectionStatus`: the bin as it is handed to
`bin.save()`. -/
def completeBin (bin : Bin) (fillLevelAfter : Option Int) (now : Date) : Bin :=
  let bin := { bin with currentFillLevel := orZero fillLevelAfter }
  let bin := { bin with lastCollected := some now }
  let bin := bin.updateStatus now
  { bin with statistics :=
      { bin.statistics with totalCollections := bin.statistics.totalCollections + 1 } }

/-- `updateCollectionStatus`. -/
def updateCollectionStatus (s : Store) (now : Date) (user : User) (id : ObjectId)
    (body : UpdateStatusBody) : Nat × Store :=
  match s.findCollection id with
  | none => (404, s)
  | some collection =>
    if collection.collector ≠ user._id then (403, s)
    else if body.status = CollectionStatus.completed then
      let collection := completedCollection collection body now
      let afterBin : Option Store :=
        match s.findBin collection.bin with
        | some bin => s.saveBin (completeBin bin body.fillLevelAfter now)
        | none => some s
      match afterBin with
      | none => (500, s)
      | some s1 =>
        let s2 := s1.updateUser user._id (fun u => u.inc "statistics.totalCollections" 1)
        let s3 :=
          match collection.route with
          | some route =>
            s2.updateRoute route
              (fun r => (r.addToSetCompletedBins collection.bin).inc
                "statistics.totalCollections" 1)
          | none => s2
        match s3.saveCollection collection with
        | none => (500, s3)
        | some s4 => (200, s4)
    else
      let collection := applyStatusBody collection body
      match s.saveCollection collection with
      | none => (500, s)
      | some s1 => (200, s1)

/-- `router.put('/:id/status', authenticateToken, authorizeRole('collector'),
updateStatusValidation, updateCollectionStatus)`. -/
def putCollectionStatus (s : Store) (now : Date) (user : User) (id : ObjectId)
    (body : UpdateStatusBody) : Nat × Store :=
  if authorizeRole [Role.collector] user then updateCollectionStatus s now user id body
  else (403, s)

/-- The body of `PUT /api/collections/:id/rate`. -/
structure RateBody where
  rating : Int
  feedback : Option String := none
  deriving DecidableEq, Repr

/-- `ratingValidation`: whether the chain records no error. The handler below
never reads the result. -/
def ratingValidation (body : RateBody) : Bool :=
  decide (1 ≤ body.rating) && decide (body.rating ≤ 5)

/-- Line 240 of `rateCollection`: the mean of the ratings of the collections
found (the list holds at least the collection just rated). -/
def averageRating (collections : List Collection) : ℚ :=
  (collections.foldl (fun sum c => sum + ((c.rating.getD 0 : Int) : ℚ)) 0) /
    (collections.length : ℚ)

/-- `rateCollection`. `collection.resident.toString()` throws on a collection
without resident. -/
def rateCollection (s : Store) (user : User) (id : ObjectId) (body : RateBody) : Nat × Store :=
  match s.findCollection id with
  | none => (404, s)
  | some collection =>
    match collection.resident with
    | none => (500, s)
    | some resident =>
      if resident ≠ user._id then (403, s)
      else
        let collection := { collection with rating := some body.rating }
        let collection :=
          match truthyString body.feedback with
          | some f => { collection with feedback := some f }
          | none => collection
        match s.saveCollection collection with
        | none => (500, s)
        | some s1 =>
          let collections :=
            s1.collections.filter
              (fun c => decide (c.collector = collection.collector) && c.rating.isSome)
          let s2 := s1.updateUser collection.collector
            (fun u => u.setNumber "statistics.averageRating" (averageRating collections))
          (200, s2)

/-- `router.put('/:id/rate', authenticateToken, ratingValidation,
rateCollection)`. -/
def putCollectionRate (s : Store) (user : User) (id : ObjectId) (body : RateBody) :
    Nat × Store :=
  rateCollection s user id body

/-! ## controllers/binController.js -/

/-- The query of `GET /api/bins/nearby`, its numbers parsed. -/
structure NearbyQuery where
  latitude : Option ℚ := none
  longitude : Option ℚ := none
  radius : Option ℚ := none
  deriving DecidableEq, Repr

/-- An entry of the answer of `getNearbyBins`: the bin with its `distance`. -/
structure NearbyBin where
  bin : Bin
  distance : ℚ
  deriving DecidableEq, Repr

/-- `getNearbyBins`. The haversine distance `bin.calculateDistance(latitude,
longitude)`, a floating-point computation, is the parameter
`calculateDistance`; `Array.prototype.sort` is stable. -/
def getNearbyBins (calculateDistance : Bin → ℚ → ℚ → ℚ) (s : Store) (query : NearbyQuery) :
    Nat × List NearbyBin :=
  match query.latitude, query.longitude with
  | some latitude, some longitude =>
    let radius := query.radius.getD 5
    let bins := s.bins.filter (fun bin => bin.isActive)
    let nearbyBins :=
      (((bins.map (fun bin =>
            ({ bin := bin, distance := calculateDistance bin latitude longitude } : NearbyBin))
          ).filter (fun bin => decide (bin.distance ≤ radius))
          ).insertionSort (fun a b => a.distance ≤ b.distance)
          ).take 20
    (200, nearbyBins)
  | _, _ => (400, [])

/-- The body of `POST /api/bins` (`location` is reduced to its name). -/
structure CreateBinBody where
  locationName : String
  type : BinType
  capacity : Int
  collectionFrequency : Option Int := none
  deriving DecidableEq, Repr

/-- `createBinValidation`: whether the chain records no error. -/
def createBinValidation (body : CreateBinBody) : Bool :=
  decide (body.locationName ≠ "") &&
  decide (1 ≤ body.capacity) && decide (body.capacity ≤ 100) &&
  (match body.collectionFrequency with
   | none => true
   | some f => decide (1 ≤ f))

/-- `createBin`; the QR image is taken as generated. `newId` is the `_id`
Mongo gives the new document. -/
def createBin (s : Store) (now : Date) (newId : ObjectId) (body : CreateBinBody) :
    Nat × Store :=
  if !createBinValidation body then (400, s)
  else
    let bin : Bin :=
      { _id := newId
        type := body.type
        capacity := body.capacity
        collectionFrequency := body.collectionFrequency.getD 7
        lastUpdated := now }
    if bin.validate then (201, { s with bins := s.bins ++ [bin] }) else (500, s)

/-- The body of `PUT /api/bins/:id/status`. -/
structure UpdateBinStatusBody where
  fillLevel : Int
  wasteType : Option String := none
  deriving DecidableEq, Repr

/-- `updateBinStatusValidation`: whether the chain records no error
(`fillLevel` is an integer between 1 and 100). -/
def updateBinStatusValidation (body : UpdateBinStatusBody) : Bool :=
  decide (1 ≤ body.fillLevel) && decide (body.fillLevel ≤ 100)

/-- Lines 161 and 162 of `updateBinStatus`: the bin as it is handed to
`bin.save()` (the specification's `applyFill`). -/
def applyFill (bin : Bin) (fillLevel : Int) (now : Date) : Bin :=
  let bin := { bin with currentFillLevel := min (bin.currentFillLevel + fillLevel) bin.capacity }
  bin.updateStatus now

/-- `updateBinStatus`. The handler does not call `validationResult`, so what
`updateBinStatusValidation` recorded is not looked at. -/
def updateBinStatus (s : Store) (now : Date) (user : User) (id : ObjectId)
    (body : UpdateBinStatusBody) : Nat × Store :=
  match s.findBin id with
  | none => (404, s)
  | some bin =>
    match s.saveBin (applyFill bin body.fillLevel now) with
    | none => (500, s)
    | some s1 =>
      let s2 :=
        if user.role = Role.resident ∨ user.role = Role.premium_resident then
          s1.updateUser user._id
            (fun u => (u.inc "statistics.totalDisposals" 1).setDate "statistics.lastDisposal" now)
        else s1
      (200, s2)

/-- `router.put('/:id/status', authenticateToken, updateBinStatusValidation,
updateBinStatus)`: the validation chain records its errors on the request and
passes on; the handler runs next, whatever was recorded. -/
def putBinStatus (s : Store) (now : Date) (user : User) (id : ObjectId)
    (body : UpdateBinStatusBody) : Nat × Store :=
  updateBinStatus s now user id body

/-- `assignCollector`. -/
def assignCollector (s : Store) (id : ObjectId) (collectorId : ObjectId) : Nat × Store :=
  match s.findBin id with
  | none => (404, s)
  | some bin =>
    match s.findUser collectorId with
    | none => (400, s)
    | some collector =>
      if collector.role ≠ Role.collector then (400, s)
      else
        match s.saveBin { bin with assignedCollector := some collectorId } with
        | none => (500, s)
        | some s1 => (200, s1)

/-- The body of `PUT /api/bins/:id` (`location` left out). -/
structure UpdateBinBody where
  type : Option BinType := none
  capacity : Option Int := none
  collectionFrequency : Option Int := none
  isActive : Option Bool := none
  deriving DecidableEq, Repr

/-- `updateBin`: `if (capacity)` and `if (collectionFrequency)` skip an absent
and a zero value. -/
def updateBin (s : Store) (id : ObjectId) (body : UpdateBinBody) : Nat × Store :=
  match s.findBin id with
  | none => (404, s)
  | some bin =>
    let bin :=
      match body.type with
      | some t => { bin with type := t }
      | none => bin
    let bin :=
      match body.capacity with
      | some c => if c = 0 then bin else { bin with capacity := c }
      | none => bin
    let bin :=
      match body.collectionFrequency with
      | some f => if f = 0 then bin else { bin with collectionFrequency := f }
      | none => bin
    let bin :=
      match body.isActive with
      | some a => { bin with isActive := a }
      | none => bin
    match s.saveBin bin with
    | none => (500, s)
    | some s1 => (200, s1)

/-! ## controllers/routeController.js -/

/-- The body of `POST /api/routes`. -/
structure CreateRouteBody where
  name : String
  description : Option String := none
  collector : ObjectId
  bins : List RouteBin
  scheduledDate : Date
  estimatedDuration : Option Int := none
  deriving DecidableEq, Repr

/-- `createRouteValidation`: whether the chain records no error. -/
def createRouteValidation (body : CreateRouteBody) : Bool :=
  decide (body.name ≠ "") && decide (1 ≤ body.bins.length) &&
  (match body.estimatedDuration with
   | none => true
   | some d => decide (1 ≤ d))

/-- `createRoute`. `newId` is the `_id` Mongo gives the new document. -/
def createRoute (s : Store) (newId : ObjectId) (body : CreateRouteBody) : Nat × Store :=
  if !createRouteValidation body then (400, s)
  else
    match s.findUser body.collector with
    | none => (400, s)
    | some collectorUser =>
      if collectorUser.role ≠ Role.collector then (400, s)
      else
        let binObjects := s.bins.filter (fun b => (body.bins.map (fun e => e.bin)).contains b._id)
        if binObjects.length ≠ body.bins.length then (400, s)
        else
          let route : Route :=
            { _id := newId
              name := body.name
              description := body.description
              collector := body.collector
              bins := body.bins
              scheduledDate := body.scheduledDate
              estimatedDuration := body.estimatedDuration }
          if route.validate then (201, { s with routes := s.routes ++ [route] }) else (500, s)

/-- The body of `PUT /api/routes/:id`. -/
structure UpdateRouteBody where
  name : Option String := none
  description : Option String := none
  status : Option RouteStatus := none
  notes : Option String := none
  bins : Option (List RouteBin) := none
  deriving DecidableEq, Repr

/-- `updateRouteValidation`: whether the chain records no error. -/
def updateRouteValidation (body : UpdateRouteBody) : Bool :=
  decide (body.name ≠ some "") &&
  (match body.status with
   | none => true
   | some st => decide (st ≠ RouteStatus.in_progress))

/-- Lines 137 to 141 of `updateRoute`: the fields copied from the request onto
the loaded route. -/
def applyRouteBody (route : Route) (body : UpdateRouteBody) : Route :=
  let route :=
    match truthyString body.name with
    | some n => { route with name := n }
    | none => route
  let route :=
    match truthyString body.description with
    | some d => { route with description := some d }
    | none => route
  let route :=
    match body.status with
    | some st => { route with status := st }
    | none => route
  let route :=
    match truthyString body.notes with
    | some n => { route with notes := some n }
    | none => route
  match body.bins with
  | some b => { route with bins := b }
  | none => route

/-- `updateRoute`. -/
def updateRoute (s : Store) (id : ObjectId) (body : UpdateRouteBody) : Nat × Store :=
  if !updateRouteValidation body then (400, s)
  else
    match s.findRoute id with
    | none => (404, s)
    | some route =>
      match s.saveRoute (applyRouteBody route body) with
      | none => (500, s)
      | some s1 => (200, s1)

/-- `startRoute`. -/
def startRoute (s : Store) (now : Date) (user : User) (id : ObjectId) : Nat × Store :=
  match s.findRoute id with
  | none => (404, s)
  | some route =>
    if route.collector ≠ user._id then (403, s)
    else if route.status ≠ RouteStatus.active then (400, s)
    else
      match s.saveRoute { route with status := RouteStatus.in_progress, startTime := some now } with
      | none => (500, s)
      | some s1 => (200, s1)

/-- `router.put('/:id/start', authenticateToken, authorizeRole('collector'),
startRoute)`. -/
def putRouteStart (s : Store) (now : Date) (user : User) (id : ObjectId) : Nat × Store :=
  if authorizeRole [Role.collector] user then startRoute s now user id else (403, s)

/-- Lines 220 to 223 of `completeRoute`: the route as it is handed to the
first `route.save()`. -/
def completedRoute (route : Route) (now : Date) : Route :=
  { route with
    status := RouteStatus.completed
    endTime := some now
    actualDuration :=
      match route.startTime with
      | some startTime => some ⌊((now - startTime : Int) : ℚ) / (1000 * 60)⌋
      | none => none }

/-- Line 232 of `completeRoute`: `actualDuration ? actualDuration /
bins.length : 0`; `null` and `0` are falsy. -/
def averageTimePerBin (actualDuration : Option Int) (bins : List RouteBin) : JsNumber :=
  match actualDuration with
  | some d => if d = 0 then JsNumber.finite 0 else JsNumber.div d bins.length
  | none => JsNumber.finite 0

/-- Lines 228 to 233 of `completeRoute`: the route as it is handed to the
second `route.save()`, given the collections found for it. -/
def routeWithStatistics (route : Route) (collections : List Collection) : Route :=
  { route with
    statistics :=
      { totalCollections := collections.length
        totalWeight := collections.foldl (fun sum c => sum + orZero (some c.totalWeight)) 0
        totalVolume := collections.foldl (fun sum c => sum + orZero (some c.totalVolume)) 0
        averageTimePerBin := averageTimePerBin route.actualDuration route.bins } }

/-- `completeRoute`. -/
def completeRoute (s : Store) (now : Date) (user : User) (id : ObjectId) : Nat × Store :=
  match s.findRoute id with
  | none => (404, s)
  | some route =>
    if route.collector ≠ user._id then (403, s)
    else
      let route := completedRoute route now
      match s.saveRoute route with
      | none => (500, s)
      | some s1 =>
        let collections := s1.collections.filter (fun c => c.route == some route._id)
        match s1.saveRoute (routeWithStatistics route collections) with
        | none => (500, s1)
        | some s2 => (200, s2)

/-- `router.put('/:id/complete', authenticateToken, authorizeRole('collector'),
completeRoute)`. -/
def putRouteComplete (s : Store) (now : Date) (user : User) (id : ObjectId) : Nat × Store :=
  if authorizeRole [Role.collector] user then completeRoute s now user id else (403, s)

/-! ## Concurrent completions

`updateCollectionStatus` awaits `Bin.findById` and, later, `bin.save()`;
between the two another request may run. A completion in flight is followed
through these two steps on the bin. -/

/-- A step of a request on the bin: `load` is `await Bin.findById(collection.bin)`,
`save` is lines 170 to 174, ending in `await bin.save()`, on the bin this
request loaded. `bin.save()` writes the modified paths with the values they
have on the loaded document, the counter among them. -/
inductive BinStep
  | load (request : Nat)
  | save (request : Nat)
  deriving DecidableEq, Repr

/-- The store and the bins the requests in flight have loaded. -/
structure InFlight where
  store : Store
  loaded : List (Nat × Bin) := []

/-- One step of a completion (with `fillLevelAfter` absent) on the bin
`binId`. -/
def InFlight.step (binId : ObjectId) (now : Date) (x : InFlight) (step : BinStep) : InFlight :=
  match step with
  | BinStep.load request =>
    match x.store.findBin binId with
    | some bin => { x with loaded := (request, bin) :: x.loaded }
    | none => x
  | BinStep.save request =>
    match x.loaded.lookup request with
    | some bin =>
      match x.store.saveBin (completeBin bin none now) with
      | some store => { x with store := store }
      | none => x
    | none => x

/-- The steps of a schedule, in order. -/
def InFlight.run (binId : ObjectId) (now : Date) (s : Store) (schedule : List BinStep) : Store :=
  (schedule.foldl (InFlight.step binId now) { store := s }).store

/-! ## frontend/src/pages/Dashboard/CollectorDashboard.js -/

/-- `x * k` for a finite `k`. -/
def JsNumber.mul (x : JsNumber) (k : ℚ) : JsNumber :=
  match x with
  | JsNumber.finite q => JsNumber.finite (q * k)
  | JsNumber.infinity =>
    if 0 < k then JsNumber.infinity else if k < 0 then JsNumber.negInfinity else JsNumber.nan
  | JsNumber.negInfinity =>
    if 0 < k then JsNumber.negInfinity else if k < 0 then JsNumber.infinity else JsNumber.nan
  | JsNumber.nan => JsNumber.nan

/-- `Math.round` on a JavaScript number. -/
def JsNumber.round (x : JsNumber) : JsNumber :=
  match x with
  | JsNumber.finite q => JsNumber.finite (mathRound q)
  | other => other

/-- `x || 0` on a JavaScript number: `0` and `NaN` are falsy. -/
def JsNumber.orZero (x : JsNumber) : JsNumber :=
  match x with
  | JsNumber.finite q => if q = 0 then JsNumber.finite 0 else JsNumber.finite q
  | JsNumber.nan => JsNumber.finite 0
  | other => other

/-- `getRouteProgress` of the collector dashboard, on a route whose `bins` and
`completedBins` are defined. -/
def getRouteProgress (route : Route) : JsNumber :=
  (((JsNumber.div (orZero (some (route.completedBins.length : ℚ)))
      (route.bins.length : ℚ)).mul 100).round).orZero

/-! ## IEEE 754 doubles

A JavaScript number is a binary64 double. `+`, `*` and `/` deliver the exact
result rounded to the nearest double, a tie to the one with even significand;
a result beyond the largest double is `Infinity`. A finite double is held as
the rational it is; the sign of a zero is not kept. -/

/-- Rounding to the nearest integer, a tie to the even one. -/
def roundHalfEven (q : ℚ) : Int :=
  if q - ⌊q⌋ < 1 / 2 then ⌊q⌋
  else if 1 / 2 < q - ⌊q⌋ then ⌊q⌋ + 1
  else if ⌊q⌋ % 2 = 0 then ⌊q⌋ else ⌊q⌋ + 1

/-- The distance between neighbouring doubles at `x`: `2 ^ (e - 52)` where
`2 ^ e ≤ |x| < 2 ^ (e + 1)`, and `2 ^ (-1074)` below `2 ^ (-1022)`. -/
def Double.spacing (x : ℚ) : ℚ :=
  (2 : ℚ) ^ (max (Int.log 2 |x|) (-1022) - 52)

/-- The nearest multiple of the spacing at `x`, a tie to the even multiple:
the double nearest to `x` when the exponent is not bounded above. -/
def Double.nearest (x : ℚ) : ℚ :=
  (roundHalfEven (x / Double.spacing x) : ℚ) * Double.spacing x

/-- `Number.MAX_VALUE`. -/
def Double.maxValue : ℚ := (2 ^ 53 - 1) * 2 ^ 971

/-- The double an exact result is delivered as; also the value of a number
literal of the source and of a number in a JSON body. -/
def Double.ofExact (x : ℚ) : JsNumber :=
  if Double.maxValue < Double.nearest x then JsNumber.infinity
  else if Double.nearest x < -Double.maxValue then JsNumber.negInfinity
  else JsNumber.finite (Double.nearest x)

/-- The sign of a number: 1, -1, or 0 for zero and `NaN`. -/
def JsNumber.sign (x : JsNumber) : Int :=
  match x with
  | JsNumber.finite q => if 0 < q then 1 else if q < 0 then -1 else 0
  | JsNumber.infinity => 1
  | JsNumber.negInfinity => -1
  | JsNumber.nan => 0

/-- `x + y` on doubles. -/
def Double.add (x y : JsNumber) : JsNumber :=
  match x, y with
  | JsNumber.finite a, JsNumber.finite b => Double.ofExact (a + b)
  | JsNumber.nan, _ => JsNumber.nan
  | _, JsNumber.nan => JsNumber.nan
  | JsNumber.infinity, JsNumber.negInfinity => JsNumber.nan
  | JsNumber.negInfinity, JsNumber.infinity => JsNumber.nan
  | JsNumber.infinity, _ => JsNumber.infinity
  | JsNumber.negInfinity, _ => JsNumber.negInfinity
  | JsNumber.finite _, other => other

/-- `x * y` on doubles. -/
def Double.mul (x y : JsNumber) : JsNumber :=
  match x, y with
  | JsNumber.finite a, JsNumber.finite b => Double.ofExact (a * b)
  | JsNumber.nan, _ => JsNumber.nan
  | _, JsNumber.nan => JsNumber.nan
  | _, _ =>
    if 0 < x.sign * y.sign then JsNumber.infinity
    else if x.sign * y.sign < 0 then JsNumber.negInfinity
    else JsNumber.nan

/-- `x / y` on doubles. -/
def Double.div (x y : JsNumber) : JsNumber :=
  match x, y with
  | JsNumber.finite a, JsNumber.finite b =>
    if b ≠ 0 then Double.ofExact (a / b)
    else if 0 < a then JsNumber.infinity
    else if a < 0 then JsNumber.negInfinity
    else JsNumber.nan
  | JsNumber.nan, _ => JsNumber.nan
  | _, JsNumber.nan => JsNumber.nan
  | JsNumber.finite _, _ => JsNumber.finite 0
  | _, JsNumber.finite b =>
    if 0 ≤ x.sign * (if b < 0 then -1 else 1) then JsNumber.infinity
    else JsNumber.negInfinity
  | _, _ => JsNumber.nan

/-- `category?.weight || 0` in doubles; the weight is the number of the JSON
body. -/
def Double.weightOrZero (category : Option WasteCategory) : JsNumber :=
  match category.bind (fun c => c.weight) with
  | some weight => (Double.ofExact weight).orZero
  | none => JsNumber.finite 0

/-- `calculateBulkCollectionFee` in doubles, operation by operation.
`Math.round` of a double is exact: below `2 ^ 52` the result is an integer of
at most 53 bits, from there on every double is an integer. -/
def Double.calculateBulkCollectionFee (wasteDetails : Option WasteDetails) : JsNumber :=
  let baseFee : JsNumber := JsNumber.finite 50
  let baseFee : JsNumber :=
    match wasteDetails with
    | some w =>
      let baseFee :=
        Double.add baseFee (Double.mul (Double.weightOrZero w.general) (Double.ofExact (1 / 2)))
      let baseFee :=
        Double.add baseFee
          (Double.mul (Double.weightOrZero w.recyclable) (Double.ofExact (3 / 10)))
      let baseFee :=
        Double.add baseFee (Double.mul (Double.weightOrZero w.organic) (Double.ofExact (2 / 5)))
      Double.add baseFee (Double.mul (Double.weightOrZero w.hazardous) (Double.ofExact 2))
    | none => baseFee
  Double.div (Double.mul baseFee (JsNumber.finite 100)).round (JsNumber.finite 100)

/-- `routeSchema.methods.getProgress` in doubles, operation by operation; the
length of an array is an integer below `2 ^ 32`, a double as it is. -/
def Double.getProgress (r : Route) : JsNumber :=
  if r.bins.length = 0 then JsNumber.finite 0
  else
    (Double.mul
      (Double.div (JsNumber.finite (r.completedBins.length : ℚ))
        (JsNumber.finite (r.bins.length : ℚ)))
      (JsNumber.finite 100)).round

/-! ## Functions of the specification -/

/-- The rank of a status in the order `empty < partial < full < overflowing`
of the specification; `'maintenance'`, which is never derived, is given the
rank of `empty`. -/
def BinStatus.rank (status : BinStatus) : Nat :=
  match status with
  | BinStatus.empty => 0
  | BinStatus.partialFill => 1
  | BinStatus.full => 2
  | BinStatus.overflowing => 3
  | BinStatus.maintenance => 0

/-- The candidates of the nearby query as the specification names them: the
active bins with their distance, those within the radius. -/
def nearbyCandidates (calculateDistance : Bin → ℚ → ℚ → ℚ) (s : Store)
    (latitude longitude radius : ℚ) : List NearbyBin :=
  ((s.bins.filter (fun bin => bin.isActive)).map (fun bin =>
    ({ bin := bin, distance := calculateDistance bin latitude longitude } : NearbyBin))).filter
      (fun bin => decide (bin.distance ≤ radius))

/-- The specification's `actualDurationMin`: `round((endedAt - startedAt) /
60 s)` when `startedAt` is set, else null. -/
def specActualDuration (startTime : Option Date) (endTime : Date) : Option Int :=
  startTime.map (fun startedAt => round (((endTime - startedAt : Int) : ℚ) / 60000))

/-- The specification's `progress(route)`: `round(100 · |completedBins| /
|bins|)`, 0 when `bins` is empty. -/
def specProgress (r : Route) : Int :=
  if r.bins = [] then 0
  else round ((100 : ℚ) * (r.completedBins.length : ℚ) / (r.bins.length : ℚ))

/-- A weight of the composition, read after the specification: an absent
composition, an absent category and an absent weight count as 0. -/
def specWeight (composition : Option WasteDetails)
    (category : WasteDetails → Option WasteCategory) : ℚ :=
  ((composition.bind category).bind (fun c => c.weight)).getD 0

/-- The fee before rounding, after the specification's words:
`50 + 0.5 general + 0.3 recyclable + 0.4 organic + 2.0 hazardous`. -/
def exactFee (composition : Option WasteDetails) : ℚ :=
  50 + 0.5 * specWeight composition (fun w => w.general) +
    0.3 * specWeight composition (fun w => w.recyclable) +
    0.4 * specWeight composition (fun w => w.organic) +
    2.0 * specWeight composition (fun w => w.hazardous)

/-- The specification's `bulkFee(composition)`: the fee rounded to 2 decimal
places. -/
def bulkFee (composition : Option WasteDetails) : ℚ :=
  (round (exactFee composition * 100) : ℚ) / 100

/-! ## Invariants of the specification -/

/-- The route invariant: every bin of `completedBins` is the bin of an entry
of `bins`. -/
def Route.completedSubset (r : Route) : Prop :=
  ∀ b ∈ r.completedBins, b ∈ r.bins.map (fun e => e.bin)

instance Route.decidableCompletedSubset (r : Route) : Decidable r.completedSubset := by
  unfold Route.completedSubset
  infer_instance

/-- The route invariant on every stored route. -/
def Store.routesInv (s : Store) : Prop :=
  ∀ r ∈ s.routes, r.completedSubset

instance Store.decidableRoutesInv (s : Store) : Decidable s.routesInv := by
  unfold Store.routesInv
  infer_instance

/-- The bin invariant: outside `'maintenance'` the status is the one derived
from the fill level. -/
def Bin.statusConsistent (b : Bin) : Prop :=
  b.status ≠ BinStatus.maintenance → b.status = deriveStatus b.currentFillLevel

instance Bin.decidableStatusConsistent (b : Bin) : Decidable b.statusConsistent := by
  unfold Bin.statusConsistent
  infer_instance

/-- The bin invariant on every stored bin. -/
def Store.binsInv (s : Store) : Prop :=
  ∀ b ∈ s.bins, b.statusConsistent

instance Store.decidableBinsInv (s : Store) : Decidable s.binsInv := by
  unfold Store.binsInv
  infer_instance

/-- The collection invariant of the specification: `completedDate` is set
exactly when the status is `'completed'`. -/
def Collection.completedDateIff (c : Collection) : Prop :=
  c.completedDate.isSome = true ↔ c.status = CollectionStatus.completed

instance Collection.decidableCompletedDateIff (c : Collection) :
    Decidable c.completedDateIff := by
  unfold Collection.completedDateIff
  infer_instance

/-- One half of the collection invariant: a completed collection has its
`completedDate`. -/
def Collection.completedHasDate (c : Collection) : Prop :=
  c.status = CollectionStatus.completed → c.completedDate.isSome = true

instance Collection.decidableCompletedHasDate (c : Collection) :
    Decidable c.completedHasDate := by
  unfold Collection.completedHasDate
  infer_instance

/-- That half on every stored collection. -/
def Store.collectionsInv (s : Store) : Prop :=
  ∀ c ∈ s.collections, c.completedHasDate

instance Store.decidableCollectionsInv (s : Store) : Decidable s.collectionsInv := by
  unfold Store.collectionsInv
  infer_instance

/-- A request to one of the two handlers that write collections. -/
inductive CollectionRequest
  | create (now : Date) (newId : ObjectId) (user : User) (body : CreateCollectionBody)
  | updateStatus (now : Date) (user : User) (id : ObjectId) (body : UpdateStatusBody)

/-- The store after a request is handled. -/
def CollectionRequest.handle (s : Store) (request : CollectionRequest) : Store :=
  match request with
  | CollectionRequest.create now newId user body =>
    (createCollectionRequest s now newId user body).2
  | CollectionRequest.updateStatus now user id body =>
    (updateCollectionStatus s now user id body).2

/-- The store reached from `s` through a sequence of requests. -/
def Store.reach (s : Store) (requests : List CollectionRequest) : Store :=
  requests.foldl CollectionRequest.handle s

/-! ## Demo data

A collector, a resident, a bin assigned to the collector and a collection of
that bin, in the manner of `seedDemoUsers.js`. -/

def demoCollector : User := { _id := 1, role := Role.collector }

def demoResident : User := { _id := 2, role := Role.resident }

def demoBin : Bin :=
  { _id := 10, currentFillLevel := 80, status := BinStatus.full, assignedCollector := some 1 }

def demoCollection : Collection :=
  { _id := 100, bin := 10, collector := 1, resident := some 2, scheduledDate := 0 }

def demoStore : Store :=
  { bins := [demoBin], users := [demoCollector, demoResident], collections := [demoCollection] }

/-- The demo collection after its completion at time 3. -/
def demoCompleted : Collection :=
  { demoCollection with status := CollectionStatus.completed, completedDate := some 3 }

def demoCompletedStore : Store :=
  { demoStore with collections := [demoCompleted] }

/-- A second bin, empty. -/
def demoBin2 : Bin := { _id := 11, assignedCollector := some 1 }

/-- The demo collection, attached to the route with id 50. -/
def demoRouteCollection : Collection := { demoCollection with route := some 50 }

def demoRouteStore : Store :=
  { bins := [demoBin, demoBin2], users := [demoCollector, demoResident],
    collections := [demoRouteCollection] }

/-- A request for a route over the first demo bin. -/
def demoRouteBody : CreateRouteBody :=
  { name := "Monday round", collector := 1, bins := [{ bin := 10 }], scheduledDate := 0 }

/-- The store after the admin created the route (id 50). -/
def demoAfterCreate : Store := (createRoute demoRouteStore 50 demoRouteBody).2

/-- The store after the collector then completed the attached collection. -/
def demoAfterComplete : Store :=
  (updateCollectionStatus demoAfterCreate 5 demoCollector 100
    { status := CollectionStatus.completed }).2

/-- The store after the admin then replaced the route's bins by the second bin. -/
def demoAfterUpdate : Store :=
  (updateRoute demoAfterComplete 50 { bins := some [{ bin := 11 }] }).2

/-- A bin taken out of service at fill level 30. -/
def demoMaintenanceBin : Bin :=
  { _id := 12, currentFillLevel := 30, status := BinStatus.maintenance }

def demoMaintenanceStore : Store :=
  { bins := [demoMaintenanceBin], users := [demoCollector, demoResident] }

/-- A user with role `premium_resident` whose subscription expired at time
1000. -/
def demoExpiredPremium : User :=
  { _id := 3, role := Role.premium_resident, isPremium := true, premiumExpiry := some 1000 }

/-- A user with role `premium_resident` whose subscription runs until time
5000. -/
def demoPremium : User :=
  { _id := 4, role := Role.premium_resident, isPremium := true, premiumExpiry := some 5000 }

/-- A route over the first demo bin that was started at time 0. -/
def demoStartedRoute : Route :=
  { _id := 50, name := "Monday round", collector := 1, bins := [{ bin := 10 }],
    scheduledDate := 0, startTime := some 0 }

def demoStartedStore : Store :=
  { demoRouteStore with routes := [demoStartedRoute] }

/-- The store after the admin emptied the bins of the started route. -/
def demoEmptiedStore : Store :=
  (updateRoute demoStartedStore 50 { bins := some [] }).2

/-- The demo store before any collection was requested. -/
def demoFreshStore : Store :=
  { bins := [demoBin], users := [demoCollector, demoResident] }

/-- The store after the resident requested a collection of the demo bin. -/
def demoRequested : Store :=
  (createCollectionRequest demoFreshStore 1 100 demoResident
    { binId := 10, type := CollectionType.requested }).2

/-- The store after the collector then completed that collection at time 5. -/
def demoRequestCompleted : Store :=
  (updateCollectionStatus demoRequested 5 demoCollector 100
    { status := CollectionStatus.completed }).2

/-- The store after the collector then set it back to `'assigned'`. -/
def demoRequestReopened : Store :=
  (updateCollectionStatus demoRequestCompleted 6 demoCollector 100
    { status := CollectionStatus.assigned }).2

/-- A second collection of the demo bin. -/
def demoCollection2 : Collection :=
  { _id := 102, bin := 10, collector := 1, resident := some 2, scheduledDate := 0 }

/-- The demo bin emptied, with two collections of it assigned. -/
def demoTwoStore : Store :=
  { bins := [{ demoBin with currentFillLevel := 0, status := BinStatus.empty }],
    users := [demoCollector, demoResident],
    collections := [demoCollection, demoCollection2] }

/-- Three bins on a route, one of them completed. -/
def demoRouteOfThree : Route :=
  { _id := 51, name := "Tuesday round", collector := 1,
    bins := [{ bin := 10 }, { bin := 11 }, { bin := 12 }], scheduledDate := 0,
    completedBins := [11] }

/-- The route of three bins with all of them completed. -/
def demoRouteDone : Route := { demoRouteOfThree with completedBins := [11, 10, 12] }

/-- A route of 40 bins, 23 of them completed. -/
def demoRouteOfForty : Route :=
  { _id := 53, name := "Thursday round", collector := 1,
    bins := (List.range 40).map (fun i => ({ bin := i } : RouteBin)), scheduledDate := 0,
    completedBins := List.range 23 }

/-- The waste of a bulk request: 28.23 of general waste. -/
def demoWaste : WasteDetails := { general := some { weight := some (2823 / 100) } }

/-- The waste of the specification's example: 10 of general and 2 of hazardous
waste. -/
def demoWasteOfSpec : WasteDetails :=
  { general := some { weight := some 10 }, hazardous := some { weight := some 2 } }

/-- A route whose bins were all removed. -/
def demoRouteOfNone : Route :=
  { _id := 52, name := "Wednesday round", collector := 1, bins := [], scheduledDate := 0 }

/-! ## Lemmas on the store -/

section StoreLemmas

variable {α : Type}

/-- Looking up the id of the replaced document finds the replacement. -/
theorem find_replace_same (getId : α → ObjectId) (d : α) (l : List α) (x : α)
    (h : l.find? (fun y => getId y == getId d) = some x) :
    (l.map (fun y => if getId y == getId d then d else y)).find?
      (fun y => getId y == getId d) = some d := by
  induction l with
  | nil => simp at h
  | cons a t ih =>
    rw [List.map_cons]
    by_cases ha : getId a = getId d
    · have hfa : (if getId a == getId d then d else a) = d := by simp [ha]
      rw [hfa, List.find?_cons_of_pos]
      simp
    · have hfa : (if getId a == getId d then d else a) = a := by simp [ha]
      rw [hfa, List.find?_cons_of_neg _ (by simpa using ha)]
      rw [List.find?_cons_of_neg _ (by simpa using ha)] at h
      exact ih h

/-- Looking up another id is not affected by a replacement. -/
theorem find_replace_other (getId : α → ObjectId) (d : α) (l : List α) (j : ObjectId)
    (hj : j ≠ getId d) :
    (l.map (fun y => if getId y == getId d then d else y)).find? (fun y => getId y == j) =
      l.find? (fun y => getId y == j) := by
  induction l with
  | nil => rfl
  | cons a t ih =>
    rw [List.map_cons]
    by_cases ha : getId a = getId d
    · have hfa : (if getId a == getId d then d else a) = d := by simp [ha]
      have h1 : (getId a == j) = false := by
        simp only [beq_eq_false_iff_ne, ne_eq]
        intro h
        exact hj (h ▸ ha)
      have h2 : (getId d == j) = false := by
        simp only [beq_eq_false_iff_ne, ne_eq]
        intro h
        exact hj h.symm
      rw [hfa]
      simp only [List.find?_cons, h1, h2, ih]
    · have hfa : (if getId a == getId d then d else a) = a := by simp [ha]
      rw [hfa]
      simp only [List.find?_cons, ih]

/-- A document found by `findById` carries the id asked for. -/
theorem find_id (getId : α → ObjectId) (l : List α) (j : ObjectId) (x : α)
    (h : l.find? (fun y => getId y == j) = some x) : getId x = j := by
  have := List.find?_some h
  simpa using this

/-- A document found by `findById` is in the collection. -/
theorem find_mem (getId : α → ObjectId) (l : List α) (j : ObjectId) (x : α)
    (h : l.find? (fun y => getId y == j) = some x) : x ∈ l :=
  List.mem_of_find?_eq_some h

end StoreLemmas

theorem Store.findBin_id {s : Store} {id : ObjectId} {b : Bin} (h : s.findBin id = some b) :
    b._id = id :=
  find_id (fun b : Bin => b._id) s.bins id b h

theorem Store.findBin_putBin {s : Store} {b b' : Bin} (h : s.findBin b'._id = some b) :
    (s.putBin b').findBin b'._id = some b' :=
  find_replace_same (fun b : Bin => b._id) b' s.bins b h

theorem Store.findCollection_id {s : Store} {id : ObjectId} {c : Collection}
    (h : s.findCollection id = some c) : c._id = id :=
  find_id (fun c : Collection => c._id) s.collections id c h

theorem Store.findCollection_putCollection {s : Store} {c c' : Collection}
    (h : s.findCollection c'._id = some c) :
    (s.putCollection c').findCollection c'._id = some c' :=
  find_replace_same (fun c : Collection => c._id) c' s.collections c h

theorem Store.findRoute_id {s : Store} {id : ObjectId} {r : Route}
    (h : s.findRoute id = some r) : r._id = id :=
  find_id (fun r : Route => r._id) s.routes id r h

/-- Reading `x || 0` as a default. -/
theorem orZero_eq_getD {α : Type} [Zero α] [DecidableEq α] (x : Option α) :
    orZero x = x.getD 0 := by
  cases x with
  | none => rfl
  | some v =>
    by_cases h : v = 0
    · simp [orZero, h]
    · simp [orZero, h]

/-- `Bin.updateStatus` computes the specification's `deriveStatus`. -/
theorem Bin.updateStatus_status (b : Bin) (now : Date) :
    (b.updateStatus now).status = deriveStatus b.currentFillLevel := by
  simp only [Bin.updateStatus, deriveStatus, ge_iff_le]

theorem Bin.updateStatus_fill (b : Bin) (now : Date) :
    (b.updateStatus now).currentFillLevel = b.currentFillLevel := rfl

/-! ## Lemmas on `updateCollectionStatus` -/

theorem applyStatusBody_bin (c : Collection) (body : UpdateStatusBody) :
    (applyStatusBody c body).bin = c.bin := by
  unfold applyStatusBody
  repeat' split
  all_goals rfl

theorem applyStatusBody_id (c : Collection) (body : UpdateStatusBody) :
    (applyStatusBody c body)._id = c._id := by
  unfold applyStatusBody
  repeat' split
  all_goals rfl

theorem applyStatusBody_route (c : Collection) (body : UpdateStatusBody) :
    (applyStatusBody c body).route = c.route := by
  unfold applyStatusBody
  repeat' split
  all_goals rfl

theorem applyStatusBody_status (c : Collection) (body : UpdateStatusBody) :
    (applyStatusBody c body).status = body.status := by
  unfold applyStatusBody
  repeat' split
  all_goals rfl

theorem applyStatusBody_fillLevelBefore (c : Collection) (body : UpdateStatusBody) :
    (applyStatusBody c body).fillLevelBefore = c.fillLevelBefore := by
  unfold applyStatusBody
  repeat' split
  all_goals rfl

theorem applyStatusBody_rating (c : Collection) (body : UpdateStatusBody) :
    (applyStatusBody c body).rating = c.rating := by
  unfold applyStatusBody
  repeat' split
  all_goals rfl

theorem applyStatusBody_fillLevelAfter (c : Collection) (body : UpdateStatusBody) :
    (applyStatusBody c body).fillLevelAfter = body.fillLevelAfter.getD c.fillLevelAfter := by
  unfold applyStatusBody
  repeat' split
  all_goals simp_all

theorem completedCollection_bin (c : Collection) (body : UpdateStatusBody) (now : Date) :
    (completedCollection c body now).bin = c.bin :=
  applyStatusBody_bin c body

theorem completedCollection_id (c : Collection) (body : UpdateStatusBody) (now : Date) :
    (completedCollection c body now)._id = c._id :=
  applyStatusBody_id c body

theorem completedCollection_route (c : Collection) (body : UpdateStatusBody) (now : Date) :
    (completedCollection c body now).route = c.route :=
  applyStatusBody_route c body

theorem completedCollection_status (c : Collection) (body : UpdateStatusBody) (now : Date) :
    (completedCollection c body now).status = body.status :=
  applyStatusBody_status c body

/-- The strict-mode cast drops `$inc` on `statistics.totalCollections`, a path
`userSchema` does not declare. -/
theorem User.inc_totalCollections (u : User) (n : Int) :
    u.inc "statistics.totalCollections" n = u := by
  simp [User.inc]

theorem Store.updateUser_id (s : Store) (id : ObjectId) :
    s.updateUser id (fun u => u.inc "statistics.totalCollections" 1) = s := by
  simp [Store.updateUser, User.inc_totalCollections]

theorem Store.saveCollection_bins {s s1 : Store} {c : Collection}
    (h : s.saveCollection c = some s1) : s1.bins = s.bins := by
  unfold Store.saveCollection at h
  split at h
  · cases h
    rfl
  · cases h

theorem Store.saveCollection_users {s s1 : Store} {c : Collection}
    (h : s.saveCollection c = some s1) : s1.users = s.users := by
  unfold Store.saveCollection at h
  split at h
  · cases h
    rfl
  · cases h

theorem Store.saveCollection_routes {s s1 : Store} {c : Collection}
    (h : s.saveCollection c = some s1) : s1.routes = s.routes := by
  unfold Store.saveCollection at h
  split at h
  · cases h
    rfl
  · cases h

theorem Store.saveBin_users {s s1 : Store} {b : Bin}
    (h : s.saveBin b = some s1) : s1.users = s.users := by
  unfold Store.saveBin at h
  split at h
  · cases h
    rfl
  · cases h

theorem Store.saveBin_routes {s s1 : Store} {b : Bin}
    (h : s.saveBin b = some s1) : s1.routes = s.routes := by
  unfold Store.saveBin at h
  split at h
  · cases h
    rfl
  · cases h

theorem Store.saveBin_collections {s s1 : Store} {b : Bin}
    (h : s.saveBin b = some s1) : s1.collections = s.collections := by
  unfold Store.saveBin at h
  split at h
  · cases h
    rfl
  · cases h

/-- The bins a completion leaves behind, when the bin exists and passes its
validators: the collection's bin is replaced by `completeBin`. -/
theorem updateCollectionStatus_completed_bins (s : Store) (now : Date) (user : User)
    (id : ObjectId) (body : UpdateStatusBody) (c : Collection) (bin : Bin)
    (hc : s.findCollection id = some c) (hown : c.collector = user._id)
    (hst : body.status = CollectionStatus.completed) (hbin : s.findBin c.bin = some bin)
    (hv : (completeBin bin body.fillLevelAfter now).validate = true) :
    (updateCollectionStatus s now user id body).2.bins =
      (s.putBin (completeBin bin body.fillLevelAfter now)).bins := by
  unfold updateCollectionStatus
  simp only [hc, hown, ne_eq, not_true_eq_false, if_false, hst, if_true, completedCollection_bin,
    hbin, Store.saveBin, hv, completedCollection_route, Store.updateUser_id]
  split
  · cases c.route <;> rfl
  · rename_i s4 h
    rw [Store.saveCollection_bins h]
    cases c.route <;> rfl

theorem completeBin_id (bin : Bin) (f : Option Int) (now : Date) :
    (completeBin bin f now)._id = bin._id := rfl

theorem completeBin_fill (bin : Bin) (f : Option Int) (now : Date) :
    (completeBin bin f now).currentFillLevel = f.getD 0 := by
  simp [completeBin, Bin.updateStatus, orZero_eq_getD]

theorem completeBin_lastCollected (bin : Bin) (f : Option Int) (now : Date) :
    (completeBin bin f now).lastCollected = some now := rfl

theorem completeBin_status (bin : Bin) (f : Option Int) (now : Date) :
    (completeBin bin f now).status = deriveStatus (f.getD 0) := by
  simp [completeBin, Bin.updateStatus, deriveStatus, orZero_eq_getD]

theorem completeBin_totalCollections (bin : Bin) (f : Option Int) (now : Date) :
    (completeBin bin f now).statistics.totalCollections = bin.statistics.totalCollections + 1 :=
  rfl

theorem completeBin_validate (bin : Bin) (f : Option Int) (now : Date)
    (h0 : 0 ≤ f.getD 0) (h100 : f.getD 0 ≤ 100) :
    (completeBin bin f now).validate = true := by
  simp [Bin.validate, completeBin_fill, h0, h100]

/-- The bin a completion leaves behind under the collection's bin id. -/
theorem updateCollectionStatus_completed_findBin (s : Store) (now : Date) (user : User)
    (id : ObjectId) (body : UpdateStatusBody) (c : Collection) (bin : Bin)
    (hc : s.findCollection id = some c) (hown : c.collector = user._id)
    (hst : body.status = CollectionStatus.completed) (hbin : s.findBin c.bin = some bin)
    (hv : (completeBin bin body.fillLevelAfter now).validate = true) :
    (updateCollectionStatus s now user id body).2.findBin c.bin =
      some (completeBin bin body.fillLevelAfter now) := by
  have hbins := updateCollectionStatus_completed_bins s now user id body c bin hc hown hst hbin hv
  have hid : (completeBin bin body.fillLevelAfter now)._id = c.bin := by
    rw [completeBin_id]
    exact Store.findBin_id hbin
  have hput : (s.putBin (completeBin bin body.fillLevelAfter now)).findBin
      (completeBin bin body.fillLevelAfter now)._id =
      some (completeBin bin body.fillLevelAfter now) :=
    @Store.findBin_putBin s bin _ (by rw [hid]; exact hbin)
  rw [hid] at hput
  unfold Store.findBin at hput ⊢
  rw [hbins]
  exact hput

theorem completedCollection_validate (c : Collection) (body : UpdateStatusBody) (now : Date)
    (hcv : c.validate = true) (h0 : 0 ≤ body.fillLevelAfter.getD 0)
    (h100 : body.fillLevelAfter.getD 0 ≤ 100) :
    (completedCollection c body now).validate = true := by
  unfold Collection.validate at hcv ⊢
  simp only [completedCollection, applyStatusBody_fillLevelBefore, applyStatusBody_rating,
    applyStatusBody_fillLevelAfter]
  cases hf : body.fillLevelAfter with
  | none => simpa using hcv
  | some f =>
    simp only [hf, Option.getD_some] at h0 h100 ⊢
    simp only [Bool.and_eq_true, decide_eq_true_eq] at hcv ⊢
    exact ⟨⟨⟨hcv.1.1.1, h0⟩, h100⟩, hcv.2⟩

/-- A completion by the collection's collector on an existing bin, with valid
documents, answers 200 and stores the completed collection. -/
theorem updateCollectionStatus_completed_ok (s : Store) (now : Date) (user : User)
    (id : ObjectId) (body : UpdateStatusBody) (c : Collection) (bin : Bin)
    (hc : s.findCollection id = some c) (hown : c.collector = user._id)
    (hst : body.status = CollectionStatus.completed) (hbin : s.findBin c.bin = some bin)
    (hv : (completeBin bin body.fillLevelAfter now).validate = true)
    (hcv : (completedCollection c body now).validate = true) :
    (updateCollectionStatus s now user id body).1 = 200 ∧
    (updateCollectionStatus s now user id body).2.findCollection id =
      some (completedCollection c body now) := by
  have hid : (completedCollection c body now)._id = id := by
    rw [completedCollection_id]
    exact Store.findCollection_id hc
  have hfind : ∀ s3 : Store, s3.collections = s.collections →
      (s3.putCollection (completedCollection c body now)).findCollection id =
        some (completedCollection c body now) := by
    intro s3 h3
    have := @Store.findCollection_putCollection s3 c (completedCollection c body now)
      (by rw [hid]; unfold Store.findCollection; rw [h3]; exact hc)
    rw [hid] at this
    exact this
  unfold updateCollectionStatus
  simp only [hc, hown, ne_eq, not_true_eq_false, if_false, hst, if_true, completedCollection_bin,
    hbin, Store.saveBin, hv, Store.updateUser_id, Store.saveCollection, hcv,
    completedCollection_route]
  refine ⟨trivial, ?_⟩
  apply hfind
  cases c.route <;> rfl

/-- No path of `updateCollectionStatus` changes a user document: its only
write to users is the `$inc` the strict-mode cast drops. -/
theorem updateCollectionStatus_users (s : Store) (now : Date) (user : User) (id : ObjectId)
    (body : UpdateStatusBody) : (updateCollectionStatus s now user id body).2.users = s.users := by
  unfold updateCollectionStatus
  simp only [Store.updateUser_id]
  split
  · rfl
  · split
    · rfl
    · split
      · split
        · rfl
        · rename_i s1 hs1
          have h1 : s1.users = s.users := by
            split at hs1
            · exact Store.saveBin_users hs1
            · cases hs1
              rfl
          split
          · dsimp only
            split <;> exact h1
          · rename_i s4 h4
            rw [Store.saveCollection_users h4]
            split <;> exact h1
      · split
        · rfl
        · rename_i s1 h1
          exact Store.saveCollection_users h1

/-- Saving a collection over a store that holds the same collections as `s0`
makes it the document found under its id. -/
theorem Store.findCollection_saveCollection {s0 s s1 : Store} {c c' : Collection}
    {id : ObjectId} (h0 : s.collections = s0.collections) (hc : s0.findCollection id = some c)
    (hid : c'._id = id) (hs : s.saveCollection c' = some s1) :
    s1.findCollection id = some c' := by
  unfold Store.saveCollection at hs
  split at hs
  · cases hs
    have := @Store.findCollection_putCollection s c c'
      (by rw [hid]; unfold Store.findCollection; rw [h0]; exact hc)
    rw [hid] at this
    exact this
  · cases hs

/-- A request answered 200 was made by the collection's collector and stored
the requested status. -/
theorem updateCollectionStatus_ok_status (s : Store) (now : Date) (user : User) (id : ObjectId)
    (body : UpdateStatusBody) (c : Collection) (hc : s.findCollection id = some c)
    (h200 : (updateCollectionStatus s now user id body).1 = 200) :
    c.collector = user._id ∧
    ∃ c', (updateCollectionStatus s now user id body).2.findCollection id = some c' ∧
      c'.status = body.status := by
  have hcid := Store.findCollection_id hc
  unfold updateCollectionStatus at h200 ⊢
  simp only [hc, Store.updateUser_id] at h200 ⊢
  split
  · rename_i hne
    rw [if_pos hne] at h200
    cases h200
  · rename_i hown
    rw [if_neg hown] at h200
    refine ⟨not_not.mp hown, ?_⟩
    split
    · rename_i hst
      rw [if_pos hst] at h200
      split
      · rename_i hnone
        simp only [hnone] at h200
        cases h200
      · rename_i s1 hs1
        simp only [hs1] at h200
        have h1 : s1.collections = s.collections := by
          split at hs1
          · exact Store.saveBin_collections hs1
          · cases hs1
            rfl
        split
        · rename_i hn
          simp only [hn] at h200
          cases h200
        · rename_i s4 h4
          refine ⟨_, Store.findCollection_saveCollection ?_ hc ?_ h4, ?_⟩
          · split <;> exact h1
          · rw [completedCollection_id, hcid]
          · exact completedCollection_status c body now
    · rename_i hst
      rw [if_neg hst] at h200
      split
      · rename_i hn
        simp only [hn] at h200
        cases h200
      · rename_i s1 h1
        refine ⟨_, Store.findCollection_saveCollection rfl hc ?_ h1, ?_⟩
        · rw [applyStatusBody_id, hcid]
        · exact applyStatusBody_status c body

/-- A request by anyone but the collection's collector is answered 403 and
writes nothing. -/
theorem updateCollectionStatus_forbidden (s : Store) (now : Date) (user : User) (id : ObjectId)
    (body : UpdateStatusBody) (c : Collection) (hc : s.findCollection id = some c)
    (hne : c.collector ≠ user._id) :
    updateCollectionStatus s now user id body = (403, s) := by
  unfold updateCollectionStatus
  simp only [hc, if_pos hne]

/-- A request on an unknown collection is answered 404 and writes nothing. -/
theorem updateCollectionStatus_notFound (s : Store) (now : Date) (user : User) (id : ObjectId)
    (body : UpdateStatusBody) (hc : s.findCollection id = none) :
    updateCollectionStatus s now user id body = (404, s) := by
  unfold updateCollectionStatus
  simp only [hc]

theorem applyStatusBody_validate (c : Collection) (body : UpdateStatusBody)
    (hcv : c.validate = true) (hbody : updateStatusValidation body = true) :
    (applyStatusBody c body).validate = true := by
  unfold Collection.validate at hcv ⊢
  unfold updateStatusValidation at hbody
  simp only [applyStatusBody_fillLevelBefore, applyStatusBody_rating,
    applyStatusBody_fillLevelAfter]
  cases hf : body.fillLevelAfter with
  | none => simpa using hcv
  | some f =>
    simp only [hf, Bool.and_eq_true, decide_eq_true_eq] at hbody
    simp only [Option.getD_some, Bool.and_eq_true, decide_eq_true_eq] at hcv ⊢
    exact ⟨⟨⟨hcv.1.1.1, hbody.1⟩, hbody.2⟩, hcv.2⟩

/-- A request of the collection's collector for a status other than
`'completed'`, on a valid collection and with a valid body, is answered 200. -/
theorem updateCollectionStatus_other_ok (s : Store) (now : Date) (user : User) (id : ObjectId)
    (body : UpdateStatusBody) (c : Collection) (hc : s.findCollection id = some c)
    (hown : c.collector = user._id) (hst : body.status ≠ CollectionStatus.completed)
    (hcv : c.validate = true) (hbody : updateStatusValidation body = true) :
    (updateCollectionStatus s now user id body).1 = 200 := by
  unfold updateCollectionStatus
  simp only [hc, hown, ne_eq, not_true_eq_false, if_false, hst, Store.saveCollection,
    applyStatusBody_validate c body hcv hbody, if_true]

/-- A request that is not answered 200 leaves the collections as they were. -/
theorem updateCollectionStatus_failed_collections (s : Store) (now : Date) (user : User)
    (id : ObjectId) (body : UpdateStatusBody)
    (hne : (updateCollectionStatus s now user id body).1 ≠ 200) :
    (updateCollectionStatus s now user id body).2.collections = s.collections := by
  revert hne
  unfold updateCollectionStatus
  simp only [Store.updateUser_id]
  split
  · intro _
    rfl
  · split
    · intro _
      rfl
    · split
      · split
        · intro _
          rfl
        · rename_i s1 hs1
          have h1 : s1.collections = s.collections := by
            split at hs1
            · exact Store.saveBin_collections hs1
            · cases hs1
              rfl
          split
          · intro _
            dsimp only
            split <;> exact h1
          · intro hne
            exact absurd rfl hne
      · split
        · intro _
          rfl
        · intro hne
          exact absurd rfl hne

/-! ## Lemmas on routes -/

theorem applyRouteBody_completedBins (r : Route) (body : UpdateRouteBody) :
    (applyRouteBody r body).completedBins = r.completedBins := by
  unfold applyRouteBody
  repeat' split
  all_goals rfl

theorem applyRouteBody_id (r : Route) (body : UpdateRouteBody) :
    (applyRouteBody r body)._id = r._id := by
  unfold applyRouteBody
  repeat' split
  all_goals rfl

theorem applyRouteBody_bins (r : Route) (body : UpdateRouteBody) :
    (applyRouteBody r body).bins = body.bins.getD r.bins := by
  unfold applyRouteBody
  repeat' split
  all_goals simp_all

theorem Route.addToSet_completedSubset (r : Route) (b : ObjectId) (h : r.completedSubset)
    (hb : b ∈ r.bins.map (fun e => e.bin)) : (r.addToSetCompletedBins b).completedSubset := by
  unfold Route.addToSetCompletedBins
  split
  · exact h
  · intro x hx
    rcases List.mem_append.mp hx with hx | hx
    · exact h x hx
    · rw [List.mem_singleton.mp hx]
      exact hb

theorem Route.inc_completedSubset (r : Route) (path : String) (n : Int)
    (h : r.completedSubset) : (r.inc path n).completedSubset := by
  unfold Route.inc
  split
  · exact h
  · exact h

/-- The routes `updateCollectionStatus` leaves behind: untouched, or, on the
completion of a collection attached to a route, that route with the
collection's bin added to `completedBins` and its counter incremented. -/
theorem updateCollectionStatus_routes (s : Store) (now : Date) (user : User) (id : ObjectId)
    (body : UpdateStatusBody) :
    (updateCollectionStatus s now user id body).2.routes = s.routes ∨
    ∃ c rid, s.findCollection id = some c ∧ c.route = some rid ∧
      (updateCollectionStatus s now user id body).2.routes =
        s.routes.map (fun r => if r._id == rid then
          (r.addToSetCompletedBins c.bin).inc "statistics.totalCollections" 1 else r) := by
  unfold updateCollectionStatus
  simp only [Store.updateUser_id]
  split
  · exact Or.inl rfl
  · rename_i c hc
    split
    · exact Or.inl rfl
    · split
      · split
        · exact Or.inl rfl
        · rename_i s1 hs1
          have h1 : s1.routes = s.routes := by
            split at hs1
            · exact Store.saveBin_routes hs1
            · cases hs1
              rfl
          have key : ∀ s4 : Store, s4.routes =
              (match (completedCollection c body now).route with
                | some route => s1.updateRoute route (fun r =>
                    (r.addToSetCompletedBins (completedCollection c body now).bin).inc
                      "statistics.totalCollections" 1)
                | none => s1).routes →
              (s4.routes = s.routes ∨
                ∃ c0 rid, s.findCollection id = some c0 ∧ c0.route = some rid ∧
                  s4.routes = s.routes.map (fun r => if r._id == rid then
                    (r.addToSetCompletedBins c0.bin).inc "statistics.totalCollections" 1
                    else r)) := by
            intro s4 h4
            rw [completedCollection_route, completedCollection_bin] at h4
            cases hr : c.route with
            | none =>
              rw [hr] at h4
              exact Or.inl (h4.trans h1)
            | some rid =>
              rw [hr] at h4
              refine Or.inr ⟨c, rid, hc, hr, ?_⟩
              rw [h4]
              unfold Store.updateRoute
              rw [h1]
          split
          · exact key _ rfl
          · rename_i s4 h4
            exact key s4 (Store.saveCollection_routes h4)
      · split
        · exact Or.inl rfl
        · rename_i s1 h1
          exact Or.inl (Store.saveCollection_routes h1)

/-- The routes `createRoute` leaves behind: untouched, or, on 201, with one
new route that has the requested bins and no completed bin. -/
theorem createRoute_routes (s : Store) (newId : ObjectId) (body : CreateRouteBody) :
    ((createRoute s newId body).1 ≠ 201 ∧ (createRoute s newId body).2 = s) ∨
    ((createRoute s newId body).1 = 201 ∧
      ∃ r : Route, (createRoute s newId body).2.routes = s.routes ++ [r] ∧
        r.completedBins = [] ∧ r.bins = body.bins ∧ r._id = newId) := by
  unfold createRoute
  split
  · exact Or.inl ⟨by simp, rfl⟩
  · split
    · exact Or.inl ⟨by simp, rfl⟩
    · split
      · exact Or.inl ⟨by simp, rfl⟩
      · dsimp only
        split
        · exact Or.inl ⟨by simp, rfl⟩
        · split
          · exact Or.inr ⟨rfl, _, rfl, rfl, rfl, rfl⟩
          · exact Or.inl ⟨by simp, rfl⟩

/-- The routes `updateRoute` leaves behind: untouched, or, on 200, with the
loaded route replaced by `applyRouteBody`. -/
theorem updateRoute_routes (s : Store) (id : ObjectId) (body : UpdateRouteBody) :
    ((updateRoute s id body).1 ≠ 200 ∧ (updateRoute s id body).2 = s) ∨
    ((updateRoute s id body).1 = 200 ∧
      ∃ route, s.findRoute id = some route ∧
        (updateRoute s id body).2 = s.putRoute (applyRouteBody route body)) := by
  unfold updateRoute
  split
  · exact Or.inl ⟨by simp, rfl⟩
  · split
    · exact Or.inl ⟨by simp, rfl⟩
    · rename_i route hroute
      split
      · exact Or.inl ⟨by simp, rfl⟩
      · rename_i s1 h1
        unfold Store.saveRoute at h1
        split at h1
        · cases h1
          exact Or.inr ⟨rfl, route, hroute, rfl⟩
        · cases h1

/-! ## Lemmas on bins -/

theorem deriveStatus_ne_maintenance (f : Int) : deriveStatus f ≠ BinStatus.maintenance := by
  unfold deriveStatus
  split_ifs <;> decide

theorem applyFill_id (bin : Bin) (f : Int) (now : Date) : (applyFill bin f now)._id = bin._id :=
  rfl

theorem applyFill_fill (bin : Bin) (f : Int) (now : Date) :
    (applyFill bin f now).currentFillLevel = min (bin.currentFillLevel + f) bin.capacity := rfl

theorem applyFill_capacity (bin : Bin) (f : Int) (now : Date) :
    (applyFill bin f now).capacity = bin.capacity := rfl

theorem applyFill_status (bin : Bin) (f : Int) (now : Date) :
    (applyFill bin f now).status = deriveStatus (applyFill bin f now).currentFillLevel := by
  simp only [applyFill, Bin.updateStatus, deriveStatus, ge_iff_le]

theorem Store.mem_putBin {s : Store} {b x : Bin} (hx : x ∈ (s.putBin b).bins) :
    x = b ∨ x ∈ s.bins := by
  obtain ⟨y, hy, hyx⟩ := List.mem_map.mp hx
  split at hyx
  · exact Or.inl hyx.symm
  · exact Or.inr (hyx ▸ hy)

theorem Store.putBin_binsInv {s : Store} {b : Bin} (hinv : s.binsInv) (hb : b.statusConsistent) :
    ∀ s1 : Store, s1.bins = (s.putBin b).bins → s1.binsInv := by
  intro s1 h1 x hx
  rw [h1] at hx
  rcases Store.mem_putBin hx with h | h
  · rw [h]
    exact hb
  · exact hinv x h

/-- Looking up a bin after a write of a bin that kept status and fill level
of the loaded one finds a bin with the status and fill level it had. -/
theorem Store.findBin_putBin_kept {s : Store} {id : ObjectId} {bin b' : Bin}
    (hbin : s.findBin id = some bin) (hid : b'._id = bin._id) (hst : b'.status = bin.status)
    (hfill : b'.currentFillLevel = bin.currentFillLevel) (id0 : ObjectId) (b : Bin)
    (hb : s.findBin id0 = some b) :
    ∃ x, (s.putBin b').findBin id0 = some x ∧ x.status = b.status ∧
      x.currentFillLevel = b.currentFillLevel := by
  have hbid : bin._id = id := Store.findBin_id hbin
  by_cases h0 : id0 = id
  · have hbb : b = bin := by
      rw [h0, hbin] at hb
      exact (Option.some.inj hb).symm
    rw [hbb, h0]
    refine ⟨b', ?_, hst, hfill⟩
    have := @Store.findBin_putBin s bin b' (by rw [hid, hbid]; exact hbin)
    rw [hid, hbid] at this
    exact this
  · refine ⟨b, ?_, rfl, rfl⟩
    have := find_replace_other (fun x : Bin => x._id) b' s.bins id0
      (by show id0 ≠ b'._id; rw [hid, hbid]; exact h0)
    unfold Store.findBin Store.putBin
    rw [this]
    exact hb

/-- The outcome of `updateBinStatus`: 200 with the loaded bin replaced by
`applyFill` (which passed the validators), or another answer and nothing
written. -/
theorem updateBinStatus_result (s : Store) (now : Date) (user : User) (id : ObjectId)
    (body : UpdateBinStatusBody) :
    ((updateBinStatus s now user id body).1 ≠ 200 ∧ (updateBinStatus s now user id body).2 = s) ∨
    (∃ bin, s.findBin id = some bin ∧ (applyFill bin body.fillLevel now).validate = true ∧
      (updateBinStatus s now user id body).1 = 200 ∧
      (updateBinStatus s now user id body).2.bins =
        (s.putBin (applyFill bin body.fillLevel now)).bins) := by
  unfold updateBinStatus
  split
  · exact Or.inl ⟨by simp, rfl⟩
  · rename_i bin hbin
    split
    · exact Or.inl ⟨by simp, rfl⟩
    · rename_i s1 h1
      unfold Store.saveBin at h1
      split at h1
      · rename_i hv
        cases h1
        refine Or.inr ⟨bin, hbin, hv, rfl, ?_⟩
        dsimp only
        split <;> rfl
      · cases h1

/-- The outcome of `updateBin`: 200 with the loaded bin replaced by one of the
same status and fill level, or another answer and nothing written. -/
theorem updateBin_result (s : Store) (id : ObjectId) (body : UpdateBinBody) :
    ((updateBin s id body).1 ≠ 200 ∧ (updateBin s id body).2 = s) ∨
    (∃ bin b', s.findBin id = some bin ∧ b'._id = bin._id ∧ b'.status = bin.status ∧
      b'.currentFillLevel = bin.currentFillLevel ∧
      (updateBin s id body).1 = 200 ∧ (updateBin s id body).2 = s.putBin b') := by
  unfold updateBin
  split
  · exact Or.inl ⟨by simp, rfl⟩
  · rename_i bin hbin
    dsimp only
    split
    · exact Or.inl ⟨by simp, rfl⟩
    · rename_i s1 h1
      unfold Store.saveBin at h1
      split at h1
      · cases h1
        refine Or.inr ⟨bin, _, hbin, ?_, ?_, ?_, rfl, rfl⟩
        all_goals
          repeat' split
          all_goals rfl
      · cases h1

/-- The outcome of `assignCollector`: 200 with the loaded bin replaced by one
of the same status and fill level, or another answer and nothing written. -/
theorem assignCollector_result (s : Store) (id : ObjectId) (collectorId : ObjectId) :
    ((assignCollector s id collectorId).1 ≠ 200 ∧ (assignCollector s id collectorId).2 = s) ∨
    (∃ bin b', s.findBin id = some bin ∧ b'._id = bin._id ∧ b'.status = bin.status ∧
      b'.currentFillLevel = bin.currentFillLevel ∧
      (assignCollector s id collectorId).1 = 200 ∧
      (assignCollector s id collectorId).2 = s.putBin b') := by
  unfold assignCollector
  split
  · exact Or.inl ⟨by simp, rfl⟩
  · rename_i bin hbin
    split
    · exact Or.inl ⟨by simp, rfl⟩
    · split
      · exact Or.inl ⟨by simp, rfl⟩
      · split
        · exact Or.inl ⟨by simp, rfl⟩
        · rename_i s1 h1
          unfold Store.saveBin at h1
          split at h1
          · cases h1
            exact Or.inr ⟨bin, { bin with assignedCollector := some collectorId }, hbin, rfl, rfl,
              rfl, rfl, rfl⟩
          · cases h1

/-- The outcome of `createBin`: 201 with one new bin, empty and at level 0,
or another answer and nothing written. -/
theorem createBin_result (s : Store) (now : Date) (newId : ObjectId) (body : CreateBinBody) :
    ((createBin s now newId body).1 ≠ 201 ∧ (createBin s now newId body).2 = s) ∨
    (∃ b : Bin, b.status = BinStatus.empty ∧ b.currentFillLevel = 0 ∧
      (createBin s now newId body).1 = 201 ∧
      (createBin s now newId body).2.bins = s.bins ++ [b]) := by
  unfold createBin
  split
  · exact Or.inl ⟨by simp, rfl⟩
  · dsimp only
    split
    · exact Or.inr ⟨_, rfl, rfl, rfl, rfl⟩
    · exact Or.inl ⟨by simp, rfl⟩

/-- The bins `updateCollectionStatus` leaves behind: untouched, or, on a
completion, with the collection's bin replaced by `completeBin`. -/
theorem updateCollectionStatus_bins (s : Store) (now : Date) (user : User) (id : ObjectId)
    (body : UpdateStatusBody) :
    (updateCollectionStatus s now user id body).2.bins = s.bins ∨
    ∃ c bin, s.findCollection id = some c ∧ s.findBin c.bin = some bin ∧
      (updateCollectionStatus s now user id body).2.bins =
        (s.putBin (completeBin bin body.fillLevelAfter now)).bins := by
  unfold updateCollectionStatus
  simp only [Store.updateUser_id]
  split
  · exact Or.inl rfl
  · rename_i c hc
    split
    · exact Or.inl rfl
    · split
      · split
        · exact Or.inl rfl
        · rename_i s1 hs1
          have key : ∀ s4 : Store, s4.bins = s1.bins →
              (s4.bins = s.bins ∨
                ∃ c0 bin, s.findCollection id = some c0 ∧ s.findBin c0.bin = some bin ∧
                  s4.bins = (s.putBin (completeBin bin body.fillLevelAfter now)).bins) := by
            intro s4 h4
            rw [completedCollection_bin] at hs1
            split at hs1
            · rename_i bin hbin
              unfold Store.saveBin at hs1
              split at hs1
              · cases hs1
                exact Or.inr ⟨c, bin, hc, hbin, h4⟩
              · cases hs1
            · cases hs1
              exact Or.inl h4
          split
          · apply key
            dsimp only
            split <;> rfl
          · rename_i s4 h4
            apply key
            rw [Store.saveCollection_bins h4]
            split <;> rfl
      · split
        · exact Or.inl rfl
        · rename_i s1 h1
          exact Or.inl (Store.saveCollection_bins h1)

/-- A completion answered 200 on an existing bin stored `completeBin`. -/
theorem updateCollectionStatus_ok_findBin (s : Store) (now : Date) (user : User)
    (id : ObjectId) (body : UpdateStatusBody) (c : Collection) (bin : Bin)
    (hc : s.findCollection id = some c) (hst : body.status = CollectionStatus.completed)
    (hbin : s.findBin c.bin = some bin)
    (h200 : (updateCollectionStatus s now user id body).1 = 200) :
    (updateCollectionStatus s now user id body).2.findBin c.bin =
      some (completeBin bin body.fillLevelAfter now) := by
  have hown := (updateCollectionStatus_ok_status s now user id body c hc h200).1
  by_cases hv : (completeBin bin body.fillLevelAfter now).validate = true
  · exact updateCollectionStatus_completed_findBin s now user id body c bin hc hown hst hbin hv
  · exfalso
    unfold updateCollectionStatus at h200
    simp only [hc, hown, ne_eq, not_true_eq_false, if_false, hst, if_true,
      completedCollection_bin, hbin, Store.saveBin, hv] at h200
    cases h200

/-! ## Lemmas on the fee -/

theorem mathRound_eq_round (x : ℚ) : mathRound x = round x := by
  rw [round_eq]
  rfl

theorem weightOrZero_eq (w : WasteDetails) (category : WasteDetails → Option WasteCategory) :
    weightOrZero (category w) = specWeight (some w) category := by
  unfold weightOrZero specWeight
  rw [orZero_eq_getD]
  rfl

/-- The fee the code accumulates before rounding is the specification's sum. -/
theorem calculateBulkCollectionFee_eq (composition : Option WasteDetails) :
    calculateBulkCollectionFee composition =
      (mathRound (exactFee composition * 100) : ℚ) / 100 := by
  cases composition with
  | none =>
    have h : exactFee none = 50 := by
      simp [exactFee, specWeight]
    rw [h]
    rfl
  | some w =>
    have h : exactFee (some w) =
        50 + weightOrZero w.general * (1 / 2) + weightOrZero w.recyclable * (3 / 10) +
          weightOrZero w.organic * (2 / 5) + weightOrZero w.hazardous * 2 := by
      rw [weightOrZero_eq w (fun w => w.general), weightOrZero_eq w (fun w => w.recyclable),
        weightOrZero_eq w (fun w => w.organic), weightOrZero_eq w (fun w => w.hazardous)]
      unfold exactFee
      norm_num
      ring
    rw [h]
    rfl

/-! ## Lemmas on `startRoute` and `completeRoute` -/

theorem Store.findRoute_putRoute {s : Store} {r r' : Route} (h : s.findRoute r'._id = some r) :
    (s.putRoute r').findRoute r'._id = some r' :=
  find_replace_same (fun r : Route => r._id) r' s.routes r h

/-- `startRoute` writes nothing and never answers 200: the status it assigns
is not in the enum of `routeSchema`, so `route.save()` throws. -/
theorem startRoute_result (s : Store) (now : Date) (user : User) (id : ObjectId) :
    (startRoute s now user id).2 = s ∧ (startRoute s now user id).1 ≠ 200 := by
  unfold startRoute
  split
  · exact ⟨rfl, by simp⟩
  · split
    · exact ⟨rfl, by simp⟩
    · split
      · exact ⟨rfl, by simp⟩
      · simp [Store.saveRoute, Route.validate]

theorem completedRoute_validate (route : Route) (now : Date) :
    (completedRoute route now).validate = true := by
  simp [completedRoute, Route.validate]

theorem routeWithStatistics_validate (route : Route) (now : Date) (cs : List Collection) :
    (routeWithStatistics (completedRoute route now) cs).validate = true := by
  simp [routeWithStatistics, completedRoute, Route.validate]

/-- The whole minutes between two times: the floor of the quotient is the
integer quotient. -/
theorem completedRoute_actualDuration (route : Route) (now : Date) :
    (completedRoute route now).actualDuration =
      route.startTime.map (fun startTime => (now - startTime) / 60000) := by
  unfold completedRoute
  cases route.startTime with
  | none => rfl
  | some st =>
    simp only [Option.map_some']
    congr 1
    have h := Rat.floor_intCast_div_natCast (now - st) 60000
    have h2 : (((now - st : Int) : ℚ) / (1000 * 60)) = ((now - st : Int) : ℚ) / ((60000 : ℕ) : ℚ) := by
      norm_num
    rw [h2, h]
    rfl

/-- `completeRoute` by the route's collector answers 200 and stores the
completed route with its statistics. -/
theorem completeRoute_own (s : Store) (now : Date) (user : User) (id : ObjectId)
    (route : Route) (hr : s.findRoute id = some route) (hown : route.collector = user._id) :
    (completeRoute s now user id).1 = 200 ∧
    ∃ cs, (completeRoute s now user id).2.findRoute id =
      some (routeWithStatistics (completedRoute route now) cs) := by
  have hid : route._id = id := Store.findRoute_id hr
  have h1 : (s.putRoute (completedRoute route now)).findRoute id =
      some (completedRoute route now) := by
    have := @Store.findRoute_putRoute s route (completedRoute route now)
      (by show s.findRoute route._id = some route; rw [hid]; exact hr)
    rw [show (completedRoute route now)._id = id from hid] at this
    exact this
  unfold completeRoute
  simp only [hr, hown, ne_eq, not_true_eq_false, if_false, Store.saveRoute,
    completedRoute_validate, routeWithStatistics_validate, if_true]
  refine ⟨trivial, ((s.putRoute (completedRoute route now)).collections.filter
    (fun c => c.route == some (completedRoute route now)._id)), ?_⟩
  have := @Store.findRoute_putRoute (s.putRoute (completedRoute route now))
    (completedRoute route now)
    (routeWithStatistics (completedRoute route now)
      ((s.putRoute (completedRoute route now)).collections.filter
        (fun c => c.route == some (completedRoute route now)._id)))
    (by show (s.putRoute (completedRoute route now)).findRoute route._id = _
        rw [hid]; exact h1)
  rw [show (routeWithStatistics (completedRoute route now)
      ((s.putRoute (completedRoute route now)).collections.filter
        (fun c => c.route == some (completedRoute route now)._id)))._id = id from hid] at this
  exact this

/-! ## Lemmas on `rateCollection` -/

/-- The strict-mode cast drops the update of `statistics.averageRating`, a
path `userSchema` does not declare. -/
theorem User.setNumber_averageRating (u : User) (v : ℚ) :
    u.setNumber "statistics.averageRating" v = u := by
  simp [User.setNumber]

theorem Store.updateUser_averageRating (s : Store) (id : ObjectId) (v : ℚ) :
    s.updateUser id (fun u => u.setNumber "statistics.averageRating" v) = s := by
  simp [Store.updateUser, User.setNumber_averageRating]

/-- The collection `rateCollection` hands to `collection.save()`. -/
theorem rateCollection_result (s : Store) (user : User) (id : ObjectId) (body : RateBody)
    (c : Collection) (hc : s.findCollection id = some c) :
    ((rateCollection s user id body).1 ≠ 200 ∧ (rateCollection s user id body).2 = s) ∨
    ((rateCollection s user id body).1 = 200 ∧ c.resident = some user._id ∧
      ∃ c', c'._id = c._id ∧ c'.rating = some body.rating ∧ c'.status = c.status ∧
        c'.validate = true ∧ (rateCollection s user id body).2 = s.putCollection c') := by
  unfold rateCollection
  simp only [hc, Store.updateUser_averageRating]
  split
  · exact Or.inl ⟨by simp, rfl⟩
  · rename_i resident hres
    split
    · exact Or.inl ⟨by simp, rfl⟩
    · rename_i hown
      split
      · exact Or.inl ⟨by simp, rfl⟩
      · rename_i s1 h1
        unfold Store.saveCollection at h1
        split at h1
        · rename_i hv
          cases h1
          refine Or.inr ⟨rfl, by rw [hres, not_not.mp hown], _, ?_, ?_, ?_, hv, rfl⟩
          all_goals
            dsimp only
            split <;> rfl
        · cases h1

/-- A rating by the resident of a valid collection with a rating in `[1, 5]`
is answered 200. -/
theorem rateCollection_ok (s : Store) (user : User) (id : ObjectId) (body : RateBody)
    (c : Collection) (hc : s.findCollection id = some c) (hown : c.resident = some user._id)
    (hcv : c.validate = true) (hbody : ratingValidation body = true) :
    (rateCollection s user id body).1 = 200 := by
  have hv : ∀ c' : Collection, c'.fillLevelBefore = c.fillLevelBefore →
      c'.fillLevelAfter = c.fillLevelAfter → c'.rating = some body.rating →
      c'.validate = true := by
    intro c' h1 h2 h3
    unfold Collection.validate at hcv ⊢
    unfold ratingValidation at hbody
    rw [h1, h2, h3]
    simp only [Bool.and_eq_true, decide_eq_true_eq] at hcv hbody ⊢
    exact ⟨hcv.1, hbody⟩
  unfold rateCollection
  simp only [hc, hown, ne_eq, not_true_eq_false, if_false, Store.updateUser_averageRating,
    Store.saveCollection]
  split
  · rename_i h
    split at h
    · cases h
    · rename_i hnv
      exfalso
      apply hnv
      apply hv
      all_goals
        split <;> rfl
  · rfl

/-! ## Lemmas on `getNearbyBins` -/

/-- The order `getNearbyBins` sorts by. -/
theorem nearbyOrder_total : IsTotal NearbyBin (fun a b => a.distance ≤ b.distance) :=
  ⟨fun a b => le_total a.distance b.distance⟩

theorem nearbyOrder_trans : IsTrans NearbyBin (fun a b => a.distance ≤ b.distance) :=
  ⟨fun _ _ _ hab hbc => le_trans hab hbc⟩

/-- Inserting an entry into a list keeps, among the entries at one distance,
the inserted entry in front. -/
theorem filter_orderedInsert_distance (d : ℚ) (a : NearbyBin) (l : List NearbyBin) :
    (l.orderedInsert (fun a b => a.distance ≤ b.distance) a).filter
        (fun x => decide (x.distance = d)) =
      if a.distance = d then a :: l.filter (fun x => decide (x.distance = d))
      else l.filter (fun x => decide (x.distance = d)) := by
  induction l with
  | nil =>
    by_cases ha : a.distance = d
    · simp [ha]
    · simp [ha]
  | cons b l ih =>
    by_cases h : a.distance ≤ b.distance
    · simp only [List.orderedInsert, h, if_true]
      by_cases ha : a.distance = d
      · simp [List.filter_cons, ha]
      · simp [List.filter_cons, ha]
    · have hlt : b.distance < a.distance := lt_of_not_le h
      simp only [List.orderedInsert, h, if_false]
      rw [List.filter_cons, ih]
      by_cases ha : a.distance = d
      · have hb : ¬ b.distance = d := by
          intro hb
          rw [ha, hb] at hlt
          exact lt_irrefl _ hlt
        simp [List.filter_cons, ha, hb]
      · by_cases hb : b.distance = d
        · simp [List.filter_cons, ha, hb]
        · simp [List.filter_cons, ha, hb]

/-- The sort is stable: among the entries at one distance it changes
nothing. -/
theorem filter_insertionSort_distance (d : ℚ) (l : List NearbyBin) :
    (l.insertionSort (fun a b => a.distance ≤ b.distance)).filter
        (fun x => decide (x.distance = d)) =
      l.filter (fun x => decide (x.distance = d)) := by
  induction l with
  | nil => rfl
  | cons a l ih =>
    rw [List.insertionSort, filter_orderedInsert_distance, ih]
    by_cases ha : a.distance = d
    · simp [List.filter_cons, ha]
    · simp [List.filter_cons, ha]

/-- The answer of `getNearbyBins` to a query with coordinates: the candidates,
sorted, cut after 20. -/
theorem getNearbyBins_eq (calculateDistance : Bin → ℚ → ℚ → ℚ) (s : Store)
    (latitude longitude : ℚ) (radius : Option ℚ) :
    (getNearbyBins calculateDistance s
      { latitude := some latitude, longitude := some longitude, radius := radius }).2 =
    ((nearbyCandidates calculateDistance s latitude longitude (radius.getD 5)).insertionSort
      (fun a b => a.distance ≤ b.distance)).take 20 := rfl

/-! ## Lemmas on the collections -/

theorem Store.saveCollection_collections {s s1 : Store} {c : Collection}
    (h : s.saveCollection c = some s1) :
    s1.collections = s.collections.map (fun x => if x._id == c._id then c else x) := by
  unfold Store.saveCollection at h
  split at h
  · cases h
    rfl
  · cases h

/-- The collections after `createCollectionRequest`: as before, or with one
new collection at the end, `'assigned'` and without `completedDate`. -/
theorem createCollectionRequest_collections (s : Store) (now : Date) (newId : ObjectId)
    (user : User) (body : CreateCollectionBody) :
    (createCollectionRequest s now newId user body).2.collections = s.collections ∨
    ∃ c : Collection, c.status = CollectionStatus.assigned ∧ c.completedDate = none ∧
      (createCollectionRequest s now newId user body).2.collections = s.collections ++ [c] := by
  unfold createCollectionRequest
  split
  · exact Or.inl rfl
  · split
    · exact Or.inl rfl
    · split
      · exact Or.inl rfl
      · dsimp only
        split_ifs
        all_goals first
          | exact Or.inl rfl
          | exact Or.inr ⟨_, rfl, rfl, rfl⟩

/-- The collections after `updateCollectionStatus`: as before, or with the
collection of this id replaced by one that, if `'completed'`, has its
`completedDate`. -/
theorem updateCollectionStatus_collections (s : Store) (now : Date) (user : User)
    (id : ObjectId) (body : UpdateStatusBody) :
    (updateCollectionStatus s now user id body).2.collections = s.collections ∨
    ∃ c1 : Collection, c1._id = id ∧ c1.completedHasDate ∧
      (updateCollectionStatus s now user id body).2.collections =
        s.collections.map (fun x => if x._id == c1._id then c1 else x) := by
  unfold updateCollectionStatus
  simp only [Store.updateUser_id]
  split
  · exact Or.inl rfl
  · rename_i c hc
    have hid := Store.findCollection_id hc
    split
    · exact Or.inl rfl
    · split
      · split
        · exact Or.inl rfl
        · rename_i s1 hs1
          have h1 : s1.collections = s.collections := by
            split at hs1
            · exact Store.saveBin_collections hs1
            · cases hs1
              rfl
          split
          · left
            dsimp only
            split <;> exact h1
          · rename_i s4 h4
            right
            refine ⟨completedCollection c body now, ?_, ?_, ?_⟩
            · rw [completedCollection_id]
              exact hid
            · intro _
              rfl
            · rw [Store.saveCollection_collections h4]
              congr 1
              split <;> exact h1
      · rename_i hst
        split
        · exact Or.inl rfl
        · rename_i s1 h1
          right
          refine ⟨applyStatusBody c body, ?_, ?_, ?_⟩
          · rw [applyStatusBody_id]
            exact hid
          · intro h
            rw [applyStatusBody_status] at h
            exact absurd h hst
          · exact Store.saveCollection_collections h1

/-- One request keeps the half of the collection invariant. -/
theorem CollectionRequest.handle_collectionsInv (s : Store) (request : CollectionRequest)
    (h : s.collectionsInv) : (CollectionRequest.handle s request).collectionsInv := by
  cases request with
  | create now newId user body =>
    unfold CollectionRequest.handle
    rcases createCollectionRequest_collections s now newId user body with h1 | ⟨c, hst, _, h1⟩
    · intro x hx
      dsimp only at hx
      rw [h1] at hx
      exact h x hx
    · intro x hx
      dsimp only at hx
      rw [h1] at hx
      rcases List.mem_append.mp hx with hx | hx
      · exact h x hx
      · rw [List.mem_singleton.mp hx]
        intro hcompleted
        rw [hst] at hcompleted
        cases hcompleted
  | updateStatus now user id body =>
    unfold CollectionRequest.handle
    rcases updateCollectionStatus_collections s now user id body with h1 | ⟨c, _, hc, h1⟩
    · intro x hx
      dsimp only at hx
      rw [h1] at hx
      exact h x hx
    · intro x hx
      dsimp only at hx
      rw [h1] at hx
      rcases List.mem_map.mp hx with ⟨y, hy, hxy⟩
      split at hxy
      · rw [← hxy]
        exact hc
      · rw [← hxy]
        exact h y hy

/-! ## Lemmas on `needsCollection` and the status rank -/

/-- The whole days in a number of milliseconds: the floor of the quotient is
the integer quotient. -/
theorem floor_days (elapsed : Int) :
    ⌊((elapsed : Int) : ℚ) / (1000 * 60 * 60 * 24)⌋ = elapsed / 86400000 := by
  have h := Rat.floor_intCast_div_natCast elapsed 86400000
  have h2 : ((elapsed : Int) : ℚ) / (1000 * 60 * 60 * 24) =
      ((elapsed : Int) : ℚ) / ((86400000 : ℕ) : ℚ) := by
    norm_num
  rw [h2, h]
  rfl

/-- At least `k` whole days have passed exactly when `k` days of milliseconds
have. -/
theorem days_le_iff (k elapsed : Int) :
    k ≤ elapsed / 86400000 ↔ k * 86400000 ≤ elapsed :=
  Int.le_ediv_iff_mul_le (by norm_num)

/-- The rank of the derived status does not fall as the fill level rises. -/
theorem deriveStatus_rank_mono (f1 f2 : Int) (h : f1 ≤ f2) :
    (deriveStatus f1).rank ≤ (deriveStatus f2).rank := by
  unfold deriveStatus
  split_ifs <;> simp only [BinStatus.rank] <;> omega

/-! ## Lemmas on the progress of a route -/

/-- A duplicate-free `completedBins` within the bins of the route is no longer
than `bins`. -/
theorem Route.completedBins_length_le (r : Route) (hnodup : r.completedBins.Nodup)
    (hsub : r.completedSubset) : r.completedBins.length ≤ r.bins.length := by
  have h := (List.subperm_of_subset hnodup (fun b hb => hsub b hb)).length_le
  rw [List.length_map] at h
  exact h

/-- `Math.round` does not fall as its argument rises. -/
theorem mathRound_mono {x y : ℚ} (h : x ≤ y) : mathRound x ≤ mathRound y := by
  unfold mathRound
  exact Int.floor_le_floor (by linarith)

theorem mathRound_intCast (n : Int) : mathRound (n : ℚ) = n := by
  unfold mathRound
  rw [Int.floor_eq_iff]
  constructor <;> norm_num

/-- The route's share of completed bins, as a percentage, lies in `[0, 100]`
when `completedBins` is no longer than `bins`. -/
theorem Route.getProgress_range (r : Route) (h : r.completedBins.length ≤ r.bins.length) :
    0 ≤ r.getProgress ∧ r.getProgress ≤ 100 := by
  unfold Route.getProgress
  split
  · exact ⟨le_refl 0, by norm_num⟩
  · rename_i hne
    have hb : (0 : ℚ) < (r.bins.length : ℚ) := by
      exact_mod_cast Nat.pos_of_ne_zero hne
    have hc : (r.completedBins.length : ℚ) ≤ (r.bins.length : ℚ) := by
      exact_mod_cast h
    have h0 : (0 : ℚ) ≤ (r.completedBins.length : ℚ) / (r.bins.length : ℚ) * 100 := by
      positivity
    have h100 : (r.completedBins.length : ℚ) / (r.bins.length : ℚ) * 100 ≤ 100 := by
      have : (r.completedBins.length : ℚ) / (r.bins.length : ℚ) ≤ 1 :=
        (div_le_one hb).mpr hc
      linarith
    constructor
    · have := mathRound_mono h0
      rw [show ((0 : ℚ)) = ((0 : Int) : ℚ) by norm_num, mathRound_intCast] at this
      exact this
    · have := mathRound_mono h100
      rw [show ((100 : ℚ)) = ((100 : Int) : ℚ) by norm_num, mathRound_intCast] at this
      exact this

/-- With as many completed bins as bins, and at least one, the progress is
100. -/
theorem Route.getProgress_full (r : Route) (hne : r.bins ≠ [])
    (h : r.completedBins.length = r.bins.length) : r.getProgress = 100 := by
  unfold Route.getProgress
  have hlen : r.bins.length ≠ 0 := fun h0 => hne (List.length_eq_zero.mp h0)
  rw [if_neg hlen, h]
  have hb : ((r.bins.length : ℚ)) ≠ 0 := by
    exact_mod_cast hlen
  rw [div_self hb, one_mul, show ((100 : ℚ)) = ((100 : Int) : ℚ) by norm_num, mathRound_intCast]

/-! ## Lemmas on a status update other than a completion -/

/-- A status update whose requested status is not `'completed'`: rejected
with the store as it was, or answered 200 with the collection replaced. -/
theorem updateCollectionStatus_other_result (s : Store) (now : Date) (user : User)
    (id : ObjectId) (body : UpdateStatusBody) (hst : body.status ≠ CollectionStatus.completed) :
    ((updateCollectionStatus s now user id body).1 ≠ 200 ∧
      (updateCollectionStatus s now user id body).2 = s) ∨
    ∃ c, s.findCollection id = some c ∧ c.collector = user._id ∧
      updateCollectionStatus s now user id body =
        (200, s.putCollection (applyStatusBody c body)) := by
  unfold updateCollectionStatus
  split
  · exact Or.inl ⟨by simp, rfl⟩
  · rename_i c hc
    split
    · exact Or.inl ⟨by simp, rfl⟩
    · rename_i hown
      dsimp only
      split
      · exact Or.inl ⟨by simp, rfl⟩
      · rename_i s1 h1
        right
        refine ⟨c, hc, not_not.mp hown, ?_⟩
        unfold Store.saveCollection at h1
        split at h1
        · cases h1
          rfl
        · cases h1

/-- A request answered 403 or 404 left the store as it was. -/
theorem updateCollectionStatus_rejected (s : Store) (now : Date) (user : User)
    (id : ObjectId) (body : UpdateStatusBody)
    (h : (updateCollectionStatus s now user id body).1 = 403 ∨
      (updateCollectionStatus s now user id body).1 = 404) :
    (updateCollectionStatus s now user id body).2 = s := by
  revert h
  unfold updateCollectionStatus
  split
  · intro _
    rfl
  · split
    · intro _
      rfl
    · split
      · dsimp only
        split
        · intro _
          rfl
        · split
          · intro h
            rcases h with h | h <;> simp at h
          · intro h
            rcases h with h | h <;> simp at h
      · dsimp only
        split
        · intro _
          rfl
        · intro h
          rcases h with h | h <;> simp at h

/-! ## Lemmas on doubles -/

/-- A rational less than a half from an integer rounds to it. -/
theorem roundHalfEven_eq (q : ℚ) (m : Int) (h1 : (m : ℚ) - 1 / 2 < q)
    (h2 : q < (m : ℚ) + 1 / 2) : roundHalfEven q = m := by
  have hf1 := Int.floor_le q
  have hf2 := Int.lt_floor_add_one q
  unfold roundHalfEven
  split_ifs with ha hb hc
  · apply le_antisymm
    · exact Int.lt_add_one_iff.mp (by
        exact_mod_cast (show ((⌊q⌋ : Int) : ℚ) < m + 1 by linarith))
    · exact Int.lt_add_one_iff.mp (by
        exact_mod_cast (show ((m : Int) : ℚ) < ⌊q⌋ + 1 by linarith))
  · apply le_antisymm
    · have : (⌊q⌋ : Int) < m := by exact_mod_cast (show ((⌊q⌋ : Int) : ℚ) < m by linarith)
      omega
    · exact Int.lt_add_one_iff.mp (by
        exact_mod_cast (show ((m : Int) : ℚ) < (⌊q⌋ + 1) + 1 by linarith))
  · exfalso
    have h3 : (⌊q⌋ : Int) < m := by exact_mod_cast (show ((⌊q⌋ : Int) : ℚ) < m by linarith)
    have h4 : (m : Int) < ⌊q⌋ + 1 := by
      exact_mod_cast (show ((m : Int) : ℚ) < ⌊q⌋ + 1 by linarith)
    omega
  · exfalso
    have h3 : (⌊q⌋ : Int) < m := by exact_mod_cast (show ((⌊q⌋ : Int) : ℚ) < m by linarith)
    have h4 : (m : Int) < ⌊q⌋ + 1 := by
      exact_mod_cast (show ((m : Int) : ℚ) < ⌊q⌋ + 1 by linarith)
    omega

theorem roundHalfEven_intCast (k : Int) : roundHalfEven (k : ℚ) = k :=
  roundHalfEven_eq _ k (by linarith) (by linarith)

/-- The double nearest to `x`, from the exponent `e` of `x` and the
significand `m` nearest to `x / 2 ^ (e - 52)`. -/
theorem Double.nearest_eq (x : ℚ) (e m : Int) (h1 : (2 : ℚ) ^ e ≤ |x|)
    (h2 : |x| < (2 : ℚ) ^ (e + 1)) (he : -1022 ≤ e)
    (hm1 : ((m : ℚ) - 1 / 2) * (2 : ℚ) ^ (e - 52) < x)
    (hm2 : x < ((m : ℚ) + 1 / 2) * (2 : ℚ) ^ (e - 52)) :
    Double.nearest x = (m : ℚ) * (2 : ℚ) ^ (e - 52) := by
  have hpos : (0 : ℚ) < |x| := lt_of_lt_of_le (zpow_pos (by norm_num) e) h1
  have hlog : Int.log 2 |x| = e := by
    apply le_antisymm
    · have := (Int.lt_zpow_iff_log_lt (by norm_num : 1 < 2) hpos).mp
        (by rw [Nat.cast_ofNat]; exact h2)
      omega
    · exact (Int.zpow_le_iff_le_log (by norm_num : 1 < 2) hpos).mp
        (by rw [Nat.cast_ofNat]; exact h1)
  have hu : (0 : ℚ) < (2 : ℚ) ^ (e - 52) := zpow_pos (by norm_num) _
  unfold Double.nearest Double.spacing
  rw [hlog, max_eq_left he, roundHalfEven_eq _ m ((lt_div_iff₀ hu).mpr hm1)
    ((div_lt_iff₀ hu).mpr hm2)]

theorem Double.ofExact_eq (x y : ℚ) (h : Double.nearest x = y) (h1 : -Double.maxValue ≤ y)
    (h2 : y ≤ Double.maxValue) : Double.ofExact x = JsNumber.finite y := by
  unfold Double.ofExact
  rw [h, if_neg (not_lt.mpr h2), if_neg (not_lt.mpr h1)]

theorem Double.nearest_zero : Double.nearest 0 = 0 := by
  unfold Double.nearest
  rw [zero_div]
  have : roundHalfEven 0 = 0 := roundHalfEven_eq 0 0 (by norm_num) (by norm_num)
  rw [this]
  simp

theorem Double.ofExact_zero : Double.ofExact 0 = JsNumber.finite 0 :=
  Double.ofExact_eq 0 0 Double.nearest_zero (by unfold Double.maxValue; norm_num)
    (by unfold Double.maxValue; norm_num)

/-- The double an exact result is delivered as, from its exponent and
significand. -/
theorem Double.ofExact_of_nearest (x : ℚ) (e m : Int) (h1 : (2 : ℚ) ^ e ≤ |x|)
    (h2 : |x| < (2 : ℚ) ^ (e + 1)) (he : -1022 ≤ e) (he2 : e ≤ 1022)
    (hm1 : ((m : ℚ) - 1 / 2) * (2 : ℚ) ^ (e - 52) < x)
    (hm2 : x < ((m : ℚ) + 1 / 2) * (2 : ℚ) ^ (e - 52))
    (hm : |(m : ℚ)| ≤ 2 ^ 53) :
    Double.ofExact x = JsNumber.finite ((m : ℚ) * (2 : ℚ) ^ (e - 52)) := by
  have hu : (0 : ℚ) < (2 : ℚ) ^ (e - 52) := zpow_pos (by norm_num) _
  have hle : (2 : ℚ) ^ (e - 52) ≤ (2 : ℚ) ^ (970 : ℤ) :=
    zpow_le_zpow_right₀ (by norm_num) (by omega)
  have hbound : |(m : ℚ) * (2 : ℚ) ^ (e - 52)| ≤ Double.maxValue := by
    rw [abs_mul, abs_of_pos hu]
    calc |(m : ℚ)| * (2 : ℚ) ^ (e - 52) ≤ 2 ^ 53 * (2 : ℚ) ^ (970 : ℤ) :=
          mul_le_mul hm hle hu.le (by norm_num)
      _ ≤ Double.maxValue := by
          unfold Double.maxValue
          norm_num
  exact Double.ofExact_eq x _ (Double.nearest_eq x e m h1 h2 he hm1 hm2)
    (neg_le_of_abs_le hbound) (le_of_abs_le hbound)

/-- An integer below `2 ^ 53` in size is a double. -/
theorem Double.nearest_intCast (n : Int) (h : |n| < 2 ^ 53) : Double.nearest (n : ℚ) = n := by
  by_cases hn : n = 0
  · rw [hn, Int.cast_zero]
    exact Double.nearest_zero
  · have hpos : (0 : ℚ) < |(n : ℚ)| := abs_pos.mpr (by exact_mod_cast hn)
    have h1 : (1 : ℚ) ≤ |(n : ℚ)| := by
      have : (1 : Int) ≤ |n| := Int.one_le_abs hn
      exact_mod_cast this
    have h53 : |(n : ℚ)| < (2 : ℚ) ^ (53 : ℤ) := by
      have : ((|n| : Int) : ℚ) < ((2 ^ 53 : Int) : ℚ) := by exact_mod_cast h
      rw [Int.cast_abs] at this
      norm_num at this ⊢
      exact this
    have he0 : 0 ≤ Int.log 2 |(n : ℚ)| :=
      (Int.zpow_le_iff_le_log (by norm_num : 1 < 2) hpos).mp (by
        rw [zpow_zero]
        exact h1)
    have he53 : Int.log 2 |(n : ℚ)| < 53 :=
      (Int.lt_zpow_iff_log_lt (by norm_num : 1 < 2) hpos).mp (by
        rw [Nat.cast_ofNat]
        exact h53)
    obtain ⟨k, hk⟩ : ∃ k : ℕ, Int.log 2 |(n : ℚ)| = 52 - (k : ℤ) :=
      ⟨(52 - Int.log 2 |(n : ℚ)|).toNat, by omega⟩
    unfold Double.nearest Double.spacing
    rw [max_eq_left (by omega), hk]
    have hs : (2 : ℚ) ^ (52 - (k : ℤ) - 52) = ((2 : ℚ) ^ k)⁻¹ := by
      rw [show (52 - (k : ℤ) - 52) = -(k : ℤ) by ring, zpow_neg, zpow_natCast]
    rw [hs, div_inv_eq_mul]
    have hcast : (n : ℚ) * (2 : ℚ) ^ k = ((n * 2 ^ k : Int) : ℚ) := by
      push_cast
      ring
    rw [hcast, roundHalfEven_intCast, ← hcast]
    have : ((2 : ℚ) ^ k) ≠ 0 := pow_ne_zero _ (by norm_num)
    field_simp

/-- An exact result that is an integer below `2 ^ 53` in size is delivered
as it is. -/
theorem Double.ofExact_intCast (x : ℚ) (n : Int) (hx : x = (n : ℚ)) (h : |n| < 2 ^ 53) :
    Double.ofExact x = JsNumber.finite (n : ℚ) := by
  rw [hx]
  apply Double.ofExact_eq _ _ (Double.nearest_intCast n h)
  · have : (-(2 ^ 53 : Int) : ℚ) ≤ (n : ℚ) := by
      exact_mod_cast (neg_le_of_abs_le h.le)
    refine le_trans ?_ this
    unfold Double.maxValue
    norm_num
  · have : (n : ℚ) ≤ ((2 ^ 53 : Int) : ℚ) := by
      exact_mod_cast (le_of_abs_le h.le)
    refine le_trans this ?_
    unfold Double.maxValue
    norm_num

theorem Double.add_finite (a b : ℚ) :
    Double.add (JsNumber.finite a) (JsNumber.finite b) = Double.ofExact (a + b) := rfl

theorem Double.mul_finite (a b : ℚ) :
    Double.mul (JsNumber.finite a) (JsNumber.finite b) = Double.ofExact (a * b) := rfl

theorem Double.div_finite (a b : ℚ) (hb : b ≠ 0) :
    Double.div (JsNumber.finite a) (JsNumber.finite b) = Double.ofExact (a / b) := by
  show (if b ≠ 0 then Double.ofExact (a / b) else _) = _
  rw [if_pos hb]

/-- The literals `0.5`, `0.3`, `0.4` and `2.0` of the source as doubles. -/
theorem Double.ofExact_literals :
    Double.ofExact (1 / 2) = JsNumber.finite (1 / 2) ∧
    Double.ofExact (3 / 10) = JsNumber.finite (5404319552844595 / 18014398509481984) ∧
    Double.ofExact (2 / 5) = JsNumber.finite (3602879701896397 / 9007199254740992) ∧
    Double.ofExact 2 = JsNumber.finite 2 := by
  refine ⟨?_, ?_, ?_, ?_⟩
  · rw [Double.ofExact_of_nearest (1 / 2) (-1) 4503599627370496 (by norm_num [abs_of_pos])
      (by norm_num [abs_of_pos]) (by norm_num) (by norm_num) (by norm_num) (by norm_num)
      (by norm_num [abs_of_pos])]
    norm_num
  · rw [Double.ofExact_of_nearest (3 / 10) (-2) 5404319552844595 (by norm_num [abs_of_pos])
      (by norm_num [abs_of_pos]) (by norm_num) (by norm_num) (by norm_num) (by norm_num)
      (by norm_num [abs_of_pos])]
    norm_num
  · rw [Double.ofExact_of_nearest (2 / 5) (-2) 7205759403792794 (by norm_num [abs_of_pos])
      (by norm_num [abs_of_pos]) (by norm_num) (by norm_num) (by norm_num) (by norm_num)
      (by norm_num [abs_of_pos])]
    norm_num
  · rw [Double.ofExact_of_nearest 2 1 4503599627370496 (by norm_num [abs_of_pos])
      (by norm_num [abs_of_pos]) (by norm_num) (by norm_num) (by norm_num) (by norm_num)
      (by norm_num [abs_of_pos])]
    norm_num

/-- The fee of an absent composition in doubles. -/
theorem Double.calculateBulkCollectionFee_none :
    Double.calculateBulkCollectionFee none = JsNumber.finite 50 := by
  have htimes : Double.ofExact (50 * 100) = JsNumber.finite 5000 := by
    rw [Double.ofExact_intCast (50 * 100) 5000 (by norm_num) (by norm_num)]
    norm_num
  have hround : mathRound 5000 = 5000 := by
    unfold mathRound
    rw [Int.floor_eq_iff]
    constructor <;> norm_num
  have hdiv : Double.ofExact (((5000 : Int) : ℚ) / 100) = JsNumber.finite 50 := by
    rw [Double.ofExact_intCast _ 50 (by norm_num) (by norm_num)]
    norm_num
  unfold Double.calculateBulkCollectionFee
  dsimp only
  rw [Double.mul_finite, htimes]
  show Double.div (JsNumber.finite (mathRound 5000)) (JsNumber.finite 100) = _
  rw [hround, Double.div_finite _ _ (by norm_num), hdiv]

/-- The fee of the specification's example in doubles. -/
theorem Double.calculateBulkCollectionFee_ofSpec :
    Double.calculateBulkCollectionFee (some demoWasteOfSpec) = JsNumber.finite 59 := by
  obtain ⟨hhalf, h3, h4, h2⟩ := Double.ofExact_literals
  have h10 : Double.ofExact 10 = JsNumber.finite 10 := by
    rw [Double.ofExact_intCast 10 10 (by norm_num) (by norm_num)]
    norm_num
  have hgeneral : Double.weightOrZero (some { weight := some 10 }) = JsNumber.finite 10 := by
    show (Double.ofExact 10).orZero = _
    rw [h10]
    show (if (10 : ℚ) = 0 then JsNumber.finite 0 else JsNumber.finite 10) = _
    rw [if_neg (by norm_num)]
  have hhazardous : Double.weightOrZero (some { weight := some 2 }) = JsNumber.finite 2 := by
    show (Double.ofExact 2).orZero = _
    rw [h2]
    show (if (2 : ℚ) = 0 then JsNumber.finite 0 else JsNumber.finite 2) = _
    rw [if_neg (by norm_num)]
  have hnone : Double.weightOrZero none = JsNumber.finite 0 := rfl
  have hprod : Double.ofExact (10 * (1 / 2)) = JsNumber.finite 5 := by
    rw [Double.ofExact_intCast _ 5 (by norm_num) (by norm_num)]
    norm_num
  have hsum : Double.ofExact (50 + 5) = JsNumber.finite 55 := by
    rw [Double.ofExact_intCast _ 55 (by norm_num) (by norm_num)]
    norm_num
  have hkeep : Double.ofExact (55 + 0) = JsNumber.finite 55 := by
    rw [Double.ofExact_intCast _ 55 (by norm_num) (by norm_num)]
    norm_num
  have hprod2 : Double.ofExact (2 * 2) = JsNumber.finite 4 := by
    rw [Double.ofExact_intCast _ 4 (by norm_num) (by norm_num)]
    norm_num
  have hsum2 : Double.ofExact (55 + 4) = JsNumber.finite 59 := by
    rw [Double.ofExact_intCast _ 59 (by norm_num) (by norm_num)]
    norm_num
  have htimes : Double.ofExact (59 * 100) = JsNumber.finite 5900 := by
    rw [Double.ofExact_intCast _ 5900 (by norm_num) (by norm_num)]
    norm_num
  have hround : mathRound 5900 = 5900 := by
    unfold mathRound
    rw [Int.floor_eq_iff]
    constructor <;> norm_num
  have hdiv : Double.ofExact (((5900 : Int) : ℚ) / 100) = JsNumber.finite 59 := by
    rw [Double.ofExact_intCast _ 59 (by norm_num) (by norm_num)]
    norm_num
  unfold Double.calculateBulkCollectionFee
  dsimp only [demoWasteOfSpec]
  rw [hgeneral, hhazardous, hnone, hhalf, h3, h4, h2, Double.mul_finite, Double.mul_finite,
    Double.mul_finite, Double.mul_finite, hprod, zero_mul, zero_mul, Double.ofExact_zero,
    hprod2, Double.add_finite, hsum, Double.add_finite, hkeep, Double.add_finite, hkeep,
    Double.add_finite, hsum2, Double.mul_finite, htimes]
  show Double.div (JsNumber.finite (mathRound 5900)) (JsNumber.finite 100) = _
  rw [hround, Double.div_finite _ _ (by norm_num), hdiv]

/-- The fee of 28.23 of general waste in doubles: the double written
`64.11`. -/
theorem Double.calculateBulkCollectionFee_demoWaste :
    Double.calculateBulkCollectionFee (some demoWaste) = Double.ofExact (6411 / 100) := by
  obtain ⟨hhalf, h3, h4, h2⟩ := Double.ofExact_literals
  have hw : Double.ofExact (2823 / 100) =
      JsNumber.finite (7946038592541819 / 281474976710656) := by
    rw [Double.ofExact_of_nearest (2823 / 100) 4 7946038592541819 (by norm_num [abs_of_pos])
      (by norm_num [abs_of_pos]) (by norm_num) (by norm_num) (by norm_num) (by norm_num)
      (by norm_num [abs_of_pos])]
    norm_num
  have hgeneral : Double.weightOrZero (some { weight := some (2823 / 100) }) =
      JsNumber.finite (7946038592541819 / 281474976710656) := by
    show (Double.ofExact (2823 / 100)).orZero = _
    rw [hw]
    show (if (7946038592541819 / 281474976710656 : ℚ) = 0 then JsNumber.finite 0
      else JsNumber.finite (7946038592541819 / 281474976710656)) = _
    rw [if_neg (by norm_num)]
  have hnone : Double.weightOrZero none = JsNumber.finite 0 := rfl
  have hprod : Double.ofExact (7946038592541819 / 281474976710656 * (1 / 2)) =
      JsNumber.finite (7946038592541819 / 562949953421312) := by
    rw [Double.ofExact_of_nearest _ 3 7946038592541819 (by norm_num [abs_of_pos])
      (by norm_num [abs_of_pos]) (by norm_num) (by norm_num) (by norm_num) (by norm_num)
      (by norm_num [abs_of_pos])]
    norm_num
  have hsum : Double.ofExact (50 + 7946038592541819 / 562949953421312) =
      JsNumber.finite (4511692032950927 / 70368744177664) := by
    rw [Double.ofExact_of_nearest _ 6 4511692032950927 (by norm_num [abs_of_pos])
      (by norm_num [abs_of_pos]) (by norm_num) (by norm_num) (by norm_num) (by norm_num)
      (by norm_num [abs_of_pos])]
    norm_num
  have hkeep : Double.ofExact (4511692032950927 / 70368744177664 + 0) =
      JsNumber.finite (4511692032950927 / 70368744177664) := by
    rw [Double.ofExact_of_nearest _ 6 4511692032950927 (by norm_num [abs_of_pos])
      (by norm_num [abs_of_pos]) (by norm_num) (by norm_num) (by norm_num) (by norm_num)
      (by norm_num [abs_of_pos])]
    norm_num
  have htimes : Double.ofExact (4511692032950927 / 70368744177664 * 100) =
      JsNumber.finite (7049518801485823 / 1099511627776) := by
    rw [Double.ofExact_of_nearest _ 12 7049518801485823 (by norm_num [abs_of_pos])
      (by norm_num [abs_of_pos]) (by norm_num) (by norm_num) (by norm_num) (by norm_num)
      (by norm_num [abs_of_pos])]
    norm_num
  have hround : mathRound (7049518801485823 / 1099511627776) = 6411 := by
    unfold mathRound
    rw [Int.floor_eq_iff]
    constructor <;> norm_num
  unfold Double.calculateBulkCollectionFee
  dsimp only [demoWaste]
  rw [hgeneral, hnone, hhalf, h3, h4, h2, Double.mul_finite, Double.mul_finite,
    Double.mul_finite, Double.mul_finite, hprod, zero_mul, zero_mul, zero_mul,
    Double.ofExact_zero, Double.add_finite, hsum, Double.add_finite, hkeep, Double.add_finite,
    hkeep, Double.add_finite, hkeep, Double.mul_finite, htimes]
  show Double.div (JsNumber.finite (mathRound (7049518801485823 / 1099511627776)))
    (JsNumber.finite 100) = _
  rw [hround, Double.div_finite _ _ (by norm_num)]
  norm_num

/-- The doubles written `64.11` and `64.12`. -/
theorem Double.ofExact_cents :
    Double.ofExact (6411 / 100) = JsNumber.finite (4511340189230039 / 70368744177664) ∧
    Double.ofExact (6412 / 100) = JsNumber.finite (564005484583977 / 8796093022208) := by
  constructor
  · rw [Double.ofExact_of_nearest (6411 / 100) 6 4511340189230039 (by norm_num [abs_of_pos])
      (by norm_num [abs_of_pos]) (by norm_num) (by norm_num) (by norm_num) (by norm_num)
      (by norm_num [abs_of_pos])]
    norm_num
  · rw [Double.ofExact_of_nearest (6412 / 100) 6 4512043876671816 (by norm_num [abs_of_pos])
      (by norm_num [abs_of_pos]) (by norm_num) (by norm_num) (by norm_num) (by norm_num)
      (by norm_num [abs_of_pos])]
    norm_num

/-- The progress of a route with `completed` of `bins` bins completed, in
doubles. -/
theorem Double.getProgress_eq (r : Route) (hb : r.bins.length ≠ 0) :
    Double.getProgress r =
      (Double.mul (Double.div (JsNumber.finite (r.completedBins.length : ℚ))
        (JsNumber.finite (r.bins.length : ℚ))) (JsNumber.finite 100)).round := by
  unfold Double.getProgress
  rw [if_neg hb]

theorem Double.getProgress_demoRouteOfForty :
    Double.getProgress demoRouteOfForty = JsNumber.finite 57 := by
  have hbins : demoRouteOfForty.bins.length = 40 := by
    simp [demoRouteOfForty]
  have hdone : demoRouteOfForty.completedBins.length = 23 := by
    simp [demoRouteOfForty]
  have hdiv : Double.ofExact (23 / 40) =
      JsNumber.finite (2589569785738035 / 4503599627370496) := by
    rw [Double.ofExact_of_nearest (23 / 40) (-1) 5179139571476070 (by norm_num [abs_of_pos])
      (by norm_num [abs_of_pos]) (by norm_num) (by norm_num) (by norm_num) (by norm_num)
      (by norm_num [abs_of_pos])]
    norm_num
  have htimes : Double.ofExact (2589569785738035 / 4503599627370496 * 100) =
      JsNumber.finite (8092405580431359 / 140737488355328) := by
    rw [Double.ofExact_of_nearest _ 5 8092405580431359 (by norm_num [abs_of_pos])
      (by norm_num [abs_of_pos]) (by norm_num) (by norm_num) (by norm_num) (by norm_num)
      (by norm_num [abs_of_pos])]
    norm_num
  have hround : mathRound (8092405580431359 / 140737488355328) = 57 := by
    unfold mathRound
    rw [Int.floor_eq_iff]
    constructor <;> norm_num
  rw [Double.getProgress_eq _ (by rw [hbins]; norm_num), hbins, hdone,
    Double.div_finite _ _ (by norm_num)]
  norm_num only [Nat.cast_ofNat]
  rw [hdiv, Double.mul_finite, htimes]
  show JsNumber.finite (mathRound (8092405580431359 / 140737488355328)) = _
  rw [hround]
  norm_num

theorem Double.getProgress_demoRouteOfThree :
    Double.getProgress demoRouteOfThree = JsNumber.finite 33 := by
  have hbins : demoRouteOfThree.bins.length = 3 := rfl
  have hdone : demoRouteOfThree.completedBins.length = 1 := rfl
  have hdiv : Double.ofExact (1 / 3) =
      JsNumber.finite (6004799503160661 / 18014398509481984) := by
    rw [Double.ofExact_of_nearest (1 / 3) (-2) 6004799503160661 (by norm_num [abs_of_pos])
      (by norm_num [abs_of_pos]) (by norm_num) (by norm_num) (by norm_num) (by norm_num)
      (by norm_num [abs_of_pos])]
    norm_num
  have htimes : Double.ofExact (6004799503160661 / 18014398509481984 * 100) =
      JsNumber.finite (2345624805922133 / 70368744177664) := by
    rw [Double.ofExact_of_nearest _ 5 4691249611844266 (by norm_num [abs_of_pos])
      (by norm_num [abs_of_pos]) (by norm_num) (by norm_num) (by norm_num) (by norm_num)
      (by norm_num [abs_of_pos])]
    norm_num
  have hround : mathRound (2345624805922133 / 70368744177664) = 33 := by
    unfold mathRound
    rw [Int.floor_eq_iff]
    constructor <;> norm_num
  rw [Double.getProgress_eq _ (by rw [hbins]; norm_num), hbins, hdone,
    Double.div_finite _ _ (by norm_num)]
  norm_num only [Nat.cast_ofNat, Nat.cast_one]
  rw [hdiv, Double.mul_finite, htimes]
  show JsNumber.finite (mathRound (2345624805922133 / 70368744177664)) = _
  rw [hround]
  norm_num

/-! ## Properties of the specification -/

/-- C6: `Bin.updateStatus` derives the status from the fill level alone, as
the specification's `deriveStatus`: overflowing from 90, else full from 75,
else partial from 25, else empty; it is defined for every fill level. -/
theorem updateStatus_derives_status (b : Bin) (now : Date) :
    (b.updateStatus now).status = deriveStatus b.currentFillLevel ∧
    ((b.updateStatus now).status = BinStatus.overflowing ↔ 90 ≤ b.currentFillLevel) ∧
    ((b.updateStatus now).status = BinStatus.full ↔
      75 ≤ b.currentFillLevel ∧ b.currentFillLevel < 90) ∧
    ((b.updateStatus now).status = BinStatus.partialFill ↔
      25 ≤ b.currentFillLevel ∧ b.currentFillLevel < 75) ∧
    ((b.updateStatus now).status = BinStatus.empty ↔ b.currentFillLevel < 25) := by
  refine ⟨Bin.updateStatus_status b now, ?_, ?_, ?_, ?_⟩ <;>
    · simp only [Bin.updateStatus, ge_iff_le]
      split_ifs <;> simp <;> omega

/-- C1: a request by the collection's own collector that advances it to
`'completed'` with `fillLevelAfter = L` in `[0, 100]` (absent read as 0) sets
the owning bin's fill level to exactly `L`, whatever it was before, its
`lastCollected` to the completion time and its status to `deriveStatus L`,
which is `'empty'` for `L = 0`; with a schema-valid collection the request
answers 200 and the collection is stored as completed at that time. -/
theorem completion_sets_bin_fill (s : Store) (now : Date) (user : User) (id : ObjectId)
    (body : UpdateStatusBody) (c : Collection) (bin : Bin) (L : Int)
    (hc : s.findCollection id = some c) (hown : c.collector = user._id)
    (hst : body.status = CollectionStatus.completed) (hbin : s.findBin c.bin = some bin)
    (hL : body.fillLevelAfter.getD 0 = L) (h0 : 0 ≤ L) (h100 : L ≤ 100) :
    (∃ bin', (updateCollectionStatus s now user id body).2.findBin c.bin = some bin' ∧
      bin'.currentFillLevel = L ∧ bin'.lastCollected = some now ∧
      bin'.status = deriveStatus L ∧ (L = 0 → bin'.status = BinStatus.empty)) ∧
    (c.validate = true →
      (updateCollectionStatus s now user id body).1 = 200 ∧
      ∃ c', (updateCollectionStatus s now user id body).2.findCollection id = some c' ∧
        c'.status = CollectionStatus.completed ∧ c'.completedDate = some now) := by
  have hv : (completeBin bin body.fillLevelAfter now).validate = true :=
    completeBin_validate bin body.fillLevelAfter now (by rw [hL]; exact h0) (by rw [hL]; exact h100)
  constructor
  · refine ⟨completeBin bin body.fillLevelAfter now,
      updateCollectionStatus_completed_findBin s now user id body c bin hc hown hst hbin hv,
      ?_, completeBin_lastCollected _ _ _, ?_, ?_⟩
    · rw [completeBin_fill, hL]
    · rw [completeBin_status, hL]
    · intro hz
      rw [completeBin_status, hL, hz]
      rfl
  · intro hcv
    have hcv2 := completedCollection_validate c body now hcv (by rw [hL]; exact h0)
      (by rw [hL]; exact h100)
    obtain ⟨h200, hfind⟩ :=
      updateCollectionStatus_completed_ok s now user id body c bin hc hown hst hbin hv hcv2
    exact ⟨h200, _, hfind, by rw [completedCollection_status, hst], rfl⟩

/-- Witness of C1: the demo collector completes the demo collection with
`fillLevelAfter = 0` at time 5. -/
theorem completion_sets_bin_fill_witness :
    (∃ bin', (updateCollectionStatus demoStore 5 demoCollector 100
        { status := CollectionStatus.completed, fillLevelAfter := some 0 }).2.findBin 10 =
          some bin' ∧
      bin'.currentFillLevel = 0 ∧ bin'.lastCollected = some 5 ∧
      bin'.status = deriveStatus 0 ∧ ((0 : Int) = 0 → bin'.status = BinStatus.empty)) ∧
    (demoCollection.validate = true →
      (updateCollectionStatus demoStore 5 demoCollector 100
        { status := CollectionStatus.completed, fillLevelAfter := some 0 }).1 = 200 ∧
      ∃ c', (updateCollectionStatus demoStore 5 demoCollector 100
        { status := CollectionStatus.completed, fillLevelAfter := some 0 }).2.findCollection 100 =
          some c' ∧
        c'.status = CollectionStatus.completed ∧ c'.completedDate = some 5) :=
  completion_sets_bin_fill demoStore 5 demoCollector 100
    { status := CollectionStatus.completed, fillLevelAfter := some 0 } demoCollection demoBin 0
    rfl rfl rfl rfl rfl (by decide) (by decide)

/-- C2, evaluated on the demo data: after the demo collector completes the
demo collection (answer 200) the bin's `statistics.totalCollections` went
from 0 to 1, and the collector's document is what it was: `userSchema` has no
`statistics.totalCollections`, so the `$inc` on it is dropped. -/
theorem completion_leaves_collector_statistics :
    (updateCollectionStatus demoStore 5 demoCollector 100
      { status := CollectionStatus.completed, fillLevelAfter := some 0 }).1 = 200 ∧
    ((updateCollectionStatus demoStore 5 demoCollector 100
      { status := CollectionStatus.completed, fillLevelAfter := some 0 }).2.findBin 10).map
        (fun b => b.statistics.totalCollections) = some 1 ∧
    (demoStore.findBin 10).map (fun b => b.statistics.totalCollections) = some 0 ∧
    (updateCollectionStatus demoStore 5 demoCollector 100
      { status := CollectionStatus.completed, fillLevelAfter := some 0 }).2.findUser 1 =
        some demoCollector ∧
    (updateCollectionStatus demoStore 5 demoCollector 100
      { status := CollectionStatus.completed, fillLevelAfter := some 0 }).2.users =
        demoStore.users := by
  have hv : (completeBin demoBin (some 0) 5).validate = true := by decide
  have hok := updateCollectionStatus_completed_ok demoStore 5 demoCollector 100
    { status := CollectionStatus.completed, fillLevelAfter := some 0 } demoCollection demoBin
    rfl rfl rfl rfl hv (by decide)
  have hbin := updateCollectionStatus_completed_findBin demoStore 5 demoCollector 100
    { status := CollectionStatus.completed, fillLevelAfter := some 0 } demoCollection demoBin
    rfl rfl rfl rfl hv
  have husers := updateCollectionStatus_users demoStore 5 demoCollector 100
    { status := CollectionStatus.completed, fillLevelAfter := some 0 }
  refine ⟨hok.1, ?_, rfl, ?_, husers⟩
  · rw [show demoCollection.bin = 10 from rfl] at hbin
    rw [hbin]
    rfl
  · unfold Store.findUser
    rw [husers]
    rfl

/-- C3, counterexample: the demo collection is `'completed'`; its collector,
passing `authorizeRole('collector')`, requests `'assigned'`; the request is
answered 200 and the stored status is `'assigned'`. -/
theorem completed_collection_reopened :
    (demoCompletedStore.findCollection 100).map (fun c => c.status) =
      some CollectionStatus.completed ∧
    (putCollectionStatus demoCompletedStore 5 demoCollector 100
      { status := CollectionStatus.assigned }).1 = 200 ∧
    ((putCollectionStatus demoCompletedStore 5 demoCollector 100
      { status := CollectionStatus.assigned }).2.findCollection 100).map (fun c => c.status) =
      some CollectionStatus.assigned := by
  decide

/-- C3, amended: for a collection whose status is `'completed'` or
`'cancelled'`, a status request that is not answered 200 leaves the stored
collection as it was, and every request by a user who is not the collection's
collector is such a request (403, nothing written; likewise a user who is not
a collector at the route); a request answered 200 comes from the collection's
own collector and stores the requested status, whatever the status before;
and a valid request of the own collector for `'assigned'`, `'in_progress'` or
`'cancelled'` on a schema-valid collection is answered 200. -/
theorem terminal_status_changes_only_by_own_collector (s : Store) (now : Date) (user : User)
    (id : ObjectId) (body : UpdateStatusBody) (c : Collection)
    (hc : s.findCollection id = some c)
    (_hterm : c.status = CollectionStatus.completed ∨ c.status = CollectionStatus.cancelled) :
    (c.collector ≠ user._id → updateCollectionStatus s now user id body = (403, s)) ∧
    (authorizeRole [Role.collector] user = false →
      putCollectionStatus s now user id body = (403, s)) ∧
    ((updateCollectionStatus s now user id body).1 ≠ 200 →
      (updateCollectionStatus s now user id body).2.findCollection id = some c) ∧
    ((updateCollectionStatus s now user id body).1 = 200 →
      c.collector = user._id ∧
      ∃ c', (updateCollectionStatus s now user id body).2.findCollection id = some c' ∧
        c'.status = body.status) ∧
    (c.collector = user._id → body.status ≠ CollectionStatus.completed → c.validate = true →
      updateStatusValidation body = true →
      (updateCollectionStatus s now user id body).1 = 200) := by
  refine ⟨updateCollectionStatus_forbidden s now user id body c hc, ?_, ?_,
    updateCollectionStatus_ok_status s now user id body c hc,
    updateCollectionStatus_other_ok s now user id body c hc⟩
  · intro hrole
    unfold putCollectionStatus
    rw [hrole]
    rfl
  · intro hne
    unfold Store.findCollection
    rw [updateCollectionStatus_failed_collections s now user id body hne]
    exact hc

/-- Witness of the amended C3 on the demo data: the completed demo collection
and a request of its collector for `'assigned'`. -/
theorem terminal_status_changes_only_by_own_collector_witness :
    (demoCompleted.collector ≠ demoCollector._id →
      updateCollectionStatus demoCompletedStore 5 demoCollector 100
        { status := CollectionStatus.assigned } = (403, demoCompletedStore)) ∧
    (authorizeRole [Role.collector] demoCollector = false →
      putCollectionStatus demoCompletedStore 5 demoCollector 100
        { status := CollectionStatus.assigned } = (403, demoCompletedStore)) ∧
    ((updateCollectionStatus demoCompletedStore 5 demoCollector 100
        { status := CollectionStatus.assigned }).1 ≠ 200 →
      (updateCollectionStatus demoCompletedStore 5 demoCollector 100
        { status := CollectionStatus.assigned }).2.findCollection 100 = some demoCompleted) ∧
    ((updateCollectionStatus demoCompletedStore 5 demoCollector 100
        { status := CollectionStatus.assigned }).1 = 200 →
      demoCompleted.collector = demoCollector._id ∧
      ∃ c', (updateCollectionStatus demoCompletedStore 5 demoCollector 100
          { status := CollectionStatus.assigned }).2.findCollection 100 = some c' ∧
        c'.status = CollectionStatus.assigned) ∧
    (updateCollectionStatus demoCompletedStore 5 demoCollector 100
      { status := CollectionStatus.assigned }).1 = 200 :=
  have h := terminal_status_changes_only_by_own_collector demoCompletedStore 5 demoCollector 100
    { status := CollectionStatus.assigned } demoCompleted rfl (Or.inl rfl)
  ⟨h.1, h.2.1, h.2.2.1, h.2.2.2.1, h.2.2.2.2 rfl (by decide) (by decide) (by decide)⟩

/-- C4, counterexample: a route over bin 10 is created (201), the collection
of bin 10 attached to it is completed (200, `completedBins = [10]`), and the
admin replaces `bins` by bin 11 (200): the stored route then has
`completedBins = [10]` and `bins = [11]`. -/
theorem completedBins_not_subset_after_update :
    (createRoute demoRouteStore 50 demoRouteBody).1 = 201 ∧
    (updateCollectionStatus demoAfterCreate 5 demoCollector 100
      { status := CollectionStatus.completed }).1 = 200 ∧
    (updateRoute demoAfterComplete 50 { bins := some [{ bin := 11 }] }).1 = 200 ∧
    demoAfterCreate.routesInv ∧ demoAfterComplete.routesInv ∧
    (demoAfterUpdate.findRoute 50).map (fun r => (r.completedBins, r.bins.map (fun e => e.bin))) =
      some ([10], [11]) ∧
    ¬ demoAfterUpdate.routesInv := by
  decide

/-- C4, amended: `completedBins ⊆ {b.bin | b ∈ bins}` holds on every stored
route after a route creation (the new route has no completed bin), after a
collection completion when the bin of a collection attached to a route is one
of that route's bins, and after a route update that does not replace `bins`
or whose new `bins` still hold every completed bin, provided it held before. -/
theorem completedSubset_preserved (s : Store) (hinv : s.routesInv) :
    (∀ newId body, (createRoute s newId body).2.routesInv ∧
      ((createRoute s newId body).1 = 201 →
        ∃ r : Route, (createRoute s newId body).2.routes = s.routes ++ [r] ∧
          r.completedBins = [] ∧ r.bins = body.bins)) ∧
    (∀ now user id body,
      (∀ c rid, s.findCollection id = some c → c.route = some rid →
        ∀ r ∈ s.routes, r._id = rid → c.bin ∈ r.bins.map (fun e => e.bin)) →
      (updateCollectionStatus s now user id body).2.routesInv) ∧
    (∀ id body,
      (∀ bins, body.bins = some bins → ∀ r ∈ s.routes, r._id = id →
        ∀ b ∈ r.completedBins, b ∈ bins.map (fun e => e.bin)) →
      (updateRoute s id body).2.routesInv) := by
  refine ⟨?_, ?_, ?_⟩
  · intro newId body
    rcases createRoute_routes s newId body with ⟨_, h⟩ | ⟨h201, r, hr, hcb, hb, _⟩
    · rw [h]
      exact ⟨hinv, fun h201 => absurd h201 ‹_›⟩
    · refine ⟨?_, fun _ => ⟨r, hr, hcb, hb⟩⟩
      intro x hx
      rw [hr] at hx
      rcases List.mem_append.mp hx with hx | hx
      · exact hinv x hx
      · rw [List.mem_singleton.mp hx]
        intro b hb'
        rw [hcb] at hb'
        cases hb'
  · intro now user id body hbin
    rcases updateCollectionStatus_routes s now user id body with h | ⟨c, rid, hc, hr, h⟩
    · intro x hx
      rw [h] at hx
      exact hinv x hx
    · intro x hx
      rw [h] at hx
      obtain ⟨r, hrmem, hrx⟩ := List.mem_map.mp hx
      by_cases hid : r._id = rid
      · have hbeq : (r._id == rid) = true := by simpa using hid
        rw [if_pos hbeq] at hrx
        rw [← hrx]
        exact Route.inc_completedSubset _ _ _
          (Route.addToSet_completedSubset r c.bin (hinv r hrmem) (hbin c rid hc hr r hrmem hid))
      · have hbeq : ¬ ((r._id == rid) = true) := by simpa using hid
        rw [if_neg hbeq] at hrx
        rw [← hrx]
        exact hinv r hrmem
  · intro id body hbins
    rcases updateRoute_routes s id body with ⟨_, h⟩ | ⟨_, route, hroute, h⟩
    · rw [h]
      exact hinv
    · rw [h]
      have hmem : route ∈ s.routes := find_mem (fun r : Route => r._id) s.routes id route hroute
      have hrid : route._id = id := Store.findRoute_id hroute
      have hnew : (applyRouteBody route body).completedSubset := by
        intro b hb
        rw [applyRouteBody_completedBins] at hb
        rw [applyRouteBody_bins]
        cases hbody : body.bins with
        | none => exact hinv route hmem b hb
        | some bins => exact hbins bins hbody route hmem hrid b hb
      intro x hx
      obtain ⟨r, hrmem, hrx⟩ := List.mem_map.mp hx
      split at hrx
      · rw [← hrx]
        exact hnew
      · rw [← hrx]
        exact hinv r hrmem

/-- Witness of the amended C4 on the demo data: the route invariant holds on
the demo store, on the store after the route is created, and on the store
after the collection of the route's bin is completed. -/
theorem completedSubset_preserved_witness :
    demoRouteStore.routesInv ∧ (createRoute demoRouteStore 50 demoRouteBody).2.routesInv ∧
    (updateCollectionStatus demoAfterCreate 5 demoCollector 100
      { status := CollectionStatus.completed }).2.routesInv :=
  ⟨by decide, ((completedSubset_preserved demoRouteStore (by decide)).1 50 demoRouteBody).1,
    (completedSubset_preserved demoAfterCreate (by decide)).2.1 5 demoCollector 100
      { status := CollectionStatus.completed }
      (fun c _ hc _ r hmem _ => by
        have hc' : some demoRouteCollection = some c := hc
        rw [← Option.some.inj hc']
        have hall : ∀ r ∈ demoAfterCreate.routes,
            demoRouteCollection.bin ∈ r.bins.map (fun e => e.bin) := by decide
        exact hall r hmem)⟩

/-- C5, counterexample: a bin in `'maintenance'` at level 30 receives a
disposal of 10 from a resident; the request is answered 200 and the bin is
stored at level 40 with status `'partial'`. -/
theorem maintenance_overwritten_by_disposal :
    (demoMaintenanceStore.findBin 12).map (fun b => b.status) = some BinStatus.maintenance ∧
    updateBinStatusValidation { fillLevel := 10 } = true ∧
    (updateBinStatus demoMaintenanceStore 5 demoResident 12 { fillLevel := 10 }).1 = 200 ∧
    ((updateBinStatus demoMaintenanceStore 5 demoResident 12 { fillLevel := 10 }).2.findBin
      12).map (fun b => (b.currentFillLevel, b.status)) = some (40, BinStatus.partialFill) := by
  decide

/-- C5, amended: if every stored bin outside `'maintenance'` has the status
derived from its fill level, the same holds after bin creation, disposal fill
update, collection completion, admin bin update and collector assignment;
admin bin update and collector assignment leave status and fill level of
every bin as they were, so they keep `'maintenance'`; a disposal fill update
and a collection completion answered 200 store the status derived from the
new fill level, which is never `'maintenance'`. -/
theorem statusConsistent_preserved (s : Store) (hinv : s.binsInv) :
    (∀ now newId body, (createBin s now newId body).2.binsInv) ∧
    (∀ now user id body, (updateBinStatus s now user id body).2.binsInv) ∧
    (∀ now user id body, (updateCollectionStatus s now user id body).2.binsInv) ∧
    (∀ id body, (updateBin s id body).2.binsInv) ∧
    (∀ id collectorId, (assignCollector s id collectorId).2.binsInv) ∧
    (∀ id body id0 b, s.findBin id0 = some b →
      ∃ b', (updateBin s id body).2.findBin id0 = some b' ∧ b'.status = b.status ∧
        b'.currentFillLevel = b.currentFillLevel) ∧
    (∀ id collectorId id0 b, s.findBin id0 = some b →
      ∃ b', (assignCollector s id collectorId).2.findBin id0 = some b' ∧ b'.status = b.status ∧
        b'.currentFillLevel = b.currentFillLevel) ∧
    (∀ now user id body, (updateBinStatus s now user id body).1 = 200 →
      ∃ b', (updateBinStatus s now user id body).2.findBin id = some b' ∧
        b'.status = deriveStatus b'.currentFillLevel ∧ b'.status ≠ BinStatus.maintenance) ∧
    (∀ now user id body c bin, s.findCollection id = some c → s.findBin c.bin = some bin →
      body.status = CollectionStatus.completed →
      (updateCollectionStatus s now user id body).1 = 200 →
      ∃ b', (updateCollectionStatus s now user id body).2.findBin c.bin = some b' ∧
        b'.status = deriveStatus b'.currentFillLevel ∧ b'.status ≠ BinStatus.maintenance) := by
  refine ⟨?_, ?_, ?_, ?_, ?_, ?_, ?_, ?_, ?_⟩
  · intro now newId body
    rcases createBin_result s now newId body with ⟨_, h⟩ | ⟨b, hst, hfill, _, h⟩
    · rw [h]
      exact hinv
    · intro x hx
      rw [h] at hx
      rcases List.mem_append.mp hx with hx | hx
      · exact hinv x hx
      · rw [List.mem_singleton.mp hx]
        intro _
        rw [hst, hfill]
        rfl
  · intro now user id body
    rcases updateBinStatus_result s now user id body with ⟨_, h⟩ | ⟨bin, _, _, _, h⟩
    · rw [h]
      exact hinv
    · exact Store.putBin_binsInv hinv (fun _ => applyFill_status bin body.fillLevel now) _ h
  · intro now user id body
    rcases updateCollectionStatus_bins s now user id body with h | ⟨c, bin, _, _, h⟩
    · intro x hx
      rw [h] at hx
      exact hinv x hx
    · refine Store.putBin_binsInv hinv (fun _ => ?_) _ h
      rw [completeBin_status, completeBin_fill]
  · intro id body
    rcases updateBin_result s id body with ⟨_, h⟩ | ⟨bin, b', hbin, _, hst, hfill, _, h⟩
    · rw [h]
      exact hinv
    · rw [h]
      refine Store.putBin_binsInv hinv ?_ _ rfl
      have hb := hinv bin (find_mem (fun b : Bin => b._id) s.bins id bin hbin)
      intro hm
      rw [hst, hfill]
      exact hb (by rw [← hst]; exact hm)
  · intro id collectorId
    rcases assignCollector_result s id collectorId with
      ⟨_, h⟩ | ⟨bin, b', hbin, _, hst, hfill, _, h⟩
    · rw [h]
      exact hinv
    · rw [h]
      refine Store.putBin_binsInv hinv ?_ _ rfl
      have hb := hinv bin (find_mem (fun b : Bin => b._id) s.bins id bin hbin)
      intro hm
      rw [hst, hfill]
      exact hb (by rw [← hst]; exact hm)
  · intro id body id0 b hb
    rcases updateBin_result s id body with ⟨_, h⟩ | ⟨bin, b', hbin, hid, hst, hfill, _, h⟩
    · rw [h]
      exact ⟨b, hb, rfl, rfl⟩
    · rw [h]
      exact Store.findBin_putBin_kept hbin hid hst hfill id0 b hb
  · intro id collectorId id0 b hb
    rcases assignCollector_result s id collectorId with
      ⟨_, h⟩ | ⟨bin, b', hbin, hid, hst, hfill, _, h⟩
    · rw [h]
      exact ⟨b, hb, rfl, rfl⟩
    · rw [h]
      exact Store.findBin_putBin_kept hbin hid hst hfill id0 b hb
  · intro now user id body h200
    rcases updateBinStatus_result s now user id body with ⟨hne, _⟩ | ⟨bin, hbin, _, _, h⟩
    · exact absurd h200 hne
    · refine ⟨applyFill bin body.fillLevel now, ?_, applyFill_status _ _ _, ?_⟩
      · have hid : (applyFill bin body.fillLevel now)._id = id :=
          (applyFill_id bin body.fillLevel now).trans (Store.findBin_id hbin)
        have := @Store.findBin_putBin s bin (applyFill bin body.fillLevel now)
          (by rw [hid]; exact hbin)
        rw [hid] at this
        unfold Store.findBin at this ⊢
        rw [h]
        exact this
      · rw [applyFill_status]
        exact deriveStatus_ne_maintenance _
  · intro now user id body c bin hc hbin hst h200
    refine ⟨_, updateCollectionStatus_ok_findBin s now user id body c bin hc hst hbin h200, ?_, ?_⟩
    · rw [completeBin_status, completeBin_fill]
    · rw [completeBin_status]
      exact deriveStatus_ne_maintenance _

/-- Witness of the amended C5 on the demo data: the bin invariant holds on the
store with the bin in maintenance and after a disposal into that bin. -/
theorem statusConsistent_preserved_witness :
    demoMaintenanceStore.binsInv ∧
    (updateBinStatus demoMaintenanceStore 5 demoResident 12 { fillLevel := 10 }).2.binsInv :=
  ⟨by decide,
    (statusConsistent_preserved demoMaintenanceStore (by decide)).2.1 5 demoResident 12
      { fillLevel := 10 }⟩

/-- C7: for every bin and every delta the disposal fill update hands
`bin.save()` a bin whose fill level is `min(fillLevel + delta, capacity)`,
which is at most the capacity; when that level is within the schema's bounds
`[0, 100]` the request is answered 200; every request answered 200 stores
that fill level, at most the stored capacity; any other answer writes
nothing. -/
theorem disposal_caps_fill (s : Store) (now : Date) (user : User) (id : ObjectId)
    (body : UpdateBinStatusBody) (bin : Bin) (hbin : s.findBin id = some bin) :
    (applyFill bin body.fillLevel now).currentFillLevel =
      min (bin.currentFillLevel + body.fillLevel) bin.capacity ∧
    (applyFill bin body.fillLevel now).currentFillLevel ≤ (applyFill bin body.fillLevel now).capacity ∧
    (0 ≤ min (bin.currentFillLevel + body.fillLevel) bin.capacity ∧
        min (bin.currentFillLevel + body.fillLevel) bin.capacity ≤ 100 →
      (updateBinStatus s now user id body).1 = 200) ∧
    ((updateBinStatus s now user id body).1 = 200 →
      ∃ b', (updateBinStatus s now user id body).2.findBin id = some b' ∧
        b'.currentFillLevel = min (bin.currentFillLevel + body.fillLevel) bin.capacity ∧
        b'.capacity = bin.capacity ∧ b'.currentFillLevel ≤ b'.capacity) ∧
    ((updateBinStatus s now user id body).1 ≠ 200 → (updateBinStatus s now user id body).2 = s) := by
  have hle : min (bin.currentFillLevel + body.fillLevel) bin.capacity ≤ bin.capacity :=
    min_le_right _ _
  have hvalid : (applyFill bin body.fillLevel now).validate = true ↔
      0 ≤ min (bin.currentFillLevel + body.fillLevel) bin.capacity ∧
        min (bin.currentFillLevel + body.fillLevel) bin.capacity ≤ 100 := by
    simp [Bin.validate, applyFill_fill]
  refine ⟨rfl, hle, ?_, ?_, ?_⟩
  · intro h
    unfold updateBinStatus
    simp only [hbin, Store.saveBin, hvalid.mpr h, if_true]
  · intro h200
    rcases updateBinStatus_result s now user id body with ⟨hne, _⟩ | ⟨bin2, hbin2, _, _, h⟩
    · exact absurd h200 hne
    · rw [hbin] at hbin2
      cases hbin2
      refine ⟨applyFill bin body.fillLevel now, ?_, rfl, rfl, hle⟩
      have hid : (applyFill bin body.fillLevel now)._id = id :=
        (applyFill_id bin body.fillLevel now).trans (Store.findBin_id hbin)
      have := @Store.findBin_putBin s bin (applyFill bin body.fillLevel now)
        (by rw [hid]; exact hbin)
      rw [hid] at this
      unfold Store.findBin at this ⊢
      rw [h]
      exact this
  · intro hne
    rcases updateBinStatus_result s now user id body with ⟨_, h⟩ | ⟨_, _, _, h200, _⟩
    · exact h
    · exact absurd h200 hne

/-- Witness of C7 on the demo data: a disposal of 30 into the demo bin, at
level 80 of capacity 100, is answered 200 and stores level 100. -/
theorem disposal_caps_fill_witness :
    (updateBinStatus demoStore 5 demoResident 10 { fillLevel := 30 }).1 = 200 ∧
    ∃ b', (updateBinStatus demoStore 5 demoResident 10 { fillLevel := 30 }).2.findBin 10 =
        some b' ∧
      b'.currentFillLevel = min (demoBin.currentFillLevel + 30) demoBin.capacity ∧
      b'.capacity = demoBin.capacity ∧ b'.currentFillLevel ≤ b'.capacity :=
  have h := disposal_caps_fill demoStore 5 demoResident 10 { fillLevel := 30 } demoBin rfl
  ⟨h.2.2.1 (by decide), h.2.2.2.1 (h.2.2.1 (by decide))⟩

/-- C8, evaluated on the demo data: a disposal of `-10`, which
`updateBinStatusValidation` rejects, is answered 200 and lowers the demo bin
from level 80 (`'full'`) to level 70 (`'partial'`); a disposal of `0` is
answered 200 as well. -/
theorem nonpositive_disposal_accepted :
    updateBinStatusValidation { fillLevel := -10 } = false ∧
    (putBinStatus demoStore 5 demoResident 10 { fillLevel := -10 }).1 = 200 ∧
    (demoStore.findBin 10).map (fun b => (b.currentFillLevel, b.status)) =
      some (80, BinStatus.full) ∧
    ((putBinStatus demoStore 5 demoResident 10 { fillLevel := -10 }).2.findBin 10).map
      (fun b => (b.currentFillLevel, b.status)) = some (70, BinStatus.partialFill) ∧
    updateBinStatusValidation { fillLevel := 0 } = false ∧
    (putBinStatus demoStore 5 demoResident 10 { fillLevel := 0 }).1 = 200 := by
  decide

/-- C10, evaluated on the demo data: at time 2000 a user with role
`premium_resident` whose subscription expired at time 1000 is not a premium
user, `POST /bulk` rejects the request (403), and `POST /` with type `'bulk'`
is answered 201 and stores one more collection. -/
theorem expired_premium_bulk_accepted :
    demoExpiredPremium.isPremiumUser 2000 = false ∧
    (postCollectionsBulk demoStore 2000 101 demoExpiredPremium
      { binId := 10, type := CollectionType.bulk }).1 = 403 ∧
    (postCollections demoStore 2000 101 demoExpiredPremium
      { binId := 10, type := CollectionType.bulk }).1 = 201 ∧
    ((postCollections demoStore 2000 101 demoExpiredPremium
      { binId := 10, type := CollectionType.bulk }).2.collections.map
        (fun c => (c._id, c.type, c.resident))) =
      [(100, CollectionType.scheduled, some 2), (101, CollectionType.bulk, some 3)] := by
  decide

/-- In exact rational arithmetic `calculateBulkCollectionFee` is the
specification's `bulkFee`: `50 + 0.5 general + 0.3 recyclable + 0.4 organic +
2.0 hazardous` over the weights, an absent composition, category or weight
counting as 0, rounded to 2 decimal places: a whole number of hundredths at
most half a hundredth from the sum. What separates the source from `bulkFee`
is the rounding of its doubles alone. -/
theorem calculateBulkCollectionFee_is_bulkFee (composition : Option WasteDetails) :
    calculateBulkCollectionFee composition = bulkFee composition ∧
    |calculateBulkCollectionFee composition - exactFee composition| ≤ 1 / 200 ∧
    (∃ n : Int, calculateBulkCollectionFee composition = (n : ℚ) / 100) ∧
    calculateBulkCollectionFee
      (some { general := some { weight := some 10 }, hazardous := some { weight := some 2 } }) =
        59 ∧
    calculateBulkCollectionFee none = 50 := by
  have heq : calculateBulkCollectionFee composition = bulkFee composition := by
    rw [calculateBulkCollectionFee_eq, mathRound_eq_round]
    rfl
  refine ⟨heq, ?_, ⟨round (exactFee composition * 100), heq⟩, ?_, ?_⟩
  · rw [heq]
    unfold bulkFee
    have h := abs_sub_round (exactFee composition * 100)
    rw [abs_le] at h ⊢
    constructor <;> linarith [h.1, h.2]
  · rw [calculateBulkCollectionFee_eq]
    have h : exactFee
        (some { general := some { weight := some 10 }, hazardous := some { weight := some 2 } }) =
          59 := by
      simp [exactFee, specWeight]
      norm_num
    rw [h]
    have hr : mathRound (59 * 100) = 5900 := by
      unfold mathRound
      rw [Int.floor_eq_iff]
      norm_num
    rw [hr]
    norm_num
  · rw [calculateBulkCollectionFee_eq]
    have h : exactFee none = 50 := by
      simp [exactFee, specWeight]
    rw [h]
    have hr : mathRound (50 * 100) = 5000 := by
      unfold mathRound
      rw [Int.floor_eq_iff]
      norm_num
    rw [hr]
    norm_num

/-- C11, evaluated on the demo data: the demo resident's request of kind
`'requested'` for the demo bin is answered 201 and stored with collector 1,
the bin's assigned collector, and with `payment: { status: 'pending' }` and no
amount, although its kind is not `'bulk'`; the same request of kind `'bulk'`
by a premium resident is stored with a pending payment as well, with an
amount. -/
theorem non_bulk_request_carries_payment :
    demoBin.assignedCollector = some 1 ∧
    (createCollectionRequest demoStore 7 101 demoResident
      { binId := 10, type := CollectionType.requested }).1 = 201 ∧
    ((createCollectionRequest demoStore 7 101 demoResident
      { binId := 10, type := CollectionType.requested }).2.findCollection 101).map
        (fun c => (c.type, c.collector)) = some (CollectionType.requested, 1) ∧
    ((createCollectionRequest demoStore 7 101 demoResident
      { binId := 10, type := CollectionType.requested }).2.findCollection 101).map
        (fun c => c.payment.map (fun p => (p.amount.isSome, p.status))) =
      some (some (false, PaymentStatus.pending)) ∧
    ((createCollectionRequest demoStore 7 101 demoPremium
      { binId := 10, type := CollectionType.bulk }).2.findCollection 101).map
        (fun c => (c.type, c.collector)) = some (CollectionType.bulk, 1) ∧
    ((createCollectionRequest demoStore 7 101 demoPremium
      { binId := 10, type := CollectionType.bulk }).2.findCollection 101).map
        (fun c => c.payment.map (fun p => (p.amount.isSome, p.status))) =
      some (some (true, PaymentStatus.pending)) := by
  decide

/-- C12, counterexample: the demo collection is `'assigned'`, not completed;
the resident who owns it rates it 5; the request is answered 200 and the
rating is stored. -/
theorem assigned_collection_rated :
    (demoStore.findCollection 100).map (fun c => (c.status, c.resident, c.rating)) =
      some (CollectionStatus.assigned, some 2, none) ∧
    (putCollectionRate demoStore demoResident 100 { rating := 5 }).1 = 200 ∧
    ((putCollectionRate demoStore demoResident 100 { rating := 5 }).2.findCollection 100).map
      (fun c => (c.status, c.rating)) = some (CollectionStatus.assigned, some 5) := by
  decide

/-- C12, amended: a rating is stored on a collection only when the requester
is the resident who owns it, whatever the collection's status; a request by
anyone else is answered 403, every request not answered 200 writes nothing,
a request answered 200 stores the rating and leaves the status, and the
owner's request with a rating in `[1, 5]` on a schema-valid collection is
answered 200. -/
theorem rating_stored_only_for_owner (s : Store) (user : User) (id : ObjectId)
    (body : RateBody) (c : Collection) (hc : s.findCollection id = some c) :
    (∀ resident, c.resident = some resident → resident ≠ user._id →
      rateCollection s user id body = (403, s)) ∧
    ((rateCollection s user id body).1 ≠ 200 → (rateCollection s user id body).2 = s) ∧
    ((rateCollection s user id body).1 = 200 →
      c.resident = some user._id ∧
      ∃ c', (rateCollection s user id body).2.findCollection id = some c' ∧
        c'.rating = some body.rating ∧ c'.status = c.status) ∧
    (c.resident = some user._id → c.validate = true → ratingValidation body = true →
      (rateCollection s user id body).1 = 200) := by
  refine ⟨?_, ?_, ?_, rateCollection_ok s user id body c hc⟩
  · intro resident hres hne
    unfold rateCollection
    simp only [hc, hres, if_pos hne]
  · intro hne
    rcases rateCollection_result s user id body c hc with ⟨_, h⟩ | ⟨h200, _⟩
    · exact h
    · exact absurd h200 hne
  · intro h200
    rcases rateCollection_result s user id body c hc with
      ⟨hne, _⟩ | ⟨_, hown, c', hid, hrating, hst, _, h⟩
    · exact absurd h200 hne
    · refine ⟨hown, c', ?_, hrating, hst⟩
      rw [h]
      have hcid : c'._id = id := hid.trans (Store.findCollection_id hc)
      have := @Store.findCollection_putCollection s c c' (by rw [hcid]; exact hc)
      rw [hcid] at this
      exact this

/-- Witness of the amended C12 on the demo data: the demo resident rates the
demo collection 5. -/
theorem rating_stored_only_for_owner_witness :
    (putCollectionRate demoStore demoResident 100 { rating := 5 }).1 = 200 ∧
    ∃ c', (rateCollection demoStore demoResident 100 { rating := 5 }).2.findCollection 100 =
        some c' ∧
      c'.rating = some 5 ∧ c'.status = demoCollection.status :=
  have h := rating_stored_only_for_owner demoStore demoResident 100 { rating := 5 }
    demoCollection rfl
  ⟨h.2.2.2 rfl (by decide) (by decide), (h.2.2.1 (h.2.2.2 rfl (by decide) (by decide))).2⟩

/-- C13, evaluated on the demo data: the demo resident rates the demo
collection 5 (answer 200, rating stored); the mean the handler computes over
the collector's rated collections is 5, and the collector's document is what
it was: `userSchema` has no `statistics.averageRating`, so the update of it is
dropped and no average is stored. -/
theorem rating_leaves_collector_document :
    (rateCollection demoStore demoResident 100 { rating := 5 }).1 = 200 ∧
    ((rateCollection demoStore demoResident 100 { rating := 5 }).2.findCollection 100).map
      (fun c => (c.collector, c.rating)) = some (1, some 5) ∧
    averageRating ((rateCollection demoStore demoResident 100
      { rating := 5 }).2.collections.filter
        (fun c => decide (c.collector = 1) && c.rating.isSome)) = 5 ∧
    (rateCollection demoStore demoResident 100 { rating := 5 }).2.findUser 1 =
      some demoCollector ∧
    (rateCollection demoStore demoResident 100 { rating := 5 }).2.users = demoStore.users := by
  have hres := rateCollection_result demoStore demoResident 100 { rating := 5 } demoCollection rfl
  have h200 : (rateCollection demoStore demoResident 100 { rating := 5 }).1 = 200 := by decide
  have husers : (rateCollection demoStore demoResident 100 { rating := 5 }).2.users =
      demoStore.users := by
    rcases hres with ⟨hne, _⟩ | ⟨_, _, c', _, _, _, _, h⟩
    · exact absurd h200 hne
    · rw [h]
      rfl
  refine ⟨h200, by decide, ?_, ?_, husers⟩
  · have hl : (rateCollection demoStore demoResident 100 { rating := 5 }).2.collections.filter
        (fun c => decide (c.collector = 1) && c.rating.isSome) =
        [{ demoCollection with rating := some 5 }] := by decide
    rw [hl]
    simp [averageRating, demoCollection]
  · unfold Store.findUser
    rw [husers]
    rfl

/-- C14: `startRoute` answers 403 to a requester who is not the route's
collector and 400 when the route is not `'active'`, and leaves the route
unchanged; but the request of the route's collector on an `'active'` route
does not succeed either: it is answered 500 and nothing is stored, because
`'in_progress'` is not in the enum of `routeSchema.status`. On the demo data
the collector's request for his active route is answered 500 and the route
stays `'active'` without `startTime`. -/
theorem startRoute_never_succeeds (s : Store) (now : Date) (user : User) (id : ObjectId) :
    (startRoute s now user id).2 = s ∧ (startRoute s now user id).1 ≠ 200 ∧
    (∀ route, s.findRoute id = some route →
      (route.collector ≠ user._id → (startRoute s now user id).1 = 403) ∧
      (route.collector = user._id → route.status ≠ RouteStatus.active →
        (startRoute s now user id).1 = 400) ∧
      (route.collector = user._id → route.status = RouteStatus.active →
        (startRoute s now user id).1 = 500)) ∧
    (demoAfterCreate.findRoute 50).map (fun r => (r.collector, r.status, r.startTime)) =
      some (1, RouteStatus.active, none) ∧
    (putRouteStart demoAfterCreate 5 demoCollector 50).1 = 500 ∧
    ((putRouteStart demoAfterCreate 5 demoCollector 50).2.findRoute 50).map
      (fun r => (r.status, r.startTime)) = some (RouteStatus.active, none) := by
  refine ⟨(startRoute_result s now user id).1, (startRoute_result s now user id).2, ?_,
    by decide, by decide, by decide⟩
  intro route hr
  refine ⟨?_, ?_, ?_⟩
  · intro hne
    unfold startRoute
    simp only [hr, if_pos hne]
  · intro hown hst
    unfold startRoute
    simp only [hr, hown, ne_eq, not_true_eq_false, if_false, hst, not_false_eq_true, if_true]
  · intro hown hst
    unfold startRoute
    simp [hr, hown, hst, Store.saveRoute, Route.validate]

/-- C15, counterexample: a route started at time 0 is completed 90 seconds
later; the stored `actualDuration` is 1, while the elapsed time rounded to the
nearest minute is 2. -/
theorem actualDuration_is_not_rounded :
    (completeRoute demoStartedStore 90000 demoCollector 50).1 = 200 ∧
    ((completeRoute demoStartedStore 90000 demoCollector 50).2.findRoute 50).map
      (fun r => r.actualDuration) = some (some 1) ∧
    specActualDuration demoStartedRoute.startTime 90000 = some 2 := by
  obtain ⟨h200, cs, hfind⟩ :=
    completeRoute_own demoStartedStore 90000 demoCollector 50 demoStartedRoute rfl rfl
  refine ⟨h200, ?_, ?_⟩
  · rw [hfind]
    show some (completedRoute demoStartedRoute 90000).actualDuration = some (some 1)
    rw [completedRoute_actualDuration]
    rfl
  · show some (round ((((90000 : Int) - 0 : Int) : ℚ) / 60000)) = some 2
    congr 1
    rw [round_eq, Int.floor_eq_iff]
    norm_num

/-- C15, amended: completing a route by its collector is answered 200 and
stores status `'completed'`, `endTime = now` and, when `startTime` is set,
`actualDuration = floor((endTime - startTime) / 60 s)`, the number of whole
minutes elapsed; when `startTime` is not set, `actualDuration` is null. -/
theorem completeRoute_floors_duration (s : Store) (now : Date) (user : User) (id : ObjectId)
    (route : Route) (hr : s.findRoute id = some route) (hown : route.collector = user._id) :
    (completeRoute s now user id).1 = 200 ∧
    ∃ r', (completeRoute s now user id).2.findRoute id = some r' ∧
      r'.status = RouteStatus.completed ∧ r'.endTime = some now ∧
      r'.actualDuration = route.startTime.map (fun startTime => (now - startTime) / 60000) ∧
      (route.startTime = none → r'.actualDuration = none) ∧
      (∀ startTime, route.startTime = some startTime →
        ∃ d, r'.actualDuration = some d ∧ d * 60000 ≤ now - startTime ∧
          now - startTime < (d + 1) * 60000) := by
  obtain ⟨h200, cs, hfind⟩ := completeRoute_own s now user id route hr hown
  have hd : (routeWithStatistics (completedRoute route now) cs).actualDuration =
      route.startTime.map (fun startTime => (now - startTime) / 60000) :=
    completedRoute_actualDuration route now
  refine ⟨h200, _, hfind, rfl, rfl, hd, ?_, ?_⟩
  · intro hnone
    rw [hd, hnone]
    rfl
  · intro st hst
    refine ⟨(now - st) / 60000, ?_, ?_, ?_⟩
    · rw [hd, hst]
      rfl
    · exact Int.ediv_mul_le (now - st) (by norm_num)
    · exact Int.lt_ediv_add_one_mul_self (now - st) (by norm_num)

/-- Witness of the amended C15 on the demo data: the started demo route is
completed by its collector 90 seconds after its start. -/
theorem completeRoute_floors_duration_witness :
    (completeRoute demoStartedStore 90000 demoCollector 50).1 = 200 ∧
    ∃ r', (completeRoute demoStartedStore 90000 demoCollector 50).2.findRoute 50 = some r' ∧
      r'.status = RouteStatus.completed ∧ r'.endTime = some 90000 ∧
      r'.actualDuration = demoStartedRoute.startTime.map (fun startTime => (90000 - startTime) / 60000) ∧
      (demoStartedRoute.startTime = none → r'.actualDuration = none) ∧
      (∀ startTime, demoStartedRoute.startTime = some startTime →
        ∃ d, r'.actualDuration = some d ∧ d * 60000 ≤ 90000 - startTime ∧
          90000 - startTime < (d + 1) * 60000) :=
  completeRoute_floors_duration demoStartedStore 90000 demoCollector 50 demoStartedRoute rfl rfl

/-- C16, evaluated on the demo data: the admin empties the bins of the started
demo route (`PUT /api/routes/50` with `bins: []`, answered 200) and the
collector completes it two minutes after its start: the request is answered
200 and the stored route has no bins, `actualDuration = 2` and
`statistics.averageTimePerBin = Infinity`, which is not a finite number. -/
theorem averageTimePerBin_divides_by_zero :
    (updateRoute demoStartedStore 50 { bins := some [] }).1 = 200 ∧
    (completeRoute demoEmptiedStore 120000 demoCollector 50).1 = 200 ∧
    ((completeRoute demoEmptiedStore 120000 demoCollector 50).2.findRoute 50).map
      (fun r => (r.bins.length, r.actualDuration)) = some (0, some 2) ∧
    ((completeRoute demoEmptiedStore 120000 demoCollector 50).2.findRoute 50).map
      (fun r => r.statistics.averageTimePerBin) = some JsNumber.infinity ∧
    JsNumber.infinity.isFinite = false := by
  obtain ⟨h200, cs, hfind⟩ :=
    completeRoute_own demoEmptiedStore 120000 demoCollector 50
      { demoStartedRoute with bins := [] } (by decide) rfl
  have hd : (completedRoute { demoStartedRoute with bins := [] } 120000).actualDuration =
      some 2 := by
    rw [completedRoute_actualDuration]
    rfl
  refine ⟨by decide, h200, ?_, ?_, rfl⟩
  · rw [hfind]
    show some ((0 : Nat), (completedRoute { demoStartedRoute with bins := [] } 120000).actualDuration) =
      some (0, some 2)
    rw [hd]
  · rw [hfind]
    show some (averageTimePerBin
      (completedRoute { demoStartedRoute with bins := [] } 120000).actualDuration []) =
        some JsNumber.infinity
    rw [hd]
    simp [averageTimePerBin, JsNumber.div]

/-- In exact rational arithmetic `getProgress` is the specification's
`progress`: `round(100 · |completedBins| / |bins|)`, and 0 when `bins` is
empty. What separates the source from `progress` is the rounding of its
doubles alone. -/
theorem getProgress_is_specProgress (r : Route) :
    r.getProgress = specProgress r ∧
    (r.bins = [] → r.getProgress = 0) ∧
    (r.bins.length = 3 → r.completedBins.length = 1 → r.getProgress = 33) := by
  refine ⟨?_, ?_, ?_⟩
  · unfold Route.getProgress specProgress
    by_cases h : r.bins = []
    · simp [h]
    · have hl : r.bins.length ≠ 0 := by
        intro h0
        exact h (List.length_eq_zero.mp h0)
      rw [if_neg hl, if_neg h, mathRound_eq_round]
      congr 1
      ring
  · intro h
    simp [Route.getProgress, h]
  · intro h3 h1
    unfold Route.getProgress mathRound
    rw [h3, h1]
    simp only [OfNat.ofNat_ne_zero, if_false]
    rw [Int.floor_eq_iff]
    norm_num

/-- C18: `isOverdue` is true exactly when the status is `'active'`, the
scheduled date is before now and the progress is below 100; it is false when
the progress is 100 and when the status is not `'active'`. -/
theorem isOverdue_iff (r : Route) (now : Date) :
    (r.isOverdue now = true ↔
      r.status = RouteStatus.active ∧ r.scheduledDate < now ∧ r.getProgress < 100) ∧
    (r.getProgress = 100 → r.isOverdue now = false) ∧
    (r.status ≠ RouteStatus.active → r.isOverdue now = false) := by
  refine ⟨?_, ?_, ?_⟩
  · simp [Route.isOverdue, and_assoc]
  · intro h
    simp [Route.isOverdue, h]
  · intro h
    simp [Route.isOverdue, h]

/-- C19: `getRemainingBins` returns the entries of `bins` whose bin is not in
`completedBins`, and only those, in the order of `bins` and as often as they
occur in `bins`. -/
theorem getRemainingBins_spec (r : Route) :
    (r.getRemainingBins).Sublist r.bins ∧
    (∀ e, e ∈ r.getRemainingBins ↔ e ∈ r.bins ∧ e.bin ∉ r.completedBins) ∧
    (∀ e, e.bin ∉ r.completedBins → (r.getRemainingBins).count e = r.bins.count e) ∧
    (∀ e, e.bin ∈ r.completedBins → (r.getRemainingBins).count e = 0) := by
  refine ⟨List.filter_sublist _, ?_, ?_, ?_⟩
  · intro e
    simp [Route.getRemainingBins, List.mem_filter]
  · intro e he
    unfold Route.getRemainingBins
    rw [List.count_filter]
    simpa using he
  · intro e he
    rw [List.count_eq_zero]
    intro hmem
    have := List.mem_filter.mp hmem
    simp [he] at this

/-- C20: whatever the query point, the radius (5 when absent), the stored
bins and the distance function, the nearby-bins answer holds at most 20
entries, and each of them is a stored, active bin with its distance to the
query point, which is at most the radius. -/
theorem getNearbyBins_bounded (calculateDistance : Bin → ℚ → ℚ → ℚ) (s : Store)
    (query : NearbyQuery) :
    (getNearbyBins calculateDistance s query).2.length ≤ 20 ∧
    ∀ x ∈ (getNearbyBins calculateDistance s query).2,
      x.bin ∈ s.bins ∧ x.bin.isActive = true ∧ x.distance ≤ query.radius.getD 5 ∧
      ∃ latitude longitude, query.latitude = some latitude ∧
        query.longitude = some longitude ∧
        x.distance = calculateDistance x.bin latitude longitude := by
  unfold getNearbyBins
  split
  · rename_i latitude longitude hlat hlng
    refine ⟨List.length_take_le _ _, ?_⟩
    intro x hx
    have h1 := (List.mem_insertionSort _).mp (List.mem_of_mem_take hx)
    obtain ⟨h2, hdist⟩ := List.mem_filter.mp h1
    obtain ⟨bin, hbin, hxb⟩ := List.mem_map.mp h2
    obtain ⟨hmem, hactive⟩ := List.mem_filter.mp hbin
    subst hxb
    exact ⟨hmem, hactive, by simpa using hdist, latitude, longitude, hlat, hlng, rfl⟩
  · exact ⟨by simp, by simp⟩

/-- C21: the nearby-bins answer is sorted non-decreasing by distance; it holds
only candidates (active bins within the radius), as many as there are up to
20; every candidate that is left out is at least as far as every returned
bin; and among the candidates at one distance the answer holds the first
ones, in their input order. -/
theorem getNearbyBins_sorted_nearest_stable (calculateDistance : Bin → ℚ → ℚ → ℚ) (s : Store)
    (latitude longitude : ℚ) (radius : Option ℚ) :
    List.Pairwise (fun a b => a.distance ≤ b.distance)
      (getNearbyBins calculateDistance s
        { latitude := some latitude, longitude := some longitude, radius := radius }).2 ∧
    (∀ x ∈ (getNearbyBins calculateDistance s
        { latitude := some latitude, longitude := some longitude, radius := radius }).2,
      x ∈ nearbyCandidates calculateDistance s latitude longitude (radius.getD 5)) ∧
    (getNearbyBins calculateDistance s
        { latitude := some latitude, longitude := some longitude, radius := radius }).2.length =
      min 20 (nearbyCandidates calculateDistance s latitude longitude (radius.getD 5)).length ∧
    (∀ x ∈ nearbyCandidates calculateDistance s latitude longitude (radius.getD 5),
      x ∉ (getNearbyBins calculateDistance s
        { latitude := some latitude, longitude := some longitude, radius := radius }).2 →
      ∀ y ∈ (getNearbyBins calculateDistance s
        { latitude := some latitude, longitude := some longitude, radius := radius }).2,
        y.distance ≤ x.distance) ∧
    (∀ d : ℚ,
      ((getNearbyBins calculateDistance s
        { latitude := some latitude, longitude := some longitude, radius := radius }).2.filter
          (fun x => decide (x.distance = d))) <+:
      ((nearbyCandidates calculateDistance s latitude longitude (radius.getD 5)).filter
          (fun x => decide (x.distance = d)))) := by
  haveI := nearbyOrder_total
  haveI := nearbyOrder_trans
  rw [getNearbyBins_eq]
  have hsorted := List.sorted_insertionSort (fun a b : NearbyBin => a.distance ≤ b.distance)
    (nearbyCandidates calculateDistance s latitude longitude (radius.getD 5))
  refine ⟨?_, ?_, ?_, ?_, ?_⟩
  · exact List.Pairwise.sublist (List.take_sublist _ _) hsorted
  · intro x hx
    exact (List.mem_insertionSort _).mp (List.mem_of_mem_take hx)
  · rw [List.length_take, List.length_insertionSort]
  · intro x hx hnot y hy
    have hxs : x ∈ (nearbyCandidates calculateDistance s latitude longitude
        (radius.getD 5)).insertionSort (fun a b => a.distance ≤ b.distance) :=
      (List.mem_insertionSort _).mpr hx
    rw [← List.take_append_drop 20 ((nearbyCandidates calculateDistance s latitude longitude
        (radius.getD 5)).insertionSort (fun a b => a.distance ≤ b.distance))] at hxs hsorted
    have hdrop := (List.mem_append.mp hxs).resolve_left hnot
    exact (List.pairwise_append.mp hsorted).2.2 y hy x hdrop
  · intro d
    rw [← filter_insertionSort_distance d
      (nearbyCandidates calculateDistance s latitude longitude (radius.getD 5))]
    exact List.IsPrefix.filter _ (List.take_prefix _ _)

/-- C22: a bin needs collection exactly when its fill level is at least 80 or
`d` is at least its collection frequency, where `d` is the number of whole
days since `lastCollected`, or the collection frequency itself when the bin
was never collected; so a bin never collected always needs collection, and a
bin collected before needs it exactly when it is that full or that many days
of milliseconds have passed. -/
theorem needsCollection_iff (b : Bin) (now : Date) :
    (b.needsCollection now = true ↔
      b.currentFillLevel ≥ 80 ∨
        (match b.lastCollected with
          | some lastCollected => (now - lastCollected) / 86400000
          | none => b.collectionFrequency) ≥ b.collectionFrequency) ∧
    (b.lastCollected = none → b.needsCollection now = true) ∧
    (∀ lastCollected : Date, b.lastCollected = some lastCollected →
      (b.needsCollection now = true ↔
        b.currentFillLevel ≥ 80 ∨
          now - lastCollected ≥ b.collectionFrequency * 86400000)) := by
  refine ⟨?_, ?_, ?_⟩
  · unfold Bin.needsCollection
    cases b.lastCollected with
    | none => simp
    | some lastCollected =>
      simp only [floor_days, Bool.or_eq_true, decide_eq_true_eq]
  · intro h
    unfold Bin.needsCollection
    rw [h]
    simp
  · intro lastCollected h
    unfold Bin.needsCollection
    rw [h]
    simp only [floor_days, Bool.or_eq_true, decide_eq_true_eq, ge_iff_le, days_le_iff]

/-- C23: the status `updateStatus` derives is monotonic in the fill level:
of two bins, the one with the lower (or equal) fill level gets a status of
lower (or equal) rank in the order empty, partial, full, overflowing; the
same holds of `deriveStatus`. -/
theorem updateStatus_rank_monotonic (b1 b2 : Bin) (now1 now2 : Date)
    (h : b1.currentFillLevel ≤ b2.currentFillLevel) :
    (b1.updateStatus now1).status.rank ≤ (b2.updateStatus now2).status.rank ∧
    (deriveStatus b1.currentFillLevel).rank ≤ (deriveStatus b2.currentFillLevel).rank := by
  rw [Bin.updateStatus_status, Bin.updateStatus_status]
  exact ⟨deriveStatus_rank_mono _ _ h, deriveStatus_rank_mono _ _ h⟩

theorem updateStatus_rank_monotonic_witness :
    demoMaintenanceBin.currentFillLevel ≤ demoBin.currentFillLevel ∧
    (demoMaintenanceBin.updateStatus 1).status.rank = 1 ∧
    (demoBin.updateStatus 2).status.rank = 2 ∧
    (demoMaintenanceBin.updateStatus 1).status.rank ≤ (demoBin.updateStatus 2).status.rank :=
  ⟨by decide, by decide, by decide,
    (updateStatus_rank_monotonic demoMaintenanceBin demoBin 1 2 (by decide)).1⟩

/-- C24, counterexample: a resident requests a collection of the demo bin, the
collector completes it at time 5 and then sets it back to `'assigned'`; all
three requests are answered with success, and the stored collection is
`'assigned'` with `completedDate` 5. -/
theorem reopened_collection_keeps_completedDate :
    (createCollectionRequest demoFreshStore 1 100 demoResident
      { binId := 10, type := CollectionType.requested }).1 = 201 ∧
    (updateCollectionStatus demoRequested 5 demoCollector 100
      { status := CollectionStatus.completed }).1 = 200 ∧
    (updateCollectionStatus demoRequestCompleted 6 demoCollector 100
      { status := CollectionStatus.assigned }).1 = 200 ∧
    (demoRequestReopened.findCollection 100).map (fun c => (c.status, c.completedDate)) =
      some (CollectionStatus.assigned, some 5) ∧
    ¬ (∀ c ∈ demoRequestReopened.collections, c.completedDateIff) := by
  decide

/-- C24, amended: if every stored collection that is `'completed'` has its
`completedDate`, then so it is in every store reached through any sequence of
`createCollectionRequest` and `updateCollectionStatus` requests. -/
theorem completed_has_completedDate (s : Store) (requests : List CollectionRequest)
    (h : s.collectionsInv) : (s.reach requests).collectionsInv := by
  unfold Store.reach
  induction requests generalizing s with
  | nil => exact h
  | cons request rest ih =>
    rw [List.foldl_cons]
    exact ih _ (CollectionRequest.handle_collectionsInv s request h)

theorem completed_has_completedDate_witness :
    demoFreshStore.collectionsInv ∧
    (demoFreshStore.reach
      [CollectionRequest.create 1 100 demoResident
        { binId := 10, type := CollectionType.requested },
       CollectionRequest.updateStatus 5 demoCollector 100
        { status := CollectionStatus.completed }]).collectionsInv :=
  ⟨by decide, completed_has_completedDate demoFreshStore _ (by decide)⟩

/-- C26, failing run: two completions of two collections of the demo bin, whose
counter is 0. When each request loads the bin before the other saves it, both
save the counter 1 and the bin ends with 1; when the requests run one after
the other, as two calls of the handler do, it ends with 2. -/
theorem concurrent_completions_lose_bin_update :
    (demoTwoStore.findBin 10).map (fun b => b.statistics.totalCollections) = some 0 ∧
    ((InFlight.run 10 5 demoTwoStore
      [BinStep.load 1, BinStep.load 2, BinStep.save 1, BinStep.save 2]).findBin 10).map
        (fun b => b.statistics.totalCollections) = some 1 ∧
    ((InFlight.run 10 5 demoTwoStore
      [BinStep.load 1, BinStep.save 1, BinStep.load 2, BinStep.save 2]).findBin 10).map
        (fun b => b.statistics.totalCollections) = some 2 ∧
    (InFlight.run 10 5 demoTwoStore [BinStep.load 1, BinStep.save 1]).bins =
      (updateCollectionStatus demoTwoStore 5 demoCollector 100
        { status := CollectionStatus.completed }).2.bins ∧
    (InFlight.run 10 5 demoTwoStore
      [BinStep.load 1, BinStep.save 1, BinStep.load 2, BinStep.save 2]).bins =
      (updateCollectionStatus
        (updateCollectionStatus demoTwoStore 5 demoCollector 100
          { status := CollectionStatus.completed }).2 5 demoCollector 102
        { status := CollectionStatus.completed }).2.bins := by
  decide

/-- C27, counterexample: a route without bins satisfies the premises, each of
its (no) entries is completed, and its progress is 0, not 100. -/
theorem empty_route_progress_is_zero :
    demoRouteOfNone.completedBins.Nodup ∧ demoRouteOfNone.completedSubset ∧
    (demoRouteOfNone.bins.map (fun e => e.bin)).Nodup ∧
    (∀ e ∈ demoRouteOfNone.bins, e.bin ∈ demoRouteOfNone.completedBins) ∧
    demoRouteOfNone.getProgress = 0 ∧ demoRouteOfNone.getProgress ≠ 100 := by
  decide

/-- C27, amended: for a route whose `completedBins` has no duplicates and lies
within the bins of the route, `getProgress` is an integer in `[0, 100]`; and it
is 100 when the route has at least one bin, the bins are pairwise distinct
and each of them is completed; on a route without bins it is 0. -/
theorem getProgress_range_and_full (r : Route) (hnodup : r.completedBins.Nodup)
    (hsub : r.completedSubset) :
    0 ≤ r.getProgress ∧ r.getProgress ≤ 100 ∧
    (r.bins ≠ [] → (r.bins.map (fun e => e.bin)).Nodup →
      (∀ e ∈ r.bins, e.bin ∈ r.completedBins) → r.getProgress = 100) ∧
    (r.bins = [] → r.getProgress = 0) := by
  have hle := r.completedBins_length_le hnodup hsub
  refine ⟨(r.getProgress_range hle).1, (r.getProgress_range hle).2, ?_, ?_⟩
  · intro hne hdistinct hall
    apply r.getProgress_full hne
    have hge := (List.subperm_of_subset hdistinct (fun b hb => by
      rcases List.mem_map.mp hb with ⟨e, he, rfl⟩
      exact hall e he)).length_le
    rw [List.length_map] at hge
    omega
  · intro hnil
    unfold Route.getProgress
    rw [hnil]
    rfl

theorem getProgress_range_and_full_witness :
    demoRouteDone.completedBins.Nodup ∧ demoRouteDone.completedSubset ∧
    demoRouteDone.getProgress = 100 :=
  ⟨by decide, by decide,
    (getProgress_range_and_full demoRouteDone (by decide) (by decide)).2.2.1
      (by decide) (by decide) (by decide)⟩

/-- C28: on a route whose `completedBins` lies within its bins, the
dashboard's `getRouteProgress` returns the number the model's `getProgress`
returns. -/
theorem getRouteProgress_is_getProgress (r : Route) (hsub : r.completedSubset) :
    getRouteProgress r = JsNumber.finite (r.getProgress : ℚ) := by
  unfold getRouteProgress Route.getProgress
  rw [orZero_eq_getD, Option.getD_some]
  by_cases hb : r.bins.length = 0
  · have hbins : r.bins = [] := List.length_eq_zero.mp hb
    have hdone : r.completedBins = [] := by
      apply List.eq_nil_iff_forall_not_mem.mpr
      intro b hmem
      have := hsub b hmem
      rw [hbins] at this
      simp at this
    rw [if_pos hb, hdone, hbins]
    simp [JsNumber.div, JsNumber.mul, JsNumber.round, JsNumber.orZero]
  · have hq : ((r.bins.length : ℚ)) ≠ 0 := by
      exact_mod_cast hb
    rw [if_neg hb]
    simp only [JsNumber.div, hq, ne_eq, not_false_eq_true, if_true, JsNumber.mul,
      JsNumber.round, JsNumber.orZero]
    split_ifs with h0
    · rw [h0]
    · rfl

theorem getRouteProgress_is_getProgress_witness :
    demoRouteOfThree.completedSubset ∧
    getRouteProgress demoRouteOfThree = JsNumber.finite (demoRouteOfThree.getProgress : ℚ) :=
  ⟨by decide, getRouteProgress_is_getProgress demoRouteOfThree (by decide)⟩

/-- C29: a status update whose requested status is not `'completed'` leaves
the bins, the users and the routes as they were, and every collection under
another id as it was; and a request answered 403 or 404, whatever it asks for,
leaves the whole store as it was. -/
theorem noncompleting_update_changes_only_the_collection (s : Store) (now : Date)
    (user : User) (id : ObjectId) (body : UpdateStatusBody) :
    (body.status ≠ CollectionStatus.completed →
      (updateCollectionStatus s now user id body).2.bins = s.bins ∧
      (updateCollectionStatus s now user id body).2.users = s.users ∧
      (updateCollectionStatus s now user id body).2.routes = s.routes ∧
      (updateCollectionStatus s now user id body).2.collections.length =
        s.collections.length ∧
      (∀ j : ObjectId, j ≠ id →
        (updateCollectionStatus s now user id body).2.findCollection j =
          s.findCollection j)) ∧
    ((updateCollectionStatus s now user id body).1 = 403 ∨
      (updateCollectionStatus s now user id body).1 = 404 →
      (updateCollectionStatus s now user id body).2 = s) := by
  refine ⟨?_, updateCollectionStatus_rejected s now user id body⟩
  intro hst
  rcases updateCollectionStatus_other_result s now user id body hst with ⟨_, h⟩ | ⟨c, hc, _, h⟩
  · rw [h]
    exact ⟨rfl, rfl, rfl, rfl, fun _ _ => rfl⟩
  · rw [h]
    refine ⟨rfl, rfl, rfl, ?_, ?_⟩
    · simp [Store.putCollection]
    · intro j hj
      have hid : (applyStatusBody c body)._id = id := by
        rw [applyStatusBody_id]
        exact Store.findCollection_id hc
      exact find_replace_other (fun x : Collection => x._id) (applyStatusBody c body)
        s.collections j (by
          show j ≠ (applyStatusBody c body)._id
          rw [hid]
          exact hj)

/-- C30: without waste details the fee is 50; with weights counted as
non-negative it is at least 50; and of two compositions, the one whose
weights are category by category no larger has the fee that is no larger,
so the fee does not fall when one weight rises. -/
theorem calculateBulkCollectionFee_base_and_monotone (w1 w2 : WasteDetails) :
    calculateBulkCollectionFee none = 50 ∧
    (0 ≤ weightOrZero w1.general → 0 ≤ weightOrZero w1.recyclable →
      0 ≤ weightOrZero w1.organic → 0 ≤ weightOrZero w1.hazardous →
      50 ≤ calculateBulkCollectionFee (some w1)) ∧
    (weightOrZero w1.general ≤ weightOrZero w2.general →
      weightOrZero w1.recyclable ≤ weightOrZero w2.recyclable →
      weightOrZero w1.organic ≤ weightOrZero w2.organic →
      weightOrZero w1.hazardous ≤ weightOrZero w2.hazardous →
      calculateBulkCollectionFee (some w1) ≤ calculateBulkCollectionFee (some w2)) := by
  refine ⟨?_, ?_, ?_⟩
  · unfold calculateBulkCollectionFee
    dsimp only
    rw [show ((50 : ℚ) * 100) = ((5000 : Int) : ℚ) by norm_num, mathRound_intCast]
    norm_num
  · intro hg hr ho hh
    unfold calculateBulkCollectionFee
    dsimp only
    have hx : ((5000 : Int) : ℚ) ≤
        (50 + weightOrZero w1.general * (1 / 2) + weightOrZero w1.recyclable * (3 / 10) +
          weightOrZero w1.organic * (2 / 5) + weightOrZero w1.hazardous * 2) * 100 := by
      push_cast
      linarith
    have hm := mathRound_mono hx
    rw [mathRound_intCast] at hm
    have hq : ((5000 : Int) : ℚ) ≤ ((mathRound
        ((50 + weightOrZero w1.general * (1 / 2) + weightOrZero w1.recyclable * (3 / 10) +
          weightOrZero w1.organic * (2 / 5) + weightOrZero w1.hazardous * 2) * 100) : Int) : ℚ) := by
      exact_mod_cast hm
    push_cast at hq
    linarith
  · intro hg hr ho hh
    unfold calculateBulkCollectionFee
    dsimp only
    have hx : (50 + weightOrZero w1.general * (1 / 2) + weightOrZero w1.recyclable * (3 / 10) +
          weightOrZero w1.organic * (2 / 5) + weightOrZero w1.hazardous * 2) * 100 ≤
        (50 + weightOrZero w2.general * (1 / 2) + weightOrZero w2.recyclable * (3 / 10) +
          weightOrZero w2.organic * (2 / 5) + weightOrZero w2.hazardous * 2) * 100 := by
      linarith
    have hm := mathRound_mono hx
    have hq : ((mathRound
        ((50 + weightOrZero w1.general * (1 / 2) + weightOrZero w1.recyclable * (3 / 10) +
          weightOrZero w1.organic * (2 / 5) + weightOrZero w1.hazardous * 2) * 100) : Int) : ℚ) ≤
        ((mathRound
        ((50 + weightOrZero w2.general * (1 / 2) + weightOrZero w2.recyclable * (3 / 10) +
          weightOrZero w2.organic * (2 / 5) + weightOrZero w2.hazardous * 2) * 100) : Int) : ℚ) := by
      exact_mod_cast hm
    linarith

/-- C9, failing input: a bulk request with 28.23 of general waste. The sum
`50 + 0.5 · 28.23` is 64.115 and the specification's fee, rounded to 2 decimal
places, is 64.12. The source, in doubles, returns 64.11: the sum is delivered
just below 64.115, its hundredfold just below 6411.5, and `Math.round` takes
that to 6411. On the examples of the specification the source returns 59 and
50, as stated. -/
theorem bulk_fee_rounded_down_in_doubles :
    bulkFee (some demoWaste) = 6412 / 100 ∧
    Double.calculateBulkCollectionFee (some demoWaste) = Double.ofExact (6411 / 100) ∧
    Double.ofExact (6411 / 100) ≠ Double.ofExact (6412 / 100) ∧
    Double.calculateBulkCollectionFee (some demoWasteOfSpec) = JsNumber.finite 59 ∧
    Double.calculateBulkCollectionFee none = JsNumber.finite 50 := by
  refine ⟨?_, Double.calculateBulkCollectionFee_demoWaste, ?_,
    Double.calculateBulkCollectionFee_ofSpec, Double.calculateBulkCollectionFee_none⟩
  · have h : exactFee (some demoWaste) = 12823 / 200 := by
      simp [exactFee, specWeight, demoWaste]
      norm_num
    unfold bulkFee
    rw [h, round_eq]
    have hf : ⌊(12823 / 200 : ℚ) * 100 + 1 / 2⌋ = 6412 := by
      rw [Int.floor_eq_iff]
      constructor <;> norm_num
    rw [hf]
    norm_num
  · rw [Double.ofExact_cents.1, Double.ofExact_cents.2]
    intro h
    have h2 := JsNumber.finite.inj h
    norm_num at h2

/-- C17, failing input: a route of 40 bins with 23 completed. `100 · 23 / 40`
is 57.5, which rounds to 58. The source divides first, in doubles: `23 / 40`
is delivered just below 0.575, its hundredfold just below 57.5, and
`Math.round` takes that to 57. On the examples of the specification the
source returns 33 and 0, as stated. -/
theorem progress_rounded_down_in_doubles :
    demoRouteOfForty.bins.length = 40 ∧ demoRouteOfForty.completedBins.length = 23 ∧
    specProgress demoRouteOfForty = 58 ∧
    Double.getProgress demoRouteOfForty = JsNumber.finite 57 ∧
    Double.getProgress demoRouteOfThree = JsNumber.finite 33 ∧
    Double.getProgress demoRouteOfNone = JsNumber.finite 0 := by
  have hbins : demoRouteOfForty.bins.length = 40 := by
    simp [demoRouteOfForty]
  have hdone : demoRouteOfForty.completedBins.length = 23 := by
    simp [demoRouteOfForty]
  refine ⟨hbins, hdone, ?_, Double.getProgress_demoRouteOfForty,
    Double.getProgress_demoRouteOfThree, rfl⟩
  have hne : demoRouteOfForty.bins ≠ [] := by
    intro h
    rw [h] at hbins
    cases hbins
  unfold specProgress
  rw [if_neg hne, hbins, hdone, round_eq]
  rw [Int.floor_eq_iff]
  constructor <;> norm_num

end SmartBin
